import Mathlib

/-!
# opencode-session-export: session reader and Markdown generator

A shallow embedding of `internal/session` (types.go, reader.go),
`internal/markdown/generator.go`, and the file-name helpers and the two export
functions of `internal/cli/commands.go`, with the properties proved about them.

Conventions of the embedding

* Go `int64` values are `Int`; Go's `/` and `%` are `Int.tdiv` and `Int.tmod`.
* A `*T` field is `Option T`, `nil` being `none`; `json.RawMessage` is
  `Option String` (`nil` is `none`, `string(raw)` of `nil` is `""`).
* `md *strings.Builder` is modelled by the list of the strings handed to
  `md.WriteString`, in call order; `md.String()` is their concatenation.
* Functions of the Go standard library that format or decode (`Time.Format`,
  `%.1f`, `encoding/json`, `strings.Title`) are the fields of `GoLib`; every
  function of the program that calls one takes `L : GoLib`.
* `time.Time` values carry no monotonic reading here (they come from
  `time.UnixMilli` or `time.Time{}`), so a `Time` is seconds since
  January 1 of year 1 plus nanoseconds.
* Where a property names the text of a floating-point value or of
  `json.MarshalIndent`, the library is required to agree with an exact model
  (`GoLib.FormatsFloats`, `GoLib.MarshalsAsGo`): `float64` values are
  fractions rounded to 53 bits, ties to even.
* `sort.Slice` is the insertion sort of package sort on a slice of at most 12
  elements, as in `pdqsort_func`; on a longer slice it is a function of the
  library, of which the properties use the contract `GoLib.SortsAsGo` (a
  permutation ordered by the less function) and nothing else.
* The file system is a record of what `os.ReadDir`, `os.ReadFile` and
  `os.Stat` answer (`FileSystem`); the process environment that package
  config reads is a record too (`Env`).
* The export functions pass a `World` along, the file system and the texts
  printed so far; `os.MkdirAll` and `os.WriteFile` are the fields of `Os` and
  give the file system after the call. A function ends in an `Outcome`: nil,
  an error, or the run-time panic of a slice expression out of range.
-/

namespace OpencodeExport

/-! ## Go `time` -/

/-- Go `time.Time` without monotonic reading: seconds since 0001-01-01 00:00:00 UTC
and nanoseconds within that second. -/
structure Time where
  sec : Int
  nsec : Int
deriving DecidableEq, Repr

/-- Go `time.Duration`: a count of nanoseconds. -/
abbrev Duration := Int

/-- Seconds from year 1 to the Unix epoch (`unixToInternal` of package time). -/
def unixToInternal : Int := 62135596800

/-- The zero value `time.Time{}`. -/
def Time.zero : Time := ⟨0, 0⟩

/-- Go `time.Unix(sec, nsec)`. -/
def Unix (sec nsec : Int) : Time :=
  if nsec < 0 ∨ nsec ≥ 1000000000 then
    let n := Int.tdiv nsec 1000000000
    let sec1 := sec + n
    let nsec1 := nsec - n * 1000000000
    if nsec1 < 0 then ⟨sec1 - 1 + unixToInternal, nsec1 + 1000000000⟩
    else ⟨sec1 + unixToInternal, nsec1⟩
  else ⟨sec + unixToInternal, nsec⟩

/-- Go `time.UnixMilli(msec)`. -/
def UnixMilli (msec : Int) : Time :=
  Unix (Int.tdiv msec 1000) (Int.tmod msec 1000 * 1000000)

/-- Go `t.Before(u)`. -/
def Time.Before (t u : Time) : Prop :=
  t.sec < u.sec ∨ (t.sec = u.sec ∧ t.nsec < u.nsec)

/-- Go `t.After(u)`. -/
def Time.After (t u : Time) : Prop :=
  t.sec > u.sec ∨ (t.sec = u.sec ∧ t.nsec > u.nsec)

/-- Go `t.Equal(u)`. -/
def Time.Equal (t u : Time) : Prop :=
  t.sec = u.sec ∧ t.nsec = u.nsec

/-- Go `t.IsZero()`. -/
def Time.IsZero (t : Time) : Prop :=
  t.sec = 0 ∧ t.nsec = 0

instance (t u : Time) : Decidable (t.Before u) := by unfold Time.Before; infer_instance
instance (t u : Time) : Decidable (t.After u) := by unfold Time.After; infer_instance
instance (t u : Time) : Decidable (t.Equal u) := by unfold Time.Equal; infer_instance
instance (t : Time) : Decidable t.IsZero := by unfold Time.IsZero; infer_instance

def minDuration : Duration := -9223372036854775808
def maxDuration : Duration := 9223372036854775807

/-- Go `t.Sub(u)`: the difference in nanoseconds, saturated to the range of
`Duration` (Go computes the difference in `int64`, detects a wrapped result by
adding it back to `u`, and then returns `minDuration` or `maxDuration`). -/
def Time.Sub (t u : Time) : Duration :=
  let d := (t.sec - u.sec) * 1000000000 + (t.nsec - u.nsec)
  if minDuration ≤ d ∧ d ≤ maxDuration then d
  else if t.Before u then minDuration
  else maxDuration

def Second : Duration := 1000000000
def Minute : Duration := 60 * Second
def Hour : Duration := 60 * Minute

/-! ## internal/session/types.go -/

/-- Go `json.RawMessage`; `none` is the nil slice. -/
abbrev RawMessage := Option String

/-- Go `string(raw)`. -/
def RawMessage.toStr (raw : RawMessage) : String := raw.getD ""

/-- Go `float64` as it is decoded from JSON: a finite value, kept as a rational. -/
abbrev Float64 := ℚ

structure TimeInfo where
  Created : Int
  Updated : Int
deriving DecidableEq, Repr

structure SessionInfo where
  ID : String
  ParentID : Option String
  Title : String
  Version : String
  Time : TimeInfo
  ShareURL : Option String
deriving DecidableEq, Repr

def SessionInfo.GetCreatedAt (s : SessionInfo) : OpencodeExport.Time := UnixMilli s.Time.Created

def SessionInfo.GetUpdatedAt (s : SessionInfo) : OpencodeExport.Time := UnixMilli s.Time.Updated

structure Message where
  ID : String
  SessionID : String
  Role : String
  Time : Option TimeInfo
  Model : Option String
  Provider : Option String
  Cost : Option Float64
  InputTokens : Option Int
  OutputTokens : Option Int
  CompletedAt : Option Int
deriving DecidableEq, Repr

def Message.GetCreatedAt (m : Message) : OpencodeExport.Time :=
  match m.Time with
  | none => Time.zero
  | some t => UnixMilli t.Created

structure PartTimeData where
  Start : Int
  End : Int
deriving DecidableEq, Repr

/-- The Go field `Type` is written `Type_`. -/
structure MessagePart where
  ID : String
  MessageID : String
  SessionID : String
  Type_ : String
  Text : Option String
  Tool : Option String
  CallID : Option String
  State : RawMessage
  Data : RawMessage
  Time : Option PartTimeData
deriving DecidableEq, Repr

def MessagePart.GetCreatedAt (p : MessagePart) : OpencodeExport.Time :=
  match p.Time with
  | none => Time.zero
  | some t => UnixMilli t.Start

structure TextPartData where
  Text : String
deriving DecidableEq, Repr

structure ToolTimeData where
  Start : Int
  End : Int
deriving DecidableEq, Repr

/-- A decoded `interface{}`: what `encoding/json` stores into an empty
interface. `null` is the nil interface. -/
inductive Value where
  | null : Value
  | bool : Bool → Value
  | number : Float64 → Value
  | string : String → Value
  | array : List Value → Value
  | object : List (String × Value) → Value

structure ToolStateData where
  Status : String
  Input : RawMessage
  Output : Value
  Metadata : RawMessage
  Title : Option String
  Time : Option ToolTimeData

structure ToolPartData where
  Tool : String
  CallID : String
  State : ToolStateData

structure FilePartData where
  Name : String
  MimeType : String
  Size : Option Int
  URL : Option String
deriving DecidableEq, Repr

structure Session where
  Info : SessionInfo
  Messages : List Message
  Parts : List MessagePart
deriving DecidableEq, Repr

/-- The local variable `sessionMeta` of `listSessionsNewFormat` (reader.go), a
struct of the fields `id` and `directory` of a session file. -/
structure SessionMeta where
  ID : String
  Directory : String
deriving DecidableEq, Repr

/-! ## The Go standard library, as far as the program calls it -/

/-- Go `error` values are kept by their message, which is what `%v` prints. -/
abbrev GoError := String

/-- A Go `string` where the program slices it by byte offsets: its bytes. -/
abbrev GoString := List UInt8

/-- The bytes of a text, in UTF-8. -/
def utf8 (s : String) : GoString := s.data.flatMap String.utf8EncodeChar

/-- The formatting and decoding functions of the Go standard library that the
program calls and this development does not model. `unmarshalX raw` stands
for `json.Unmarshal(raw, &x)` with `x` a zero value of type X. -/
structure GoLib where
  /-- Go strings.Title -/
  Title : String → String
  /-- Go t.Format(layout), in the local time zone of the process -/
  Format : Time → String → String
  /-- Go fmt.Sprintf("%.1f", d.Seconds()) -/
  sprintfSeconds : Duration → String
  /-- Go fmt.Sprintf("%.1f", d.Minutes()) -/
  sprintfMinutes : Duration → String
  /-- Go fmt.Sprintf("%.1f", d.Hours()) -/
  sprintfHours : Duration → String
  /-- Go fmt.Sprintf("%.1f", float64(bytes)/float64(div)) -/
  sprintfQuotient : Int → Int → String
  /-- Go fmt.Sprintf("%.4f", x) -/
  sprintfCost : Float64 → String
  /-- Go fmt.Sprintf("%v", v) -/
  sprintfValue : Value → String
  /-- Go json.MarshalIndent(v, "", "  ") -/
  marshalIndent : Value → Except GoError String
  unmarshalValue : RawMessage → Except GoError Value
  unmarshalString : RawMessage → Except GoError String
  unmarshalTextPartData : RawMessage → Except GoError TextPartData
  unmarshalToolPartData : RawMessage → Except GoError ToolPartData
  unmarshalToolStateData : RawMessage → Except GoError ToolStateData
  unmarshalFilePartData : RawMessage → Except GoError FilePartData
  unmarshalMessage : String → Except GoError Message
  unmarshalMessagePart : String → Except GoError MessagePart
  unmarshalSessionInfo : String → Except GoError SessionInfo
  unmarshalSessionMeta : String → Except GoError SessionMeta
  /-- The text that encoding/json writes for a float64 -/
  jsonNumber : Float64 → String
  /-- The text that encoding/json writes for a string: quoted and escaped -/
  jsonString : String → String
  /-- Go strings.TrimFunc(s, unicode.IsSpace) -/
  TrimFuncIsSpace : GoString → GoString
  /-- Go strings.TrimRightFunc(s, unicode.IsSpace) -/
  TrimRightFuncIsSpace : GoString → GoString
  /-- What pdqsort_func of package sort makes of a slice of more than 12
  elements, the less function given on the elements -/
  pdqsort : (α : Type) → (α → α → Bool) → List α → List α

/-- Go `strings.HasPrefix`. -/
def HasPrefix (s pre : String) : Bool := pre.data.isPrefixOf s.data

/-- Go `strings.Contains`. -/
def Contains (s substr : String) : Bool := decide (substr.data <:+: s.data)

/-! ## internal/markdown/generator.go -/

structure Generator where
  includeCosts : Bool
  includeTimings : Bool
  includeSnapshots : Bool
deriving DecidableEq, Repr

structure Options where
  IncludeCosts : Bool
  IncludeTimings : Bool
  IncludeSnapshots : Bool
deriving DecidableEq, Repr

def NewGenerator (opts : Options) : Generator :=
  { includeCosts := opts.IncludeCosts
    includeTimings := opts.IncludeTimings
    includeSnapshots := opts.IncludeSnapshots }

def getStatusIcon (state : String) : String :=
  if state = "completed" then "✅"
  else if state = "error" then "❌"
  else if state = "running" then "🔄"
  else if state = "pending" then "⏳"
  else "❓"

def getFileIcon (mimeType : String) : String :=
  if HasPrefix mimeType "image/" then "🖼️"
  else if HasPrefix mimeType "text/" then "📄"
  else if Contains mimeType "json" then "📋"
  else if Contains mimeType "pdf" then "📕"
  else "📎"

def getLanguageFromTool (toolName : String) : String :=
  if toolName = "bash" ∨ toolName = "shell" then "bash"
  else if toolName = "read" ∨ toolName = "write" ∨ toolName = "edit" then ""
  else if toolName = "grep" ∨ toolName = "glob" then ""
  else ""

def formatDuration (L : GoLib) (d : Duration) : String :=
  if d < Minute then L.sprintfSeconds d ++ "s"
  else if d < Hour then L.sprintfMinutes d ++ "m"
  else L.sprintfHours d ++ "h"

/-- The value an `int64` holds after an arithmetic result `x`: `x` reduced
modulo 2^64 into the range from -2^63 to 2^63 - 1. -/
def wrapInt64 (x : Int) : Int :=
  (x + 9223372036854775808) % 18446744073709551616 - 9223372036854775808

/-- The loop of `formatFileSize`: `for n := bytes / unit; n >= unit; n /= unit`,
carrying `div` and `exp`; `div *= unit` is an `int64` multiplication. -/
def formatFileSizeLoop (n div : Int) (exp : Nat) : Int × Nat :=
  if 1024 ≤ n then formatFileSizeLoop (Int.tdiv n 1024) (wrapInt64 (div * 1024)) (exp + 1)
  else (div, exp)
termination_by n.toNat
decreasing_by
  have h1 : Int.tdiv n 1024 = n / 1024 := Int.tdiv_eq_ediv (by omega) (by omega)
  omega

/-- The index expression `"KMGTPE"[exp]`; `none` is Go's index-out-of-range panic. -/
def unitLetter (exp : Nat) : Option Char := "KMGTPE".data.get? exp

/-- Go `formatFileSize`; `none` is the panic of the index expression. -/
def formatFileSize (L : GoLib) (bytes : Int) : Option String :=
  if bytes < 1024 then some (toString bytes ++ " B")
  else
    let r := formatFileSizeLoop (Int.tdiv bytes 1024) 1024 0
    match unitLetter r.2 with
    | some c => some (L.sprintfQuotient bytes r.1 ++ " " ++ String.singleton c ++ "B")
    | none => none

def writeCodeBlock (L : GoLib) (data : RawMessage) (toolName : String) : List String :=
  let lang := getLanguageFromTool toolName
  ["```" ++ lang ++ "\n"] ++
  (if lang = "json" then
    match L.unmarshalValue data with
    | .ok prettyData =>
      match L.marshalIndent prettyData with
      | .ok prettyJSON => [prettyJSON]
      | .error _ => [data.toStr]
    | .error _ => [data.toStr]
  else
    match L.unmarshalString data with
    | .ok strData => [strData]
    | .error _ => [data.toStr]) ++
  ["\n```"]

def writeTextPart (L : GoLib) (part : MessagePart) : List String :=
  match part.Text with
  | some text => [text, "\n\n"]
  | none =>
    match L.unmarshalTextPartData part.Data with
    | .error err => ["*[Error parsing text part: " ++ err ++ "]*\n\n"]
    | .ok textData => [textData.Text, "\n\n"]

/-- The "Tool output" block shared, statement for statement, by
`writeToolPartDirect` and `writeToolPartFromData`. -/
def writeToolOutput (L : GoLib) (output : Value) : List String :=
  match output with
  | .null => []
  | .string outputStr => ["**Output:**\n", "```\n", outputStr, "\n```\n\n"]
  | v =>
    ["**Output:**\n"] ++
    (match L.marshalIndent v with
     | .ok outputJSON => ["```json\n", outputJSON, "\n```\n\n"]
     | .error _ => ["```\n", L.sprintfValue v, "\n```\n\n"])

def writeToolPartDirect (L : GoLib) (g : Generator) (part : MessagePart) : List String :=
  match L.unmarshalToolStateData part.State with
  | .error err => ["*[Error parsing tool state: " ++ err ++ "]*\n\n"]
  | .ok state =>
    let statusIcon := getStatusIcon state.Status
    let toolName := part.Tool.getD ""
    ["#### " ++ statusIcon ++ " " ++ toolName] ++
    (match state.Title with
     | some title => [" - \"" ++ title ++ "\""]
     | none => []) ++
    ["\n"] ++
    ["**Status:** " ++ statusIcon ++ " " ++ L.Title state.Status] ++
    (match state.Time with
     | some t =>
       if g.includeTimings then
         [" | **Duration:** " ++ formatDuration L ((UnixMilli t.End).Sub (UnixMilli t.Start))]
       else []
     | none => []) ++
    ["\n\n"] ++
    (match state.Input with
     | some input => ["**Input:**\n"] ++ writeCodeBlock L (some input) toolName ++ ["\n"]
     | none => []) ++
    writeToolOutput L state.Output

def writeToolPartFromData (L : GoLib) (g : Generator) (toolData : ToolPartData) : List String :=
  let statusIcon := getStatusIcon toolData.State.Status
  ["#### " ++ statusIcon ++ " " ++ toolData.Tool] ++
  (match toolData.State.Title with
   | some title => [" - \"" ++ title ++ "\""]
   | none => []) ++
  ["\n"] ++
  ["**Status:** " ++ statusIcon ++ " " ++ L.Title toolData.State.Status] ++
  (match toolData.State.Time with
   | some t =>
     if g.includeTimings then
       [" | **Duration:** " ++ formatDuration L ((UnixMilli t.End).Sub (UnixMilli t.Start))]
     else []
   | none => []) ++
  ["\n\n"] ++
  (match toolData.State.Input with
   | some input => ["**Input:**\n"] ++ writeCodeBlock L (some input) toolData.Tool ++ ["\n"]
   | none => []) ++
  writeToolOutput L toolData.State.Output

def writeToolPart (L : GoLib) (g : Generator) (part : MessagePart) : List String :=
  if part.Tool.isSome ∧ part.State.isSome then writeToolPartDirect L g part
  else
    match L.unmarshalToolPartData part.Data with
    | .error err => ["*[Error parsing tool part: " ++ err ++ "]*\n\n"]
    | .ok toolData => writeToolPartFromData L g toolData

def writeFilePart (L : GoLib) (part : MessagePart) : List String :=
  match L.unmarshalFilePartData part.Data with
  | .error err => ["*[Error parsing file part: " ++ err ++ "]*\n"]
  | .ok fileData =>
    let icon := getFileIcon fileData.MimeType
    ["- " ++ icon ++ " `" ++ fileData.Name ++ "`"] ++
    (match fileData.Size with
     | some size =>
       -- the index of formatFileSize is in range for every 64-bit size
       -- (formatFileSize_isSome), so the second branch is not taken
       match formatFileSize L size with
       | some text => [" (" ++ text ++ ")"]
       | none => []
     | none => []) ++
    [" (" ++ fileData.MimeType ++ ")"] ++
    ["\n"]

def writeOtherPart (L : GoLib) (part : MessagePart) : List String :=
  ["### " ++ L.Title part.Type_ ++ " Part\n\n"] ++
  ["```json\n"] ++
  (match L.unmarshalValue part.Data with
   | .ok prettyData =>
     match L.marshalIndent prettyData with
     | .ok prettyJSON => [prettyJSON]
     | .error _ => [part.Data.toStr]
   | .error _ => [part.Data.toStr]) ++
  ["\n```\n\n"]

/-- The four slices that the first loop of `writeParts` fills. -/
structure Buckets where
  textParts : List MessagePart
  toolParts : List MessagePart
  fileParts : List MessagePart
  otherParts : List MessagePart
deriving DecidableEq, Repr

/-- One iteration of the grouping loop of `writeParts` (the `switch part.Type`). -/
def groupStep (b : Buckets) (part : MessagePart) : Buckets :=
  if part.Type_ = "text" then { b with textParts := b.textParts ++ [part] }
  else if part.Type_ = "tool" then { b with toolParts := b.toolParts ++ [part] }
  else if part.Type_ = "file" then { b with fileParts := b.fileParts ++ [part] }
  else if part.Type_ = "step-start" ∨ part.Type_ = "step-finish" then b
  else { b with otherParts := b.otherParts ++ [part] }

/-- The grouping loop of `writeParts`. -/
def groupByType (parts : List MessagePart) : Buckets :=
  parts.foldl groupStep ⟨[], [], [], []⟩

def writeParts (L : GoLib) (g : Generator) (parts : List MessagePart) : List String :=
  let b := groupByType parts
  b.textParts.flatMap (writeTextPart L) ++
  (if b.fileParts.length > 0 then
    ["### Attachments\n\n"] ++ b.fileParts.flatMap (writeFilePart L) ++ ["\n"]
   else []) ++
  (if b.toolParts.length > 0 then
    ["### Tool Executions\n\n"] ++ b.toolParts.flatMap (writeToolPart L g)
   else []) ++
  b.otherParts.flatMap (writeOtherPart L)

/-- The order in which the four writing loops of `writeParts` visit the parts. -/
def emissionOrder (parts : List MessagePart) : List MessagePart :=
  let b := groupByType parts
  b.textParts ++ b.fileParts ++ b.toolParts ++ b.otherParts

def writeMessage (L : GoLib) (g : Generator) (msg : Message) (parts : List MessagePart)
    (messageNum : Nat) : List String :=
  let role := L.Title msg.Role
  ["## Message " ++ toString messageNum ++ ": " ++ role ++ "\n"] ++
  ["**Timestamp:** " ++ L.Format msg.GetCreatedAt "15:04:05"] ++
  (if msg.Role = "assistant" then
    (match msg.Model with
     | some model => [" | **Model:** " ++ model]
     | none => []) ++
    (match msg.Cost with
     | some cost => if g.includeCosts then [" | **Cost:** $" ++ L.sprintfCost cost] else []
     | none => []) ++
    (match msg.InputTokens, msg.OutputTokens with
     | some i, some o => [" | **Tokens:** " ++ toString i ++ " in, " ++ toString o ++ " out"]
     | _, _ => [])
   else []) ++
  ["\n\n"] ++
  writeParts L g parts ++
  ["---\n\n"]

def writeSessionHeader (L : GoLib) (info : SessionInfo) : List String :=
  ["# Session: " ++ info.Title ++ "\n\n"] ++
  ["**Session ID:** `" ++ info.ID ++ "`  \n"] ++
  ["**Created:** " ++ L.Format info.GetCreatedAt "2006-01-02 15:04:05" ++ "  \n"] ++
  (let createdAt := info.GetCreatedAt
   let updatedAt := info.GetUpdatedAt
   if ¬ updatedAt.IsZero ∧ ¬ updatedAt.Equal createdAt then
     let duration := updatedAt.Sub createdAt
     ["**Duration:** " ++ formatDuration L duration ++ "  \n"]
   else []) ++
  (match info.ShareURL with
   | some url => ["**Share URL:** " ++ url ++ "  \n"]
   | none => []) ++
  ["\n---\n\n"]

/-- Go `map[string][]session.MessagePart`, a missing key reading as the nil slice. -/
abbrev PartsByMessage := String → List MessagePart

def groupPartsByMessage (parts : List MessagePart) : PartsByMessage :=
  parts.foldl
    (fun result part => Function.update result part.MessageID (result part.MessageID ++ [part]))
    (fun _ => [])

/-- The loop `for i, message := range sess.Messages` of `Generate`, from index `i`. -/
def writeMessages (L : GoLib) (g : Generator) (partsByMessage : PartsByMessage) :
    List Message → Nat → List String
  | [], _ => []
  | message :: rest, i =>
    writeMessage L g message (partsByMessage message.ID) (i + 1) ++
      writeMessages L g partsByMessage rest (i + 1)

/-- The writes of `Generate`, in order. -/
def generateWrites (L : GoLib) (g : Generator) (sess : Session) : List String :=
  writeSessionHeader L sess.Info ++
  writeMessages L g (groupPartsByMessage sess.Parts) sess.Messages 0

/-- Go `Generate`: the Markdown and the error, which is always nil. -/
def Generate (L : GoLib) (g : Generator) (sess : Session) : String × Option GoError :=
  (String.join (generateWrites L g sess), none)

/-! ## Go `sort.Slice` -/

/-- The inner loop of the insertion sort of package sort,
`for j := i; j > a && less(j, j-1); j--  swap(j, j-1)`: the element `x` moves
down past every predecessor it is less than. The sorted prefix is held in
reverse, its last element first. -/
def sinkInto {α : Type} (less : α → α → Bool) (x : α) : List α → List α
  | [] => [x]
  | y :: ys => if less x y then y :: sinkInto less x ys else x :: y :: ys

/-- The insertion sort of package sort, `insertionSort_func(data, 0, n)`:
`for i := 1; i < n; i++` sinks `data[i]` into the sorted `data[0:i]`. It is
stable. -/
def insertionSort_func {α : Type} (less : α → α → Bool) (data : List α) : List α :=
  (data.foldl (fun sortedRev x => sinkInto less x sortedRev) []).reverse

/-- Go `sort.Slice(x, less)`, which calls `pdqsort_func` on the whole slice:
a slice of at most 12 elements (`maxInsertion`) is sorted by the insertion
sort; a longer slice goes through pattern-defeating quicksort, which is a
function of the library here. The program's less functions compare the
elements at two indices, so `less` is given on the elements. -/
def sortSlice (L : GoLib) {α : Type} (less : α → α → Bool) (x : List α) : List α :=
  if x.length ≤ 12 then insertionSort_func less x else L.pdqsort α less x

/-- The contract of package sort for a slice of more than 12 elements: under
a less function that is asymmetric and whose negation is transitive (a strict
weak order), the result holds the elements of the slice, each as often, and no
element of it is less than an element before it. Nothing is said of the order
of elements that `less` does not separate: the sort is not stable. -/
def GoLib.SortsAsGo (L : GoLib) : Prop :=
  ∀ (α : Type) (less : α → α → Bool) (x : List α),
    (∀ a b, less a b = true → less b a = false) →
    (∀ a b c, less a b = false → less b c = false → less a c = false) →
    (L.pdqsort α less x).Perm x ∧
    (L.pdqsort α less x).Pairwise (fun a b => less b a = false)

/-! ## internal/session/reader.go -/

/-- A Go error of package os, with what `os.IsNotExist` answers for it. -/
structure OsError where
  message : GoError
  isNotExist : Bool
deriving DecidableEq, Repr

/-- Go `os.DirEntry`, as far as the reader looks at it. -/
structure DirEntry where
  Name : String
  IsDir : Bool
deriving DecidableEq, Repr

/-- The state of the file system as the reader observes it, with
`filepath.Join`. -/
structure FileSystem where
  ReadDir : String → Except OsError (List DirEntry)
  ReadFile : String → Except OsError String
  Stat : String → Option OsError
  Join : List String → String

structure Reader where
  storageDir : String
  projectPath : String
deriving DecidableEq, Repr

/-- Go `strings.HasSuffix`. -/
def HasSuffix (s suffix : String) : Bool := suffix.data.isSuffixOf s.data

/-- The less function that `ReadMessages` hands to `sort.Slice`. -/
def messageLess (a b : Message) : Bool := decide (a.GetCreatedAt.Before b.GetCreatedAt)

/-- The less function that `ReadMessageParts` hands to `sort.Slice`. -/
def partLess (a b : MessagePart) : Bool := decide (a.GetCreatedAt.Before b.GetCreatedAt)

/-- The body of the loop of `ReadMessages` over the directory entries: the
message decoded from one entry, `none` where the loop appends nothing. -/
def loadMessage (L : GoLib) (fs : FileSystem) (messageDir : String) (entry : DirEntry) :
    Option Message :=
  if entry.IsDir then none
  else if HasSuffix entry.Name ".json" then
    match fs.ReadFile (fs.Join [messageDir, entry.Name]) with
    | .error _ => none
    | .ok data =>
      match L.unmarshalMessage data with
      | .error _ => none
      | .ok message => some message
  else none

/-- The loop of `ReadMessages` over the directory entries. -/
def loadMessages (L : GoLib) (fs : FileSystem) (messageDir : String)
    (entries : List DirEntry) : List Message :=
  entries.foldl
    (fun messages entry =>
      match loadMessage L fs messageDir entry with
      | some message => messages ++ [message]
      | none => messages)
    []

/-- The variable `messageDir` of `ReadMessages`. -/
def messageDir (fs : FileSystem) (r : Reader) (sessionID : String) : String :=
  if r.projectPath ≠ "" then fs.Join [r.storageDir, "message", sessionID]
  else fs.Join [r.storageDir, "session", "message", sessionID]

def ReadMessages (L : GoLib) (fs : FileSystem) (r : Reader) (sessionID : String) :
    Except GoError (List Message) :=
  match fs.ReadDir (messageDir fs r sessionID) with
  | .error err =>
    if err.isNotExist then .ok []
    else .error ("failed to read message directory: " ++ err.message)
  | .ok entries =>
    .ok (sortSlice L messageLess (loadMessages L fs (messageDir fs r sessionID) entries))

/-- The body of the loop of `ReadMessageParts` over the directory entries. -/
def loadPart (L : GoLib) (fs : FileSystem) (partDir : String) (entry : DirEntry) :
    Option MessagePart :=
  if entry.IsDir then none
  else if HasSuffix entry.Name ".json" then
    match fs.ReadFile (fs.Join [partDir, entry.Name]) with
    | .error _ => none
    | .ok data =>
      match L.unmarshalMessagePart data with
      | .error _ => none
      | .ok part => some part
  else none

/-- The loop of `ReadMessageParts` over the directory entries. -/
def loadParts (L : GoLib) (fs : FileSystem) (partDir : String)
    (entries : List DirEntry) : List MessagePart :=
  entries.foldl
    (fun parts entry =>
      match loadPart L fs partDir entry with
      | some part => parts ++ [part]
      | none => parts)
    []

/-- The variable `partDir` of `ReadMessageParts`. -/
def partDir (fs : FileSystem) (r : Reader) (sessionID messageID : String) : String :=
  if r.projectPath ≠ "" then fs.Join [r.storageDir, "part", messageID]
  else fs.Join [r.storageDir, "session", "part", sessionID, messageID]

def ReadMessageParts (L : GoLib) (fs : FileSystem) (r : Reader) (sessionID messageID : String) :
    Except GoError (List MessagePart) :=
  match fs.ReadDir (partDir fs r sessionID messageID) with
  | .error err =>
    if err.isNotExist then .ok []
    else .error ("failed to read part directory: " ++ err.message)
  | .ok entries =>
    .ok (sortSlice L partLess (loadParts L fs (partDir fs r sessionID messageID) entries))

/-! ## internal/cli/commands.go: export file names -/

/-- The table `asciiSpace` of package strings: tab, line feed, vertical tab,
form feed, carriage return, space. -/
def asciiSpace (c : UInt8) : Bool :=
  c = 9 ∨ c = 10 ∨ c = 11 ∨ c = 12 ∨ c = 13 ∨ c = 32

/-- The second loop of `strings.TrimSpace`, which moves `stop` down from the
end; the argument is `s[start:stop]` reversed. -/
def trimSpaceStop (L : GoLib) : GoString → GoString
  | [] => []
  | c :: rest =>
    if c ≥ 128 then L.TrimRightFuncIsSpace (c :: rest).reverse
    else if asciiSpace c then trimSpaceStop L rest
    else (c :: rest).reverse

/-- Go `strings.TrimSpace`: the first loop moves `start` up over ASCII space,
the second moves `stop` down; at a byte that is not ASCII either loop hands
the rest to the Unicode-aware functions. -/
def TrimSpace (L : GoLib) : GoString → GoString
  | [] => []
  | c :: rest =>
    if c ≥ 128 then L.TrimFuncIsSpace (c :: rest)
    else if asciiSpace c then TrimSpace L rest
    else trimSpaceStop L (c :: rest).reverse

/-- Go `strings.ReplaceAll(s, old, new)` for a non-empty `old`, which is what
the program passes: occurrences are replaced from left to right without
overlap. `skip` counts the bytes still to pass of the occurrence just replaced. -/
def replaceFrom (old new : GoString) : Nat → GoString → GoString
  | _, [] => []
  | skip + 1, _ :: rest => replaceFrom old new skip rest
  | 0, c :: rest =>
    if old ≠ [] ∧ old.isPrefixOf (c :: rest) then new ++ replaceFrom old new (old.length - 1) rest
    else c :: replaceFrom old new 0 rest

def ReplaceAll (s old new : GoString) : GoString := replaceFrom old new 0 s

/-- The slice `invalid` of `sanitizeFilename`:
slash, backslash, colon, asterisk, question mark, double quote, less-than,
greater-than, vertical bar. -/
def invalid : List GoString := [[47], [92], [58], [42], [63], [34], [60], [62], [124]]

def sanitizeFilename (L : GoLib) (name : GoString) : GoString :=
  let result := invalid.foldl (fun result char => ReplaceAll result char [95]) name
  let result := if result.length > 50 then result.take 50 else result
  TrimSpace L result

/-- The slice expression `sessionID[:8]`; `none` is Go's slice-bounds panic. -/
def sessionIDPrefix (sessionID : GoString) : Option GoString :=
  if 8 ≤ sessionID.length then some (sessionID.take 8) else none

/-- The file name that `exportMultipleSessions` builds,
`fmt.Sprintf("%s_%s.md", sanitizeFilename(sess.Info.Title), sessionID[:8])`. -/
def exportFilename (L : GoLib) (title sessionID : GoString) : Option GoString :=
  match sessionIDPrefix sessionID with
  | some pre => some (sanitizeFilename L title ++ [95] ++ pre ++ utf8 ".md")
  | none => none

/-! ## Vocabulary of the properties -/

/-- The creation time of part `a` is not after that of part `b`. -/
def partNotAfter (a b : MessagePart) : Prop := ¬ b.GetCreatedAt.Before a.GetCreatedAt

/-- The creation time of message `a` is not after that of message `b`. -/
def messageNotAfter (a b : Message) : Prop := ¬ b.GetCreatedAt.Before a.GetCreatedAt

/-- A part of type `step-start` or `step-finish`. -/
def isStepPart (p : MessagePart) : Bool :=
  decide (p.Type_ = "step-start" ∨ p.Type_ = "step-finish")

/-- A part whose type is none of text, tool, file, step-start, step-finish. -/
def isOtherPart (p : MessagePart) : Bool :=
  decide (p.Type_ ≠ "text" ∧ p.Type_ ≠ "tool" ∧ p.Type_ ≠ "file" ∧
    p.Type_ ≠ "step-start" ∧ p.Type_ ≠ "step-finish")

/-- A write that begins as the inline error markers do. -/
def isErrorMarker (w : String) : Bool := "*[Error parsing ".data.isPrefixOf w.data

/-- Some write of the header is a duration line. -/
def hasDurationLine (ws : List String) : Bool :=
  ws.any (fun w => "**Duration:** ".data.isPrefixOf w.data)

/-- The sanitisation as C10 words it, on the characters of the title: each of
the nine characters replaced by an underscore, then the first 50 characters,
then trailing whitespace removed. -/
def sanitizeAsStated (title : String) : String :=
  ⟨(((title.data.map (fun c =>
      if c.toNat ∈ [47, 92, 58, 42, 63, 34, 60, 62, 124] then Char.ofNat 95 else c)).take 50
    ).reverse.dropWhile Char.isWhitespace).reverse⟩

/-- The replacement of one byte that the loop over `invalid` amounts to. -/
def replaceInvalid (c : UInt8) : UInt8 :=
  if c ∈ [47, 92, 58, 42, 63, 34, 60, 62, 124] then 95 else c

/-- The writes of `writeParts` for the file parts: the heading, the parts, a
line break; nothing without a file part. -/
def attachmentsWrites (L : GoLib) (parts : List MessagePart) : List String :=
  if parts.any (fun p => decide (p.Type_ = "file")) then
    ["### Attachments\n\n"] ++
      (parts.filter (fun p => decide (p.Type_ = "file"))).flatMap (writeFilePart L) ++ ["\n"]
  else []

/-- The writes of `writeParts` for the tool parts: the heading and the parts;
nothing without a tool part. -/
def toolWrites (L : GoLib) (g : Generator) (parts : List MessagePart) : List String :=
  if parts.any (fun p => decide (p.Type_ = "tool")) then
    ["### Tool Executions\n\n"] ++
      (parts.filter (fun p => decide (p.Type_ = "tool"))).flatMap (writeToolPart L g)
  else []

/-! ## Inputs at which the properties are evaluated -/

/-- A tool part created at millisecond 1000, without payload. -/
def earlyToolPart : MessagePart :=
  { ID := "p1", MessageID := "m1", SessionID := "s1", Type_ := "tool", Text := none,
    Tool := none, CallID := none, State := none, Data := none, Time := some ⟨1000, 1000⟩ }

/-- A text part created at millisecond 2000. -/
def lateTextPart : MessagePart :=
  { ID := "p2", MessageID := "m1", SessionID := "s1", Type_ := "text", Text := some "hello",
    Tool := none, CallID := none, State := none, Data := none, Time := some ⟨2000, 2000⟩ }

/-- A message without a time object. -/
def untimedMessage : Message :=
  { ID := "m1", SessionID := "s1", Role := "user", Time := none, Model := none,
    Provider := none, Cost := none, InputTokens := none, OutputTokens := none,
    CompletedAt := none }

/-- A message created one millisecond before 0001-01-01 00:00:00 UTC. -/
def ancientMessage : Message :=
  { ID := "m2", SessionID := "s1", Role := "user", Time := some ⟨-62135596800001, 0⟩,
    Model := none, Provider := none, Cost := none, InputTokens := none, OutputTokens := none,
    CompletedAt := none }

/-- A message created at the Unix epoch. -/
def epochMessage : Message :=
  { ID := "m3", SessionID := "s1", Role := "user", Time := some ⟨0, 0⟩,
    Model := none, Provider := none, Cost := none, InputTokens := none, OutputTokens := none,
    CompletedAt := none }

/-- A text part without a time object. -/
def untimedPart : MessagePart :=
  { ID := "p3", MessageID := "m1", SessionID := "s1", Type_ := "text", Text := some "a",
    Tool := none, CallID := none, State := none, Data := none, Time := none }

/-- A text part started one millisecond before 0001-01-01 00:00:00 UTC. -/
def ancientPart : MessagePart :=
  { ID := "p4", MessageID := "m1", SessionID := "s1", Type_ := "text", Text := some "b",
    Tool := none, CallID := none, State := none, Data := none,
    Time := some ⟨-62135596800001, 0⟩ }

/-- A title of 50 characters and 51 bytes: a, e with acute accent, 48 times a. -/
def longTitle : String := "aé" ++ String.mk (List.replicate 48 'a')

/-- A session updated one second before it was created. -/
def backdatedInfo : SessionInfo :=
  { ID := "s1", ParentID := none, Title := "t", Version := "1",
    Time := ⟨2000, 1000⟩, ShareURL := none }

/-- A session updated one second after it was created. -/
def updatedInfo : SessionInfo :=
  { ID := "s1", ParentID := none, Title := "t", Version := "1",
    Time := ⟨1000, 2000⟩, ShareURL := none }

/-- The JSON text of `epochMessage`. -/
def epochMessageJSON : String :=
  "\x7b\"id\":\"m3\",\"sessionID\":\"s1\",\"role\":\"user\"," ++
  "\"time\":\x7b\"created\":0,\"updated\":0\x7d\x7d"

/-- The JSON text of `untimedMessage`. -/
def untimedMessageJSON : String :=
  "\x7b\"id\":\"m1\",\"sessionID\":\"s1\",\"role\":\"user\"\x7d"

/-- A library instance for evaluating the definitions: its decoders know the
two message texts above and answer every other input as `encoding/json`
answers an absent payload; its formatters write nothing; a slice of
more than 12 elements it sorts by the insertion sort as well. -/
def sampleLib : GoLib :=
  { Title := fun s => s
    Format := fun _ _ => ""
    sprintfSeconds := fun _ => ""
    sprintfMinutes := fun _ => ""
    sprintfHours := fun _ => ""
    sprintfQuotient := fun _ _ => ""
    sprintfCost := fun _ => ""
    sprintfValue := fun _ => ""
    marshalIndent := fun _ => .error "json: unsupported value"
    unmarshalValue := fun _ => .error "unexpected end of JSON input"
    unmarshalString := fun _ => .error "unexpected end of JSON input"
    unmarshalTextPartData := fun _ => .error "unexpected end of JSON input"
    unmarshalToolPartData := fun _ => .error "unexpected end of JSON input"
    unmarshalToolStateData := fun _ => .error "unexpected end of JSON input"
    unmarshalFilePartData := fun _ => .error "unexpected end of JSON input"
    unmarshalMessage := fun data =>
      if data = epochMessageJSON then .ok epochMessage
      else if data = untimedMessageJSON then .ok untimedMessage
      else .error "unexpected end of JSON input"
    unmarshalMessagePart := fun _ => .error "unexpected end of JSON input"
    unmarshalSessionInfo := fun _ => .error "unexpected end of JSON input"
    unmarshalSessionMeta := fun _ => .error "unexpected end of JSON input"
    jsonNumber := fun x => toString x.num
    jsonString := fun s => "\"" ++ s ++ "\""
    TrimFuncIsSpace := fun s => s
    TrimRightFuncIsSpace := fun s => s
    pdqsort := fun _ less x => insertionSort_func less x }

/-- A file system whose every directory lists the message files `b.json` and
`a.json`, in this order, and a subdirectory. -/
def sampleFS : FileSystem :=
  { ReadDir := fun _ => .ok [⟨"b.json", false⟩, ⟨"sub", true⟩, ⟨"a.json", false⟩]
    ReadFile := fun path =>
      if HasSuffix path "b.json" then .ok epochMessageJSON
      else if HasSuffix path "a.json" then .ok untimedMessageJSON
      else .error ⟨"no such file or directory", true⟩
    Stat := fun _ => none
    Join := fun elems => "/".intercalate elems }

/-- A text part with neither the text field nor a payload. -/
def emptyTextPart : MessagePart :=
  { ID := "p5", MessageID := "m1", SessionID := "s1", Type_ := "text", Text := none,
    Tool := none, CallID := none, State := none, Data := none, Time := some ⟨1500, 1500⟩ }

/-- A part of the type "snapshot" without a payload. -/
def snapshotPart : MessagePart :=
  { ID := "p6", MessageID := "m1", SessionID := "s1", Type_ := "snapshot", Text := none,
    Tool := none, CallID := none, State := none, Data := none, Time := some ⟨3000, 3000⟩ }

/-! ## Facts about the time model -/

theorem tdiv_tmod_of_nonneg (a b : Int) (ha : 0 ≤ a) (hb : 0 ≤ b) :
    Int.tdiv a b = a / b ∧ Int.tmod a b = a % b :=
  ⟨Int.tdiv_eq_ediv ha hb, Int.tmod_eq_emod ha hb⟩

theorem tdiv_tmod_of_neg (a b : Int) (ha : a < 0) (hb : 0 ≤ b) :
    Int.tdiv a b = -((-a) / b) ∧ Int.tmod a b = -((-a) % b) := by
  have h1 : Int.tdiv a b = -((-a) / b) := by
    have : a = -(-a) := by omega
    rw [this, Int.neg_tdiv, Int.tdiv_eq_ediv (by omega) hb]
    simp
  refine ⟨h1, ?_⟩
  rw [Int.tmod_def, h1]
  have := Int.emod_add_ediv (-a) b
  linarith

/-- `time.UnixMilli` in closed form: floor division for the seconds. -/
theorem UnixMilli_eq (ms : Int) :
    UnixMilli ms = ⟨ms / 1000 + unixToInternal, ms % 1000 * 1000000⟩ := by
  unfold UnixMilli Unix
  rcases le_or_lt 0 ms with h | h
  · obtain ⟨hq, hr⟩ := tdiv_tmod_of_nonneg ms 1000 h (by omega)
    rw [hq, hr]
    have h1 : ¬ (ms % 1000 * 1000000 < 0 ∨ ms % 1000 * 1000000 ≥ 1000000000) := by omega
    simp only [h1, if_false]
  · obtain ⟨hq, hr⟩ := tdiv_tmod_of_neg ms 1000 h (by omega)
    rw [hq, hr]
    by_cases h0 : (-ms) % 1000 = 0
    · have h1 : ¬ (-(-ms % 1000) * 1000000 < 0 ∨ -(-ms % 1000) * 1000000 ≥ 1000000000) := by omega
      simp only [h1, if_false]
      congr 1 <;> omega
    · have h1 : (-(-ms % 1000) * 1000000 < 0 ∨ -(-ms % 1000) * 1000000 ≥ 1000000000) := by omega
      simp only [h1, if_true]
      obtain ⟨hq2, -⟩ := tdiv_tmod_of_neg (-(-ms % 1000) * 1000000) 1000000000 (by omega) (by omega)
      have hz : (-(-(-ms % 1000) * 1000000)) / 1000000000 = 0 := by omega
      rw [hq2, hz]
      have h2 : (-(-ms % 1000) * 1000000 - -0 * 1000000000 < 0) := by omega
      simp only [h2, if_true]
      congr 1 <;> omega

theorem UnixMilli_before_iff (a b : Int) : (UnixMilli a).Before (UnixMilli b) ↔ a < b := by
  rw [UnixMilli_eq, UnixMilli_eq]
  unfold Time.Before
  simp only
  omega

theorem UnixMilli_after_iff (a b : Int) : (UnixMilli a).After (UnixMilli b) ↔ b < a := by
  rw [UnixMilli_eq, UnixMilli_eq]
  unfold Time.After
  simp only
  omega

theorem UnixMilli_equal_iff (a b : Int) : (UnixMilli a).Equal (UnixMilli b) ↔ a = b := by
  rw [UnixMilli_eq, UnixMilli_eq]
  unfold Time.Equal
  simp only
  omega

theorem UnixMilli_isZero_iff (a : Int) : (UnixMilli a).IsZero ↔ a = -62135596800000 := by
  rw [UnixMilli_eq]
  unfold Time.IsZero unixToInternal
  simp only
  omega

theorem zero_before_UnixMilli_iff (a : Int) :
    Time.zero.Before (UnixMilli a) ↔ -62135596800000 < a := by
  rw [UnixMilli_eq]
  unfold Time.Before Time.zero unixToInternal
  simp only
  omega

theorem UnixMilli_before_zero_iff (a : Int) :
    (UnixMilli a).Before Time.zero ↔ a < -62135596800000 := by
  rw [UnixMilli_eq]
  unfold Time.Before Time.zero unixToInternal
  simp only
  omega

theorem zero_after_UnixMilli_iff (a : Int) :
    Time.zero.After (UnixMilli a) ↔ a < -62135596800000 := by
  rw [UnixMilli_eq]
  unfold Time.After Time.zero unixToInternal
  simp only
  omega

theorem UnixMilli_sub (a b : Int) :
    (UnixMilli a).Sub (UnixMilli b) =
      if minDuration ≤ (a - b) * 1000000 ∧ (a - b) * 1000000 ≤ maxDuration then (a - b) * 1000000
      else if a < b then minDuration else maxDuration := by
  have hb := UnixMilli_before_iff a b
  unfold Time.Sub
  rw [UnixMilli_eq, UnixMilli_eq] at *
  simp only
  have hd : (a / 1000 + unixToInternal - (b / 1000 + unixToInternal)) * 1000000000 +
      (a % 1000 * 1000000 - b % 1000 * 1000000) = (a - b) * 1000000 := by omega
  rw [hd]
  by_cases hlt : a < b
  · simp only [hlt, if_true, hb.mpr hlt]
  · simp only [hlt, if_false, mt hb.mp hlt]

theorem UnixMilli_sub_pos (a b : Int) (h : b < a) :
    (0 : Int) < (UnixMilli a).Sub (UnixMilli b) := by
  rw [UnixMilli_sub]
  unfold minDuration maxDuration
  split_ifs <;> omega

theorem UnixMilli_sub_neg (a b : Int) (h : a < b) :
    (UnixMilli a).Sub (UnixMilli b) < 0 := by
  have key : ∀ x : Int, x = (UnixMilli a).Sub (UnixMilli b) → x < 0 := by
    intro x hx
    rw [UnixMilli_sub] at hx
    unfold minDuration maxDuration at hx
    split_ifs at hx <;> omega
  exact key _ rfl

theorem Time.before_asymm (t u : Time) (h : t.Before u) : ¬ u.Before t := by
  unfold Time.Before at *
  omega

theorem Time.not_before_trans (t u v : Time) (h1 : ¬ t.Before u) (h2 : ¬ u.Before v) :
    ¬ t.Before v := by
  unfold Time.Before at *
  omega

/-! ## Facts about `sort.Slice` -/

section SortSlice

variable {α : Type} (less : α → α → Bool)

theorem sinkInto_perm (x : α) (l : List α) : (sinkInto less x l).Perm (x :: l) := by
  induction l with
  | nil => exact List.Perm.refl _
  | cons y ys ih =>
    unfold sinkInto
    split
    · exact ((List.Perm.cons y ih).trans (List.Perm.swap x y ys))
    · exact List.Perm.refl _

theorem sinkInto_pairwise
    (hasymm : ∀ a b, less a b = true → less b a = false)
    (htrans : ∀ a b c, less a b = false → less b c = false → less a c = false)
    (x : α) (l : List α) (hl : l.Pairwise (fun a b => less a b = false)) :
    (sinkInto less x l).Pairwise (fun a b => less a b = false) := by
  induction l with
  | nil => simp [sinkInto]
  | cons y ys ih =>
    rw [List.pairwise_cons] at hl
    unfold sinkInto
    split
    · rename_i hxy
      rw [List.pairwise_cons]
      refine ⟨?_, ih hl.2⟩
      intro z hz
      rcases (List.mem_cons.mp ((sinkInto_perm less x ys).subset hz)) with h | h
      · rw [h]; exact hasymm x y hxy
      · exact hl.1 z h
    · rename_i hxy
      have hxy : less x y = false := by simpa using hxy
      rw [List.pairwise_cons]
      refine ⟨?_, List.pairwise_cons.mpr hl⟩
      intro z hz
      rcases List.mem_cons.mp hz with h | h
      · rw [h]; exact hxy
      · exact htrans x y z hxy (hl.1 z h)

theorem foldl_sinkInto_perm (data acc : List α) :
    (data.foldl (fun sortedRev x => sinkInto less x sortedRev) acc).Perm (data.reverse ++ acc) := by
  induction data generalizing acc with
  | nil => simp
  | cons x xs ih =>
    simp only [List.foldl_cons, List.reverse_cons, List.append_assoc, List.singleton_append]
    exact (ih _).trans (List.Perm.append_left _ (sinkInto_perm less x acc))

theorem foldl_sinkInto_pairwise
    (hasymm : ∀ a b, less a b = true → less b a = false)
    (htrans : ∀ a b c, less a b = false → less b c = false → less a c = false)
    (data acc : List α) (hacc : acc.Pairwise (fun a b => less a b = false)) :
    (data.foldl (fun sortedRev x => sinkInto less x sortedRev) acc).Pairwise
      (fun a b => less a b = false) := by
  induction data generalizing acc with
  | nil => simpa using hacc
  | cons x xs ih =>
    simp only [List.foldl_cons]
    exact ih _ (sinkInto_pairwise less hasymm htrans x acc hacc)

/-- The result of the insertion sort holds the elements of its input, each as
often. -/
theorem insertionSort_func_perm (data : List α) : (insertionSort_func less data).Perm data := by
  unfold insertionSort_func
  refine (List.reverse_perm _).trans ?_
  refine (foldl_sinkInto_perm less data []).trans ?_
  simp

/-- Under a less function that is asymmetric and whose negation is transitive,
no element of the result of the insertion sort is less than an element before
it. -/
theorem insertionSort_func_pairwise
    (hasymm : ∀ a b, less a b = true → less b a = false)
    (htrans : ∀ a b c, less a b = false → less b c = false → less a c = false)
    (data : List α) :
    (insertionSort_func less data).Pairwise (fun a b => less b a = false) := by
  unfold insertionSort_func
  rw [List.pairwise_reverse]
  exact foldl_sinkInto_pairwise less hasymm htrans data [] List.Pairwise.nil

/-- On a slice of at most 12 elements `sort.Slice` is the insertion sort,
whatever the library. -/
theorem sortSlice_of_le (L : GoLib) (data : List α) (h : data.length ≤ 12) :
    sortSlice L less data = insertionSort_func less data := by
  simp [sortSlice, h]

/-- The result of `sort.Slice` holds the elements of its input, each as often. -/
theorem sortSlice_perm (L : GoLib) (hL : L.SortsAsGo)
    (hasymm : ∀ a b, less a b = true → less b a = false)
    (htrans : ∀ a b c, less a b = false → less b c = false → less a c = false)
    (data : List α) : (sortSlice L less data).Perm data := by
  unfold sortSlice
  split
  · exact insertionSort_func_perm less data
  · exact (hL α less data hasymm htrans).1

/-- Under a less function that is asymmetric and whose negation is transitive,
no element of the result of `sort.Slice` is less than an element before it. -/
theorem sortSlice_pairwise (L : GoLib) (hL : L.SortsAsGo)
    (hasymm : ∀ a b, less a b = true → less b a = false)
    (htrans : ∀ a b c, less a b = false → less b c = false → less a c = false)
    (data : List α) :
    (sortSlice L less data).Pairwise (fun a b => less b a = false) := by
  unfold sortSlice
  split
  · exact insertionSort_func_pairwise less hasymm htrans data
  · exact (hL α less data hasymm htrans).2

end SortSlice

/-- The library `sampleLib`, and every library that takes its sort from it,
keeps the contract of package sort. -/
theorem sampleLib_sortsAsGo : sampleLib.SortsAsGo := by
  intro α less x hasymm htrans
  exact ⟨insertionSort_func_perm less x, insertionSort_func_pairwise less hasymm htrans x⟩

theorem messageLess_asymm (a b : Message) (h : messageLess a b = true) :
    messageLess b a = false := by
  unfold messageLess at *
  simp only [decide_eq_true_eq, decide_eq_false_iff_not] at *
  exact Time.before_asymm _ _ h

theorem messageLess_trans (a b c : Message) (h1 : messageLess a b = false)
    (h2 : messageLess b c = false) : messageLess a c = false := by
  unfold messageLess at *
  simp only [decide_eq_false_iff_not] at *
  exact Time.not_before_trans _ _ _ h1 h2

theorem partLess_asymm (a b : MessagePart) (h : partLess a b = true) :
    partLess b a = false := by
  unfold partLess at *
  simp only [decide_eq_true_eq, decide_eq_false_iff_not] at *
  exact Time.before_asymm _ _ h

theorem partLess_trans (a b c : MessagePart) (h1 : partLess a b = false)
    (h2 : partLess b c = false) : partLess a c = false := by
  unfold partLess at *
  simp only [decide_eq_false_iff_not] at *
  exact Time.not_before_trans _ _ _ h1 h2

/-! ## Facts about the grouping loop of `writeParts` -/

theorem foldl_groupStep (parts : List MessagePart) (b : Buckets) :
    parts.foldl groupStep b =
      { textParts := b.textParts ++ parts.filter (fun p => decide (p.Type_ = "text"))
        toolParts := b.toolParts ++ parts.filter (fun p => decide (p.Type_ = "tool"))
        fileParts := b.fileParts ++ parts.filter (fun p => decide (p.Type_ = "file"))
        otherParts := b.otherParts ++ parts.filter isOtherPart } := by
  induction parts generalizing b with
  | nil => simp
  | cons p ps ih =>
    rw [List.foldl_cons, ih]
    unfold groupStep isOtherPart
    by_cases h1 : p.Type_ = "text"
    · simp [h1, List.filter_cons]
    · by_cases h2 : p.Type_ = "tool"
      · simp [h2, List.filter_cons]
      · by_cases h3 : p.Type_ = "file"
        · simp [h3, List.filter_cons]
        · by_cases h4 : p.Type_ = "step-start"
          · simp [h4, List.filter_cons]
          · by_cases h5 : p.Type_ = "step-finish"
            · simp [h5, List.filter_cons]
            · simp [h1, h2, h3, h4, h5, List.filter_cons]

/-- Each bucket of `writeParts` is the sublist of the parts of one kind. -/
theorem groupByType_eq (parts : List MessagePart) :
    groupByType parts =
      { textParts := parts.filter (fun p => decide (p.Type_ = "text"))
        toolParts := parts.filter (fun p => decide (p.Type_ = "tool"))
        fileParts := parts.filter (fun p => decide (p.Type_ = "file"))
        otherParts := parts.filter isOtherPart } := by
  unfold groupByType
  rw [foldl_groupStep]
  simp

theorem pairwise_filter_of_pairwise {α : Type} (R : α → α → Prop) (f : α → Bool)
    (l : List α) (h : l.Pairwise R) : (l.filter f).Pairwise R :=
  h.sublist (List.filter_sublist l)

/-- What `sort.Slice` returns under `partLess` stands in non-decreasing creation time. -/
theorem sortSlice_partLess_sorted (L : GoLib) (hL : L.SortsAsGo) (raw : List MessagePart) :
    (sortSlice L partLess raw).Pairwise partNotAfter := by
  have h := sortSlice_pairwise partLess L hL partLess_asymm partLess_trans raw
  refine h.imp ?_
  intro a b hab
  unfold partLess at hab
  unfold partNotAfter
  simpa using hab

/-- What `sort.Slice` returns under `messageLess` stands in non-decreasing creation time. -/
theorem sortSlice_messageLess_sorted (L : GoLib) (hL : L.SortsAsGo) (raw : List Message) :
    (sortSlice L messageLess raw).Pairwise messageNotAfter := by
  have h := sortSlice_pairwise messageLess L hL messageLess_asymm messageLess_trans raw
  refine h.imp ?_
  intro a b hab
  unfold messageLess at hab
  unfold messageNotAfter
  simpa using hab

/-! ## C6 and C7: the buckets of `writeParts` -/

theorem filter_length_pos_iff_any {α : Type} (f : α → Bool) (l : List α) :
    (l.filter f).length > 0 ↔ l.any f = true := by
  induction l with
  | nil => simp
  | cons x xs ih =>
    by_cases hx : f x = true
    · simp [List.filter_cons, hx]
    · simp [List.filter_cons, hx, ih]

/-- The writes of `writeParts`, with each bucket given as the sublist of the
parts of its kind. -/
theorem writeParts_eq_filters (L : GoLib) (g : Generator) (parts : List MessagePart) :
    writeParts L g parts =
      (parts.filter (fun p => decide (p.Type_ = "text"))).flatMap (writeTextPart L) ++
      (if parts.any (fun p => decide (p.Type_ = "file")) then
        ["### Attachments\n\n"] ++
          (parts.filter (fun p => decide (p.Type_ = "file"))).flatMap (writeFilePart L) ++ ["\n"]
       else []) ++
      (if parts.any (fun p => decide (p.Type_ = "tool")) then
        ["### Tool Executions\n\n"] ++
          (parts.filter (fun p => decide (p.Type_ = "tool"))).flatMap (writeToolPart L g)
       else []) ++
      (parts.filter isOtherPart).flatMap (writeOtherPart L) := by
  unfold writeParts
  rw [groupByType_eq]
  simp only [filter_length_pos_iff_any]

theorem filter_kind_filter_not_step (parts : List MessagePart) :
    (parts.filter (fun p => !isStepPart p)).filter (fun p => decide (p.Type_ = "text")) =
      parts.filter (fun p => decide (p.Type_ = "text")) ∧
    (parts.filter (fun p => !isStepPart p)).filter (fun p => decide (p.Type_ = "tool")) =
      parts.filter (fun p => decide (p.Type_ = "tool")) ∧
    (parts.filter (fun p => !isStepPart p)).filter (fun p => decide (p.Type_ = "file")) =
      parts.filter (fun p => decide (p.Type_ = "file")) ∧
    (parts.filter (fun p => !isStepPart p)).filter isOtherPart = parts.filter isOtherPart := by
  refine ⟨?_, ?_, ?_, ?_⟩ <;>
  · rw [List.filter_filter]
    apply List.filter_congr
    intro p _
    by_cases h1 : p.Type_ = "step-start"
    · simp [isStepPart, isOtherPart, h1]
    · by_cases h2 : p.Type_ = "step-finish"
      · simp [isStepPart, isOtherPart, h2]
      · simp [isStepPart, isOtherPart, h1, h2]

theorem filter_kind_filter_step (parts : List MessagePart) :
    (parts.filter isStepPart).filter (fun p => decide (p.Type_ = "text")) = [] ∧
    (parts.filter isStepPart).filter (fun p => decide (p.Type_ = "tool")) = [] ∧
    (parts.filter isStepPart).filter (fun p => decide (p.Type_ = "file")) = [] ∧
    (parts.filter isStepPart).filter isOtherPart = [] := by
  refine ⟨?_, ?_, ?_, ?_⟩ <;>
  · rw [List.filter_filter, List.filter_eq_nil_iff]
    intro p _
    by_cases h1 : p.Type_ = "step-start"
    · simp [isStepPart, isOtherPart, h1]
    · by_cases h2 : p.Type_ = "step-finish"
      · simp [isStepPart, isOtherPart, h2]
      · simp [isStepPart, isOtherPart, h1, h2]

/-- C6: `writeParts` writes for a list of parts what it writes for the list
without its `step-start` and `step-finish` parts, and for a list of such parts
alone it writes nothing, whatever their other fields hold. -/
theorem step_parts_never_rendered (L : GoLib) (g : Generator) (parts : List MessagePart) :
    writeParts L g parts = writeParts L g (parts.filter (fun p => !isStepPart p)) ∧
    writeParts L g (parts.filter isStepPart) = [] := by
  constructor
  · unfold writeParts
    rw [groupByType_eq, groupByType_eq]
    obtain ⟨h1, h2, h3, h4⟩ := filter_kind_filter_not_step parts
    simp only [h1, h2, h3, h4]
  · unfold writeParts
    rw [groupByType_eq]
    obtain ⟨h1, h2, h3, h4⟩ := filter_kind_filter_step parts
    simp [h1, h2, h3, h4]

/-- C7: the writes of `writeParts` are, in this order, the renderings of the
text parts; if and only if some part is a file part, the heading
"### Attachments", one rendering per file part and a line break; if and only
if some part is a tool part, the heading "### Tool Executions" and the
renderings of the tool parts; the renderings of the parts of any other type
that is not a step type. Each bucket holds its parts in input order, being
the input list filtered by type. -/
theorem writeParts_fixed_bucket_order (L : GoLib) (g : Generator) (parts : List MessagePart) :
    writeParts L g parts =
      (parts.filter (fun p => decide (p.Type_ = "text"))).flatMap (writeTextPart L) ++
      (if parts.any (fun p => decide (p.Type_ = "file")) then
        ["### Attachments\n\n"] ++
          (parts.filter (fun p => decide (p.Type_ = "file"))).flatMap (writeFilePart L) ++ ["\n"]
       else []) ++
      (if parts.any (fun p => decide (p.Type_ = "tool")) then
        ["### Tool Executions\n\n"] ++
          (parts.filter (fun p => decide (p.Type_ = "tool"))).flatMap (writeToolPart L g)
       else []) ++
      (parts.filter (fun p => decide (p.Type_ ≠ "text" ∧ p.Type_ ≠ "tool" ∧ p.Type_ ≠ "file" ∧
        p.Type_ ≠ "step-start" ∧ p.Type_ ≠ "step-finish"))).flatMap (writeOtherPart L) :=
  writeParts_eq_filters L g parts

/-! ## C9: records without a timestamp -/

/-- C9, as stated, fails: `ancientMessage` and `ancientPart` carry the
millisecond value -62135596800001, a valid int64; the creation time of the
record without a time object is after theirs, and the sort puts the record
with the timestamp first. -/
theorem untimed_record_after_ancient_record :
    untimedMessage.GetCreatedAt.After ancientMessage.GetCreatedAt ∧
    messageLess ancientMessage untimedMessage = true ∧
    (∀ L : GoLib, sortSlice L messageLess [untimedMessage, ancientMessage] =
      [ancientMessage, untimedMessage]) ∧
    untimedPart.GetCreatedAt.After ancientPart.GetCreatedAt ∧
    partLess ancientPart untimedPart = true ∧
    (∀ L : GoLib, sortSlice L partLess [untimedPart, ancientPart] =
      [ancientPart, untimedPart]) := by
  refine ⟨by decide, by decide, fun L => ?_, by decide, by decide, fun L => ?_⟩
  · rw [sortSlice_of_le messageLess L _ (by decide)]
    decide
  · rw [sortSlice_of_le partLess L _ (by decide)]
    decide

/-- C9, amended: a message (resp. part) without a time object has a creation
time that is not after the creation time of any message (resp. part) whose
millisecond value is at least -62135596800000, the instant
0001-01-01 00:00:00 UTC, and the less function of the sort never puts the
latter before the former. -/
theorem untimed_record_sorts_first (m m' : Message) (t : TimeInfo)
    (p p' : MessagePart) (u : PartTimeData)
    (hm : m.Time = none) (hm' : m'.Time = some t) (ht : -62135596800000 ≤ t.Created)
    (hp : p.Time = none) (hp' : p'.Time = some u) (hu : -62135596800000 ≤ u.Start) :
    ¬ m.GetCreatedAt.After m'.GetCreatedAt ∧ messageLess m' m = false ∧
    ¬ p.GetCreatedAt.After p'.GetCreatedAt ∧ partLess p' p = false := by
  have h1 : m.GetCreatedAt = Time.zero := by simp [Message.GetCreatedAt, hm]
  have h2 : m'.GetCreatedAt = UnixMilli t.Created := by simp [Message.GetCreatedAt, hm']
  have h3 : p.GetCreatedAt = Time.zero := by simp [MessagePart.GetCreatedAt, hp]
  have h4 : p'.GetCreatedAt = UnixMilli u.Start := by simp [MessagePart.GetCreatedAt, hp']
  unfold messageLess partLess
  rw [h1, h2, h3, h4, zero_after_UnixMilli_iff, zero_after_UnixMilli_iff]
  simp only [decide_eq_false_iff_not, UnixMilli_before_zero_iff]
  omega

/-- C9, amended, at the message of the Unix epoch and the part started at
millisecond 2000. -/
theorem untimed_record_sorts_first_witness :
    ¬ untimedMessage.GetCreatedAt.After epochMessage.GetCreatedAt ∧
    messageLess epochMessage untimedMessage = false ∧
    ¬ untimedPart.GetCreatedAt.After lateTextPart.GetCreatedAt ∧
    partLess lateTextPart untimedPart = false :=
  untimed_record_sorts_first untimedMessage epochMessage ⟨0, 0⟩ untimedPart lateTextPart
    ⟨2000, 2000⟩ rfl rfl (by decide) rfl rfl (by decide)

/-! ## C2 and C10: export file names -/

theorem replaceFrom_single (b : UInt8) (s : GoString) :
    replaceFrom [b] [95] 0 s = s.map (fun c => if c = b then 95 else c) := by
  induction s with
  | nil => rfl
  | cons c rest ih =>
    unfold replaceFrom
    by_cases h : c = b
    · subst h
      simp [List.isPrefixOf, ih]
    · have h' : ¬ b = c := fun e => h e.symm
      simp [List.isPrefixOf, ih, h, h']

theorem foldl_ReplaceAll_invalid (name : GoString) :
    invalid.foldl (fun result char => ReplaceAll result char [95]) name =
      name.map replaceInvalid := by
  simp only [invalid, List.foldl_cons, List.foldl_nil, ReplaceAll, replaceFrom_single,
    List.map_map]
  apply List.map_congr_left
  intro c _
  by_cases h1 : c = 47
  · subst h1; rfl
  by_cases h2 : c = 92
  · subst h2; rfl
  by_cases h3 : c = 58
  · subst h3; rfl
  by_cases h4 : c = 42
  · subst h4; rfl
  by_cases h5 : c = 63
  · subst h5; rfl
  by_cases h6 : c = 34
  · subst h6; rfl
  by_cases h7 : c = 60
  · subst h7; rfl
  by_cases h8 : c = 62
  · subst h8; rfl
  by_cases h9 : c = 124
  · subst h9; rfl
  simp [replaceInvalid, h1, h2, h3, h4, h5, h6, h7, h8, h9]

theorem trimSpaceStop_ascii (L : GoLib) (r : GoString) (h : ∀ c ∈ r, c < 128) :
    trimSpaceStop L r = (r.dropWhile asciiSpace).reverse := by
  induction r with
  | nil => rfl
  | cons c rest ih =>
    have hc : ¬ c ≥ 128 := by
      have := h c (List.mem_cons_self _ _)
      exact Nat.not_le_of_lt this
    unfold trimSpaceStop
    rw [if_neg hc]
    by_cases hs : asciiSpace c = true
    · rw [if_pos hs, List.dropWhile_cons_of_pos hs]
      exact ih (fun d hd => h d (List.mem_cons_of_mem _ hd))
    · rw [if_neg hs, List.dropWhile_cons_of_neg hs]

theorem TrimSpace_ascii (L : GoLib) (s : GoString) (h : ∀ c ∈ s, c < 128) :
    TrimSpace L s = ((s.dropWhile asciiSpace).reverse.dropWhile asciiSpace).reverse := by
  induction s with
  | nil => rfl
  | cons c rest ih =>
    have hc : ¬ c ≥ 128 := by
      have := h c (List.mem_cons_self _ _)
      exact Nat.not_le_of_lt this
    unfold TrimSpace
    rw [if_neg hc]
    by_cases hs : asciiSpace c = true
    · rw [if_pos hs, List.dropWhile_cons_of_pos hs]
      exact ih (fun d hd => h d (List.mem_cons_of_mem _ hd))
    · rw [if_neg hs, List.dropWhile_cons_of_neg hs]
      exact trimSpaceStop_ascii L _ (fun d hd => h d (List.mem_reverse.mp hd))

theorem replaceInvalid_ascii (c : UInt8) (h : c < 128) : replaceInvalid c < 128 := by
  unfold replaceInvalid
  split
  · decide
  · exact h

/-- C2, as stated, fails: for the title "Fix bug #1" and the ID "abc123def456"
the file name is "Fix bug #1_abc123de.md", the space and the number sign kept,
and not "Fix_bug__1_abc123de.md". -/
theorem export_filename_keeps_space_and_number_sign :
    utf8 "Fix bug #1_abc123de.md" ≠ utf8 "Fix_bug__1_abc123de.md" ∧
    ∀ L : GoLib, exportFilename L (utf8 "Fix bug #1") (utf8 "abc123def456") =
      some (utf8 "Fix bug #1_abc123de.md") :=
  ⟨by decide, fun _ => rfl⟩

/-- C2, amended: the multi-session export file name is the sanitised title,
an underscore, the first 8 bytes of the session ID and ".md" (the slice
expression being out of range for a shorter ID), and for the title
"Fix bug #1" with the ID "abc123def456" it is "Fix bug #1_abc123de.md":
neither the space nor the number sign is among the replaced characters. -/
theorem export_filename_shape (L : GoLib) (title sessionID : GoString) :
    exportFilename L title sessionID =
      (if 8 ≤ sessionID.length then
        some (sanitizeFilename L title ++ utf8 "_" ++ sessionID.take 8 ++ utf8 ".md")
       else none) ∧
    exportFilename L (utf8 "Fix bug #1") (utf8 "abc123def456") =
      some (utf8 "Fix bug #1_abc123de.md") ∧
    sanitizeFilename L (utf8 "Fix bug #1") = utf8 "Fix bug #1" := by
  refine ⟨?_, rfl, rfl⟩
  unfold exportFilename sessionIDPrefix
  by_cases h : 8 ≤ sessionID.length
  · simp only [h, if_true]
    rfl
  · simp only [h, if_false]

/-- C10, as stated, fails: leading whitespace is removed (" a" gives "a",
where the statement keeps " a"), and the truncation counts bytes (`longTitle`
has 50 characters, which the statement keeps all, and 51 bytes, of which the
last is cut). -/
theorem sanitizeFilename_differs_from_statement :
    sanitizeAsStated " a" = " a" ∧
    (∀ L : GoLib, sanitizeFilename L (utf8 " a") = utf8 "a") ∧
    longTitle.length = 50 ∧
    sanitizeAsStated longTitle = longTitle ∧
    (∀ L : GoLib, sanitizeFilename L (utf8 longTitle) =
      utf8 ("aé" ++ String.mk (List.replicate 47 'a'))) :=
  ⟨by decide, fun _ => rfl, by decide, by decide, fun _ => rfl⟩

/-- C10, amended: for every title, `sanitizeFilename` returns the title with
each byte that is one of / \ : * ? " < > | replaced by an underscore, then cut
to its first 50 bytes, then passed through `strings.TrimSpace`; when the title
is ASCII that is the removal of the leading and of the trailing tabs, line
feeds, vertical tabs, form feeds, carriage returns and spaces. -/
theorem sanitizeFilename_replace_cut_trim (L : GoLib) (name : GoString) :
    sanitizeFilename L name = TrimSpace L ((name.map replaceInvalid).take 50) ∧
    ((∀ c ∈ name, c < 128) →
      sanitizeFilename L name =
        ((((name.map replaceInvalid).take 50).dropWhile asciiSpace).reverse.dropWhile
          asciiSpace).reverse) := by
  have h1 : sanitizeFilename L name = TrimSpace L ((name.map replaceInvalid).take 50) := by
    unfold sanitizeFilename
    simp only [foldl_ReplaceAll_invalid]
    split
    · rfl
    · rename_i h
      rw [List.take_of_length_le (by omega)]
  refine ⟨h1, fun hascii => ?_⟩
  rw [h1]
  apply TrimSpace_ascii
  intro c hc
  obtain ⟨d, hd, rfl⟩ := List.mem_map.mp (List.mem_of_mem_take hc)
  exact replaceInvalid_ascii d (hascii d hd)

/-- C10, amended, at the title " a/b ": the result is "a_b". -/
theorem sanitizeFilename_replace_cut_trim_witness :
    (∀ c ∈ utf8 " a/b ", c < 128) ∧ sanitizeFilename sampleLib (utf8 " a/b ") = utf8 "a_b" :=
  ⟨by decide,
    ((sanitizeFilename_replace_cut_trim sampleLib (utf8 " a/b ")).2 (by decide)).trans
      (by decide)⟩

/-! ## C4: the language of a tool input block -/

/-- C4, as stated, fails: for the tool names "bash" and "shell" the language is
"bash", and the opening fence of the block carries that label. -/
theorem bash_and_shell_blocks_are_labelled :
    getLanguageFromTool "bash" = "bash" ∧
    getLanguageFromTool "shell" = "bash" ∧
    ∀ (L : GoLib) (data : RawMessage),
      (writeCodeBlock L data "bash").head? = some "```bash\n" ∧
      (writeCodeBlock L data "shell").head? = some "```bash\n" :=
  ⟨by decide, by decide, fun _ _ => ⟨rfl, rfl⟩⟩

/-- C4, amended: `getLanguageFromTool` returns "bash" for the tool names "bash"
and "shell" and the empty string for every other name; so `writeCodeBlock`
writes the opening fence with the label bash for those two names and without
a label for every other, then the input decoded as a JSON string, or the raw
input where it is no JSON string, then the closing fence. -/
theorem code_block_language (L : GoLib) (data : RawMessage) (toolName : String) :
    getLanguageFromTool toolName =
      (if toolName = "bash" ∨ toolName = "shell" then "bash" else "") ∧
    writeCodeBlock L data toolName =
      [if toolName = "bash" ∨ toolName = "shell" then "```bash\n" else "```\n",
       match L.unmarshalString data with
       | .ok strData => strData
       | .error _ => data.toStr,
       "\n```"] := by
  have h : getLanguageFromTool toolName =
      (if toolName = "bash" ∨ toolName = "shell" then "bash" else "") := by
    unfold getLanguageFromTool
    split <;> simp
  refine ⟨h, ?_⟩
  unfold writeCodeBlock
  simp only [h]
  by_cases hb : toolName = "bash" ∨ toolName = "shell"
  · simp only [hb, if_true]
    have hj : ¬ ("bash" = "json") := by decide
    simp only [hj, if_false]
    cases L.unmarshalString data <;> rfl
  · simp only [hb, if_false]
    have hj : ¬ ("" = "json") := by decide
    simp only [hj, if_false]
    cases L.unmarshalString data <;> rfl

/-! ## C3: the duration line of the session header -/

theorem title_write_not_duration (t : String) :
    "**Duration:** ".data.isPrefixOf ("# Session: " ++ t ++ "\n\n").data = false := by
  have h1 : ("# Session: " ++ t ++ "\n\n").data = '#' :: (" Session: " ++ t ++ "\n\n").data := rfl
  have h2 : "**Duration:** ".data = '*' :: "*Duration:** ".data := rfl
  rw [h1, h2]
  simp [List.isPrefixOf]

theorem id_write_not_duration (t : String) :
    "**Duration:** ".data.isPrefixOf ("**Session ID:** `" ++ t ++ "`  \n").data = false := by
  have h1 : ("**Session ID:** `" ++ t ++ "`  \n").data =
      '*' :: '*' :: 'S' :: ("ession ID:** `" ++ t ++ "`  \n").data := rfl
  have h2 : "**Duration:** ".data = '*' :: '*' :: 'D' :: "uration:** ".data := rfl
  rw [h1, h2]
  simp [List.isPrefixOf]

theorem created_write_not_duration (t : String) :
    "**Duration:** ".data.isPrefixOf ("**Created:** " ++ t ++ "  \n").data = false := by
  have h1 : ("**Created:** " ++ t ++ "  \n").data =
      '*' :: '*' :: 'C' :: ("reated:** " ++ t ++ "  \n").data := rfl
  have h2 : "**Duration:** ".data = '*' :: '*' :: 'D' :: "uration:** ".data := rfl
  rw [h1, h2]
  simp [List.isPrefixOf]

theorem share_write_not_duration (t : String) :
    "**Duration:** ".data.isPrefixOf ("**Share URL:** " ++ t ++ "  \n").data = false := by
  have h1 : ("**Share URL:** " ++ t ++ "  \n").data =
      '*' :: '*' :: 'S' :: ("hare URL:** " ++ t ++ "  \n").data := rfl
  have h2 : "**Duration:** ".data = '*' :: '*' :: 'D' :: "uration:** ".data := rfl
  rw [h1, h2]
  simp [List.isPrefixOf]

theorem duration_write_is_duration (t : String) :
    "**Duration:** ".data.isPrefixOf ("**Duration:** " ++ t ++ "  \n").data = true := by
  have h1 : ("**Duration:** " ++ t ++ "  \n").data =
      "**Duration:** ".data ++ (t ++ "  \n").data := rfl
  rw [h1]
  simp [List.isPrefixOf_iff_prefix]

/-- The header has a duration line exactly when the guard of
`writeSessionHeader` holds. -/
theorem hasDurationLine_iff_guard (L : GoLib) (info : SessionInfo) :
    hasDurationLine (writeSessionHeader L info) = true ↔
      (¬ info.GetUpdatedAt.IsZero ∧ ¬ info.GetUpdatedAt.Equal info.GetCreatedAt) := by
  unfold hasDurationLine writeSessionHeader
  by_cases hg : ¬ info.GetUpdatedAt.IsZero ∧ ¬ info.GetUpdatedAt.Equal info.GetCreatedAt
  · simp only [hg, not_false_eq_true, and_self, if_true, iff_true]
    simp [duration_write_is_duration]
  · simp only [hg, if_false, iff_false]
    cases info.ShareURL <;>
      simp [title_write_not_duration, id_write_not_duration, created_write_not_duration,
        share_write_not_duration, List.isPrefixOf]

/-- C3, as stated, fails: `backdatedInfo` is updated at millisecond 1000 and
created at millisecond 2000; its update is not after its creation, yet the
header has a duration line, and the line shows the duration of minus one
second, handed to the seconds format. -/
theorem backdated_session_renders_negative_duration :
    ¬ backdatedInfo.GetUpdatedAt.After backdatedInfo.GetCreatedAt ∧
    backdatedInfo.GetUpdatedAt.Sub backdatedInfo.GetCreatedAt = -1000000000 ∧
    ∀ L : GoLib,
      hasDurationLine (writeSessionHeader L backdatedInfo) = true ∧
      writeSessionHeader L backdatedInfo =
        ["# Session: t\n\n", "**Session ID:** `s1`  \n",
          "**Created:** " ++ L.Format backdatedInfo.GetCreatedAt "2006-01-02 15:04:05" ++ "  \n",
          "**Duration:** " ++ L.sprintfSeconds (-1000000000) ++ "s" ++ "  \n",
          "\n---\n\n"] := by
  refine ⟨by decide, by decide, fun L => ?_⟩
  refine ⟨(hasDurationLine_iff_guard L backdatedInfo).mpr (by decide), ?_⟩
  have hg : ¬ backdatedInfo.GetUpdatedAt.IsZero ∧
      ¬ backdatedInfo.GetUpdatedAt.Equal backdatedInfo.GetCreatedAt := by decide
  have hs : backdatedInfo.GetUpdatedAt.Sub backdatedInfo.GetCreatedAt = -1000000000 := by decide
  have hm : (-1000000000 : Duration) < Minute := by decide
  unfold writeSessionHeader
  simp only [hg, not_false_eq_true, and_self, if_true, hs, formatDuration, hm]
  rfl

/-- C3, amended: for every SessionInfo whose updated field is not zero, the
header has a duration line if and only if the update time differs from the
creation time and is not the instant 0001-01-01 00:00:00 UTC (millisecond
-62135596800000); the line shows `formatDuration` of the difference, which is
positive when the update is after the creation and negative when it is before:
the difference is not raised to zero. -/
theorem header_duration_line (L : GoLib) (info : SessionInfo)
    (hupd : info.Time.Updated ≠ 0) :
    (hasDurationLine (writeSessionHeader L info) = true ↔
      (info.Time.Updated ≠ info.Time.Created ∧ info.Time.Updated ≠ -62135596800000)) ∧
    (hasDurationLine (writeSessionHeader L info) = true →
      ("**Duration:** " ++ formatDuration L (info.GetUpdatedAt.Sub info.GetCreatedAt) ++ "  \n")
        ∈ writeSessionHeader L info) ∧
    (info.Time.Created < info.Time.Updated →
      0 < info.GetUpdatedAt.Sub info.GetCreatedAt) ∧
    (info.Time.Updated < info.Time.Created →
      info.GetUpdatedAt.Sub info.GetCreatedAt < 0) := by
  -- the guard is the same for a zero updated field; the statement leaves that case aside
  have _ := hupd
  have hiff := hasDurationLine_iff_guard L info
  refine ⟨?_, ?_, ?_, ?_⟩
  · rw [hiff]
    unfold SessionInfo.GetUpdatedAt SessionInfo.GetCreatedAt
    rw [UnixMilli_isZero_iff, UnixMilli_equal_iff]
    tauto
  · intro h
    have hg := hiff.mp h
    unfold writeSessionHeader
    simp only [hg, not_false_eq_true, and_self, if_true]
    simp
  · intro h
    unfold SessionInfo.GetUpdatedAt SessionInfo.GetCreatedAt
    exact UnixMilli_sub_pos _ _ h
  · intro h
    unfold SessionInfo.GetUpdatedAt SessionInfo.GetCreatedAt
    exact UnixMilli_sub_neg _ _ h

/-- C3, amended, at `updatedInfo`, updated one second after its creation. -/
theorem header_duration_line_witness :
    updatedInfo.Time.Updated ≠ 0 ∧
    hasDurationLine (writeSessionHeader sampleLib updatedInfo) = true ∧
    0 < updatedInfo.GetUpdatedAt.Sub updatedInfo.GetCreatedAt :=
  ⟨by decide,
    (header_duration_line sampleLib updatedInfo (by decide)).1.mpr ⟨by decide, by decide⟩,
    (header_duration_line sampleLib updatedInfo (by decide)).2.2.1 (by decide)⟩

/-! ## C8: order of the messages -/

theorem foldl_loadMessage (L : GoLib) (fs : FileSystem) (dir : String)
    (entries : List DirEntry) (acc : List Message) :
    entries.foldl
      (fun messages entry =>
        match loadMessage L fs dir entry with
        | some message => messages ++ [message]
        | none => messages)
      acc = acc ++ entries.filterMap (loadMessage L fs dir) := by
  induction entries generalizing acc with
  | nil => simp
  | cons entry rest ih =>
    rw [List.foldl_cons, ih]
    cases h : loadMessage L fs dir entry <;> simp [List.filterMap_cons, h]

/-- The loop of `ReadMessages` collects, in enumeration order, the messages of
the entries that are files named `*.json`, readable and decodable. -/
theorem loadMessages_eq_filterMap (L : GoLib) (fs : FileSystem) (dir : String)
    (entries : List DirEntry) :
    loadMessages L fs dir entries = entries.filterMap (loadMessage L fs dir) := by
  unfold loadMessages
  rw [foldl_loadMessage]
  simp

/-- The loop of `Generate` writes the messages in list order, numbered from
`i + 1`. -/
theorem writeMessages_eq_flatMap (L : GoLib) (g : Generator) (pbm : PartsByMessage)
    (messages : List Message) (i : Nat) :
    writeMessages L g pbm messages i =
      (messages.enumFrom i).flatMap
        (fun im => writeMessage L g im.2 (pbm im.2.ID) (im.1 + 1)) := by
  induction messages generalizing i with
  | nil => rfl
  | cons m rest ih =>
    simp only [writeMessages, List.enumFrom_cons, List.flatMap_cons]
    rw [ih]

/-- C8: when the message directory can be read, `ReadMessages` returns a
permutation of the messages decoded from its entries, in non-decreasing order
of `GetCreatedAt`; enumerating the entries in another order gives a permutation
of the same result; and `Generate` writes the header and then the messages of
that list in list order, numbered from 1. This holds for a directory of any
number of messages: up to 12 the sort is the insertion sort of package sort,
above 12 it is the sort of the library, of which the contract `SortsAsGo` is
used and no more. -/
theorem ReadMessages_sorted_permutation (L : GoLib) (fs : FileSystem) (r : Reader)
    (sessionID : String) (entries : List DirEntry) (g : Generator) (info : SessionInfo)
    (parts : List MessagePart) (hsort : L.SortsAsGo)
    (hdir : fs.ReadDir (messageDir fs r sessionID) = .ok entries) :
    ∃ messages : List Message,
      ReadMessages L fs r sessionID = .ok messages ∧
      messages.Perm (entries.filterMap (loadMessage L fs (messageDir fs r sessionID))) ∧
      messages.Pairwise messageNotAfter ∧
      (∀ entries' : List DirEntry, entries'.Perm entries →
        (sortSlice L messageLess (loadMessages L fs (messageDir fs r sessionID) entries')).Perm
          messages) ∧
      generateWrites L g ⟨info, messages, parts⟩ =
        writeSessionHeader L info ++
          messages.enum.flatMap
            (fun im => writeMessage L g im.2 (groupPartsByMessage parts im.2.ID) (im.1 + 1)) := by
  refine ⟨sortSlice L messageLess (loadMessages L fs (messageDir fs r sessionID) entries),
    ?_, ?_, ?_, ?_, ?_⟩
  · unfold ReadMessages
    rw [hdir]
  · rw [← loadMessages_eq_filterMap]
    exact sortSlice_perm messageLess L hsort messageLess_asymm messageLess_trans _
  · exact sortSlice_messageLess_sorted L hsort _
  · intro entries' hperm
    refine (sortSlice_perm messageLess L hsort messageLess_asymm messageLess_trans _).trans ?_
    refine List.Perm.trans ?_
      (sortSlice_perm messageLess L hsort messageLess_asymm messageLess_trans _).symm
    rw [loadMessages_eq_filterMap, loadMessages_eq_filterMap]
    exact hperm.filterMap _
  · unfold generateWrites
    rw [writeMessages_eq_flatMap]
    rfl

/-- C8 at `sampleFS`, whose directory lists the message of the epoch before
the message without a time object: the reader returns them in the other order. -/
theorem ReadMessages_sorted_permutation_witness :
    ReadMessages sampleLib sampleFS ⟨"/data", ""⟩ "s1" = .ok [untimedMessage, epochMessage] ∧
    ∃ messages : List Message,
      ReadMessages sampleLib sampleFS ⟨"/data", ""⟩ "s1" = .ok messages ∧
      messages.Perm
        (List.filterMap (loadMessage sampleLib sampleFS (messageDir sampleFS ⟨"/data", ""⟩ "s1"))
          [⟨"b.json", false⟩, ⟨"sub", true⟩, ⟨"a.json", false⟩]) ∧
      messages.Pairwise messageNotAfter ∧
      (∀ entries' : List DirEntry,
        entries'.Perm [⟨"b.json", false⟩, ⟨"sub", true⟩, ⟨"a.json", false⟩] →
        (sortSlice sampleLib messageLess
          (loadMessages sampleLib sampleFS (messageDir sampleFS ⟨"/data", ""⟩ "s1")
            entries')).Perm messages) ∧
      generateWrites sampleLib ⟨false, false, false⟩ ⟨updatedInfo, messages, []⟩ =
        writeSessionHeader sampleLib updatedInfo ++
          messages.enum.flatMap
            (fun im => writeMessage sampleLib ⟨false, false, false⟩ im.2
              (groupPartsByMessage [] im.2.ID) (im.1 + 1)) :=
  ⟨rfl,
    ReadMessages_sorted_permutation sampleLib sampleFS ⟨"/data", ""⟩ "s1"
      [⟨"b.json", false⟩, ⟨"sub", true⟩, ⟨"a.json", false⟩] ⟨false, false, false⟩ updatedInfo []
      sampleLib_sortsAsGo rfl⟩


/-! ## C5: parts whose payload cannot be decoded -/

theorem filter_insert_of_neg {α : Type} (f : α → Bool) (pre post : List α) (b : α)
    (h : f b = false) : (pre ++ b :: post).filter f = (pre ++ post).filter f := by
  simp [List.filter_append, List.filter_cons, h]

theorem filter_insert_of_pos {α : Type} (f : α → Bool) (pre post : List α) (b : α)
    (h : f b = true) : (pre ++ b :: post).filter f = pre.filter f ++ b :: post.filter f := by
  simp [List.filter_append, List.filter_cons, h]

theorem any_insert_of_neg {α : Type} (f : α → Bool) (pre post : List α) (b : α)
    (h : f b = false) : (pre ++ b :: post).any f = (pre ++ post).any f := by
  simp [List.any_append, h]

theorem any_insert_of_pos {α : Type} (f : α → Bool) (pre post : List α) (b : α)
    (h : f b = true) : (pre ++ b :: post).any f = true := by
  simp [List.any_append, h]

theorem filter_split {α : Type} (f : α → Bool) (pre post : List α) :
    (pre ++ post).filter f = pre.filter f ++ post.filter f :=
  List.filter_append pre post

theorem filter_nil_of_any_false {α : Type} (f : α → Bool) (l : List α) (h : l.any f = false) :
    l.filter f = [] := by
  rw [List.filter_eq_nil_iff]
  intro a ha hfa
  have : l.any f = true := List.any_eq_true.mpr ⟨a, ha, hfa⟩
  rw [h] at this
  exact Bool.noConfusion this

theorem writeParts_eq_blocks (L : GoLib) (g : Generator) (parts : List MessagePart) :
    writeParts L g parts =
      (parts.filter (fun p => decide (p.Type_ = "text"))).flatMap (writeTextPart L) ++
      attachmentsWrites L parts ++ toolWrites L g parts ++
      (parts.filter isOtherPart).flatMap (writeOtherPart L) :=
  writeParts_eq_filters L g parts

theorem attachmentsWrites_insert_of_neg (L : GoLib) (pre post : List MessagePart)
    (b : MessagePart) (h : decide (b.Type_ = "file") = false) :
    attachmentsWrites L (pre ++ b :: post) = attachmentsWrites L (pre ++ post) := by
  unfold attachmentsWrites
  rw [filter_insert_of_neg _ pre post b h, any_insert_of_neg _ pre post b h]

theorem toolWrites_insert_of_neg (L : GoLib) (g : Generator) (pre post : List MessagePart)
    (b : MessagePart) (h : decide (b.Type_ = "tool") = false) :
    toolWrites L g (pre ++ b :: post) = toolWrites L g (pre ++ post) := by
  unfold toolWrites
  rw [filter_insert_of_neg _ pre post b h, any_insert_of_neg _ pre post b h]

/-- A text part adds its rendering to the writes of `writeParts` and changes
nothing else. -/
theorem writeParts_insert_text (L : GoLib) (g : Generator) (pre post : List MessagePart)
    (b : MessagePart) (hb : b.Type_ = "text") :
    ∃ A B : List String, writeParts L g (pre ++ post) = A ++ B ∧
      writeParts L g (pre ++ b :: post) = A ++ writeTextPart L b ++ B := by
  have h1 : decide (b.Type_ = "text") = true := by simp [hb]
  have h2 : decide (b.Type_ = "file") = false := by simp [hb]
  have h3 : decide (b.Type_ = "tool") = false := by simp [hb]
  have h4 : isOtherPart b = false := by simp [isOtherPart, hb]
  refine ⟨(pre.filter (fun p => decide (p.Type_ = "text"))).flatMap (writeTextPart L),
    (post.filter (fun p => decide (p.Type_ = "text"))).flatMap (writeTextPart L) ++
      attachmentsWrites L (pre ++ post) ++ toolWrites L g (pre ++ post) ++
      ((pre ++ post).filter isOtherPart).flatMap (writeOtherPart L), ?_, ?_⟩
  · rw [writeParts_eq_blocks, List.filter_append, List.flatMap_append]
    simp only [List.append_assoc]
  · rw [writeParts_eq_blocks, filter_insert_of_pos _ pre post b h1,
      attachmentsWrites_insert_of_neg L pre post b h2, toolWrites_insert_of_neg L g pre post b h3,
      filter_insert_of_neg isOtherPart pre post b h4]
    simp only [List.flatMap_append, List.flatMap_cons, List.append_assoc]

/-- A part of another type adds its rendering to the writes of `writeParts`
and changes nothing else. -/
theorem writeParts_insert_other (L : GoLib) (g : Generator) (pre post : List MessagePart)
    (b : MessagePart) (hb : isOtherPart b = true) :
    ∃ A B : List String, writeParts L g (pre ++ post) = A ++ B ∧
      writeParts L g (pre ++ b :: post) = A ++ writeOtherPart L b ++ B := by
  have hb' := hb
  simp only [isOtherPart, decide_eq_true_eq] at hb'
  have h1 : decide (b.Type_ = "text") = false := by simp [hb'.1]
  have h2 : decide (b.Type_ = "file") = false := by simp [hb'.2.2.1]
  have h3 : decide (b.Type_ = "tool") = false := by simp [hb'.2.1]
  refine ⟨((pre ++ post).filter (fun p => decide (p.Type_ = "text"))).flatMap (writeTextPart L) ++
      attachmentsWrites L (pre ++ post) ++ toolWrites L g (pre ++ post) ++
      (pre.filter isOtherPart).flatMap (writeOtherPart L),
    (post.filter isOtherPart).flatMap (writeOtherPart L), ?_, ?_⟩
  · rw [writeParts_eq_blocks, filter_split isOtherPart pre post, List.flatMap_append]
    simp only [List.append_assoc]
  · rw [writeParts_eq_blocks, filter_insert_of_neg _ pre post b h1,
      attachmentsWrites_insert_of_neg L pre post b h2, toolWrites_insert_of_neg L g pre post b h3,
      filter_insert_of_pos isOtherPart pre post b hb]
    simp only [List.flatMap_append, List.flatMap_cons, List.append_assoc]

/-- A file part adds its rendering to the writes of `writeParts`, with the
heading and the closing line break when it is the only file part, and changes
nothing else. -/
theorem writeParts_insert_file (L : GoLib) (g : Generator) (pre post : List MessagePart)
    (b : MessagePart) (hb : b.Type_ = "file") :
    ∃ A B : List String, writeParts L g (pre ++ post) = A ++ B ∧
      (writeParts L g (pre ++ b :: post) = A ++ writeFilePart L b ++ B ∨
       writeParts L g (pre ++ b :: post) =
         A ++ (["### Attachments\n\n"] ++ writeFilePart L b ++ ["\n"]) ++ B) := by
  have h1 : decide (b.Type_ = "text") = false := by simp [hb]
  have h2 : decide (b.Type_ = "file") = true := by simp [hb]
  have h3 : decide (b.Type_ = "tool") = false := by simp [hb]
  have h4 : isOtherPart b = false := by simp [isOtherPart, hb]
  by_cases hany : (pre ++ post).any (fun p => decide (p.Type_ = "file")) = true
  · refine ⟨((pre ++ post).filter (fun p => decide (p.Type_ = "text"))).flatMap (writeTextPart L)
        ++ (["### Attachments\n\n"] ++
          (pre.filter (fun p => decide (p.Type_ = "file"))).flatMap (writeFilePart L)),
      (post.filter (fun p => decide (p.Type_ = "file"))).flatMap (writeFilePart L) ++ ["\n"] ++
        toolWrites L g (pre ++ post) ++
        ((pre ++ post).filter isOtherPart).flatMap (writeOtherPart L), ?_, Or.inl ?_⟩
    · rw [writeParts_eq_blocks]
      unfold attachmentsWrites
      rw [if_pos hany, filter_split (fun p => decide (p.Type_ = "file")) pre post,
        List.flatMap_append]
      simp only [List.append_assoc]
    · rw [writeParts_eq_blocks, filter_insert_of_neg _ pre post b h1,
        toolWrites_insert_of_neg L g pre post b h3,
        filter_insert_of_neg isOtherPart pre post b h4]
      unfold attachmentsWrites
      rw [if_pos (any_insert_of_pos _ pre post b h2), filter_insert_of_pos _ pre post b h2]
      simp only [List.flatMap_append, List.flatMap_cons, List.append_assoc]
  · have hany' : (pre ++ post).any (fun p => decide (p.Type_ = "file")) = false := by
      simpa using hany
    have hnil := filter_nil_of_any_false _ _ hany'
    rw [List.filter_append, List.append_eq_nil] at hnil
    refine ⟨((pre ++ post).filter (fun p => decide (p.Type_ = "text"))).flatMap (writeTextPart L),
      toolWrites L g (pre ++ post) ++
        ((pre ++ post).filter isOtherPart).flatMap (writeOtherPart L), ?_, Or.inr ?_⟩
    · rw [writeParts_eq_blocks]
      unfold attachmentsWrites
      rw [if_neg hany]
      simp only [List.append_nil, List.append_assoc]
    · rw [writeParts_eq_blocks, filter_insert_of_neg _ pre post b h1,
        toolWrites_insert_of_neg L g pre post b h3,
        filter_insert_of_neg isOtherPart pre post b h4]
      unfold attachmentsWrites
      rw [if_pos (any_insert_of_pos _ pre post b h2), filter_insert_of_pos _ pre post b h2,
        hnil.1, hnil.2]
      simp only [List.flatMap_nil, List.flatMap_cons, List.append_nil, List.nil_append,
        List.append_assoc]

/-- A tool part adds its rendering to the writes of `writeParts`, with the
heading when it is the only tool part, and changes nothing else. -/
theorem writeParts_insert_tool (L : GoLib) (g : Generator) (pre post : List MessagePart)
    (b : MessagePart) (hb : b.Type_ = "tool") :
    ∃ A B : List String, writeParts L g (pre ++ post) = A ++ B ∧
      (writeParts L g (pre ++ b :: post) = A ++ writeToolPart L g b ++ B ∨
       writeParts L g (pre ++ b :: post) =
         A ++ (["### Tool Executions\n\n"] ++ writeToolPart L g b) ++ B) := by
  have h1 : decide (b.Type_ = "text") = false := by simp [hb]
  have h2 : decide (b.Type_ = "file") = false := by simp [hb]
  have h3 : decide (b.Type_ = "tool") = true := by simp [hb]
  have h4 : isOtherPart b = false := by simp [isOtherPart, hb]
  by_cases hany : (pre ++ post).any (fun p => decide (p.Type_ = "tool")) = true
  · refine ⟨((pre ++ post).filter (fun p => decide (p.Type_ = "text"))).flatMap (writeTextPart L)
        ++ attachmentsWrites L (pre ++ post) ++ (["### Tool Executions\n\n"] ++
          (pre.filter (fun p => decide (p.Type_ = "tool"))).flatMap (writeToolPart L g)),
      (post.filter (fun p => decide (p.Type_ = "tool"))).flatMap (writeToolPart L g) ++
        ((pre ++ post).filter isOtherPart).flatMap (writeOtherPart L), ?_, Or.inl ?_⟩
    · rw [writeParts_eq_blocks]
      unfold toolWrites
      rw [if_pos hany, filter_split (fun p => decide (p.Type_ = "tool")) pre post,
        List.flatMap_append]
      simp only [List.append_assoc]
    · rw [writeParts_eq_blocks, filter_insert_of_neg _ pre post b h1,
        attachmentsWrites_insert_of_neg L pre post b h2,
        filter_insert_of_neg isOtherPart pre post b h4]
      unfold toolWrites
      rw [if_pos (any_insert_of_pos _ pre post b h3), filter_insert_of_pos _ pre post b h3]
      simp only [List.flatMap_append, List.flatMap_cons, List.append_assoc]
  · have hany' : (pre ++ post).any (fun p => decide (p.Type_ = "tool")) = false := by
      simpa using hany
    have hnil := filter_nil_of_any_false _ _ hany'
    rw [List.filter_append, List.append_eq_nil] at hnil
    refine ⟨((pre ++ post).filter (fun p => decide (p.Type_ = "text"))).flatMap (writeTextPart L)
        ++ attachmentsWrites L (pre ++ post),
      ((pre ++ post).filter isOtherPart).flatMap (writeOtherPart L), ?_, Or.inr ?_⟩
    · rw [writeParts_eq_blocks]
      unfold toolWrites
      rw [if_neg hany]
      simp only [List.append_nil, List.append_assoc]
    · rw [writeParts_eq_blocks, filter_insert_of_neg _ pre post b h1,
        attachmentsWrites_insert_of_neg L pre post b h2,
        filter_insert_of_neg isOtherPart pre post b h4]
      unfold toolWrites
      rw [if_pos (any_insert_of_pos _ pre post b h3), filter_insert_of_pos _ pre post b h3,
        hnil.1, hnil.2]
      simp only [List.flatMap_nil, List.flatMap_cons, List.append_nil, List.nil_append,
        List.append_assoc]


theorem foldl_groupParts (parts : List MessagePart) (m : PartsByMessage) (id : String) :
    parts.foldl
      (fun (result : PartsByMessage) (part : MessagePart) =>
        Function.update result part.MessageID (result part.MessageID ++ [part]))
      m id = m id ++ parts.filter (fun p => decide (p.MessageID = id)) := by
  induction parts generalizing m with
  | nil => simp
  | cons p ps ih =>
    rw [List.foldl_cons, ih]
    by_cases h : p.MessageID = id
    · subst h
      simp [List.filter_cons]
    · have h' : id ≠ p.MessageID := fun e => h e.symm
      simp [List.filter_cons, h, Function.update_noteq h']

/-- The entry of the map of `groupPartsByMessage` for a message ID holds the
parts with that ID, in input order. -/
theorem groupPartsByMessage_eq_filter (parts : List MessagePart) (id : String) :
    groupPartsByMessage parts id = parts.filter (fun p => decide (p.MessageID = id)) := by
  unfold groupPartsByMessage
  rw [foldl_groupParts]
  simp

theorem text_marker_isErrorMarker (e : String) :
    isErrorMarker ("*[Error parsing text part: " ++ e ++ "]*\n\n") = true := by
  have h : ("*[Error parsing text part: " ++ e ++ "]*\n\n").data =
      "*[Error parsing ".data ++ ("text part: " ++ e ++ "]*\n\n").data := rfl
  unfold isErrorMarker
  rw [h]
  simp [List.isPrefixOf_iff_prefix]

theorem file_marker_isErrorMarker (e : String) :
    isErrorMarker ("*[Error parsing file part: " ++ e ++ "]*\n") = true := by
  have h : ("*[Error parsing file part: " ++ e ++ "]*\n").data =
      "*[Error parsing ".data ++ ("file part: " ++ e ++ "]*\n").data := rfl
  unfold isErrorMarker
  rw [h]
  simp [List.isPrefixOf_iff_prefix]

theorem tool_marker_isErrorMarker (e : String) :
    isErrorMarker ("*[Error parsing tool part: " ++ e ++ "]*\n\n") = true := by
  have h : ("*[Error parsing tool part: " ++ e ++ "]*\n\n").data =
      "*[Error parsing ".data ++ ("tool part: " ++ e ++ "]*\n\n").data := rfl
  unfold isErrorMarker
  rw [h]
  simp [List.isPrefixOf_iff_prefix]

theorem other_heading_not_isErrorMarker (t : String) :
    isErrorMarker ("### " ++ t ++ " Part\n\n") = false := by
  have h1 : ("### " ++ t ++ " Part\n\n").data = '#' :: ("## " ++ t ++ " Part\n\n").data := rfl
  have h2 : "*[Error parsing ".data = '*' :: "[Error parsing ".data := rfl
  unfold isErrorMarker
  rw [h1, h2]
  simp [List.isPrefixOf]

/-- C5, as stated, fails: `snapshotPart` is of a type other than text, tool,
file and the step types and has no payload; whenever the decoder rejects the
absent payload, as `encoding/json` does, `writeOtherPart` writes the heading,
the opening fence, the raw payload (here empty) and the closing fence, and no
error marker. -/
theorem undecodable_other_part_has_no_error_marker :
    isOtherPart snapshotPart = true ∧ snapshotPart.Data = none ∧
    ∀ (L : GoLib) (e : GoError), L.unmarshalValue none = .error e →
      writeOtherPart L snapshotPart =
        ["### " ++ L.Title "snapshot" ++ " Part\n\n", "```json\n", "", "\n```\n\n"] ∧
      (writeOtherPart L snapshotPart).any isErrorMarker = false := by
  refine ⟨by decide, rfl, fun L e he => ?_⟩
  have hw : writeOtherPart L snapshotPart =
      ["### " ++ L.Title "snapshot" ++ " Part\n\n", "```json\n", "", "\n```\n\n"] := by
    unfold writeOtherPart
    have hd : snapshotPart.Data = none := rfl
    rw [hd, he]
    rfl
  refine ⟨hw, ?_⟩
  rw [hw]
  have h1 := other_heading_not_isErrorMarker (L.Title "snapshot")
  have h2 : isErrorMarker "```json\n" = false := by decide
  have h3 : isErrorMarker "" = false := by decide
  have h4 : isErrorMarker "\n```\n\n" = false := by decide
  simp [h1, h2, h3, h4]

/-- C5, amended: a text part without text field, a file part, or a tool part
without direct fields, whose payload the decoder rejects with error `e`, is
rendered as the one inline marker "*[Error parsing text part: e]*" (resp.
"file part", "tool part"); a part of any other non-step type whose payload the
decoder rejects is rendered as its heading and a json fence around the raw
payload, without marker. In each case the writes of `writeParts` for the list
with the part are those for the list without it, with that rendering inserted
(for the only file or tool part of the message, together with the heading of
its block). `Generate` returns no error, and the parts handed to a message
with another ID are the same with and without the part. -/
theorem undecodable_part_rendered_in_place (L : GoLib) (g : Generator) (b : MessagePart)
    (pre post : List MessagePart) (e : GoError) :
    (b.Type_ = "text" → b.Text = none → L.unmarshalTextPartData b.Data = .error e →
      isErrorMarker ("*[Error parsing text part: " ++ e ++ "]*\n\n") = true ∧
      ∃ A B : List String, writeParts L g (pre ++ post) = A ++ B ∧
        writeParts L g (pre ++ b :: post) =
          A ++ ["*[Error parsing text part: " ++ e ++ "]*\n\n"] ++ B) ∧
    (b.Type_ = "file" → L.unmarshalFilePartData b.Data = .error e →
      isErrorMarker ("*[Error parsing file part: " ++ e ++ "]*\n") = true ∧
      ∃ A B : List String, writeParts L g (pre ++ post) = A ++ B ∧
        (writeParts L g (pre ++ b :: post) =
            A ++ ["*[Error parsing file part: " ++ e ++ "]*\n"] ++ B ∨
         writeParts L g (pre ++ b :: post) =
            A ++ (["### Attachments\n\n"] ++ ["*[Error parsing file part: " ++ e ++ "]*\n"] ++
              ["\n"]) ++ B)) ∧
    (b.Type_ = "tool" → ¬ (b.Tool.isSome ∧ b.State.isSome) →
      L.unmarshalToolPartData b.Data = .error e →
      isErrorMarker ("*[Error parsing tool part: " ++ e ++ "]*\n\n") = true ∧
      ∃ A B : List String, writeParts L g (pre ++ post) = A ++ B ∧
        (writeParts L g (pre ++ b :: post) =
            A ++ ["*[Error parsing tool part: " ++ e ++ "]*\n\n"] ++ B ∨
         writeParts L g (pre ++ b :: post) =
            A ++ (["### Tool Executions\n\n"] ++
              ["*[Error parsing tool part: " ++ e ++ "]*\n\n"]) ++ B)) ∧
    (isOtherPart b = true → L.unmarshalValue b.Data = .error e →
      ∃ A B : List String, writeParts L g (pre ++ post) = A ++ B ∧
        writeParts L g (pre ++ b :: post) =
          A ++ ["### " ++ L.Title b.Type_ ++ " Part\n\n", "```json\n", b.Data.toStr,
            "\n```\n\n"] ++ B) ∧
    (∀ sess : Session, (Generate L g sess).2 = none) ∧
    (∀ id : String, id ≠ b.MessageID →
      groupPartsByMessage (pre ++ b :: post) id = groupPartsByMessage (pre ++ post) id) := by
  refine ⟨?_, ?_, ?_, ?_, fun _ => rfl, ?_⟩
  · intro ht hn he
    have hw : writeTextPart L b = ["*[Error parsing text part: " ++ e ++ "]*\n\n"] := by
      unfold writeTextPart
      rw [hn, he]
    rw [← hw]
    exact ⟨text_marker_isErrorMarker e, writeParts_insert_text L g pre post b ht⟩
  · intro ht he
    have hw : writeFilePart L b = ["*[Error parsing file part: " ++ e ++ "]*\n"] := by
      unfold writeFilePart
      rw [he]
    rw [← hw]
    exact ⟨file_marker_isErrorMarker e, writeParts_insert_file L g pre post b ht⟩
  · intro ht hn he
    have hw : writeToolPart L g b = ["*[Error parsing tool part: " ++ e ++ "]*\n\n"] := by
      unfold writeToolPart
      rw [if_neg hn, he]
    rw [← hw]
    exact ⟨tool_marker_isErrorMarker e, writeParts_insert_tool L g pre post b ht⟩
  · intro ht he
    have hw : writeOtherPart L b =
        ["### " ++ L.Title b.Type_ ++ " Part\n\n", "```json\n", b.Data.toStr, "\n```\n\n"] := by
      unfold writeOtherPart
      rw [he]
      rfl
    rw [← hw]
    exact writeParts_insert_other L g pre post b ht
  · intro id hid
    rw [groupPartsByMessage_eq_filter, groupPartsByMessage_eq_filter]
    apply filter_insert_of_neg
    simpa using fun h : b.MessageID = id => hid h.symm

/-- C5, amended, at the text part `emptyTextPart`, between a text part and a
tool part, and at `snapshotPart` after them. -/
theorem undecodable_part_rendered_in_place_witness :
    (∃ A B : List String,
      writeParts sampleLib ⟨false, false, false⟩ ([lateTextPart] ++ [earlyToolPart]) = A ++ B ∧
      writeParts sampleLib ⟨false, false, false⟩ ([lateTextPart] ++ emptyTextPart ::
          [earlyToolPart]) =
        A ++ ["*[Error parsing text part: " ++ "unexpected end of JSON input" ++ "]*\n\n"]
          ++ B) ∧
    (∃ A B : List String,
      writeParts sampleLib ⟨false, false, false⟩ ([lateTextPart] ++ []) = A ++ B ∧
      writeParts sampleLib ⟨false, false, false⟩ ([lateTextPart] ++ snapshotPart :: []) =
        A ++ ["### " ++ sampleLib.Title snapshotPart.Type_ ++ " Part\n\n", "```json\n",
          snapshotPart.Data.toStr, "\n```\n\n"] ++ B) :=
  ⟨((undecodable_part_rendered_in_place sampleLib ⟨false, false, false⟩ emptyTextPart
      [lateTextPart] [earlyToolPart] "unexpected end of JSON input").1 rfl rfl rfl).2,
   (undecodable_part_rendered_in_place sampleLib ⟨false, false, false⟩ snapshotPart
      [lateTextPart] [] "unexpected end of JSON input").2.2.2.1 (by decide) rfl⟩


/-! ## The unit index of `formatFileSize` -/

theorem formatFileSizeLoop_exp_le (k : Nat) (n div : Int) (exp : Nat)
    (h : n < 1024 ^ (k + 1)) : (formatFileSizeLoop n div exp).2 ≤ exp + k := by
  induction k generalizing n div exp with
  | zero =>
    rw [formatFileSizeLoop]
    have hn : ¬ (1024 : Int) ≤ n := by
      simp only [Nat.zero_add, pow_one] at h
      omega
    simp [hn]
  | succ k ih =>
    rw [formatFileSizeLoop]
    by_cases hn : (1024 : Int) ≤ n
    · simp only [hn, if_true]
      have hdiv : Int.tdiv n 1024 = n / 1024 := Int.tdiv_eq_ediv (by omega) (by omega)
      have hlt : Int.tdiv n 1024 < 1024 ^ (k + 1) := by
        rw [hdiv]
        have h' : n < 1024 ^ (k + 1) * 1024 := by
          have : (1024 : Int) ^ (k + 1 + 1) = 1024 ^ (k + 1) * 1024 := pow_succ _ _
          rw [this] at h
          exact h
        exact Int.ediv_lt_of_lt_mul (by omega) h'
      have := ih (Int.tdiv n 1024) (wrapInt64 (div * 1024)) (exp + 1) hlt
      omega
    · simp only [hn, if_false]
      omega

/-- For every 64-bit byte count the index expression of `formatFileSize` is in
range: the function returns a text. -/
theorem formatFileSize_isSome (L : GoLib) (bytes : Int) (h : bytes < 2 ^ 63) :
    (formatFileSize L bytes).isSome = true := by
  unfold formatFileSize
  by_cases hb : bytes < 1024
  · simp [hb]
  · simp only [hb, if_false]
    have hdiv : Int.tdiv bytes 1024 = bytes / 1024 := Int.tdiv_eq_ediv (by omega) (by omega)
    have hlt : Int.tdiv bytes 1024 < 1024 ^ (5 + 1) := by
      rw [hdiv]
      have : bytes / 1024 < 2 ^ 53 := by omega
      have h2 : (2 : Int) ^ 53 < 1024 ^ (5 + 1) := by norm_num
      omega
    have hexp := formatFileSizeLoop_exp_le 5 (Int.tdiv bytes 1024) 1024 0 hlt
    have hle : (formatFileSizeLoop (Int.tdiv bytes 1024) 1024 0).2 ≤ 5 := by omega
    generalize (formatFileSizeLoop (Int.tdiv bytes 1024) 1024 0) = r at hle ⊢
    obtain ⟨d, x⟩ := r
    simp only at hle
    interval_cases x <;> simp [unitLetter]

/-! ## C18: the option IncludeSnapshots -/

theorem writeToolPartDirect_congr (L : GoLib) (g g' : Generator) (part : MessagePart)
    (ht : g.includeTimings = g'.includeTimings) :
    writeToolPartDirect L g part = writeToolPartDirect L g' part := by
  unfold writeToolPartDirect
  simp only [ht]

theorem writeToolPartFromData_congr (L : GoLib) (g g' : Generator) (toolData : ToolPartData)
    (ht : g.includeTimings = g'.includeTimings) :
    writeToolPartFromData L g toolData = writeToolPartFromData L g' toolData := by
  unfold writeToolPartFromData
  simp only [ht]

theorem writeToolPart_congr (L : GoLib) (g g' : Generator) (part : MessagePart)
    (ht : g.includeTimings = g'.includeTimings) :
    writeToolPart L g part = writeToolPart L g' part := by
  unfold writeToolPart
  rw [writeToolPartDirect_congr L g g' part ht]
  split
  · rfl
  · cases L.unmarshalToolPartData part.Data with
    | error e => rfl
    | ok toolData => exact writeToolPartFromData_congr L g g' toolData ht

theorem writeParts_congr (L : GoLib) (g g' : Generator) (parts : List MessagePart)
    (ht : g.includeTimings = g'.includeTimings) :
    writeParts L g parts = writeParts L g' parts := by
  have hf : writeToolPart L g = writeToolPart L g' :=
    funext fun part => writeToolPart_congr L g g' part ht
  unfold writeParts
  rw [hf]

theorem writeMessage_congr (L : GoLib) (g g' : Generator) (msg : Message)
    (parts : List MessagePart) (n : Nat)
    (hc : g.includeCosts = g'.includeCosts) (ht : g.includeTimings = g'.includeTimings) :
    writeMessage L g msg parts n = writeMessage L g' msg parts n := by
  unfold writeMessage
  rw [writeParts_congr L g g' parts ht]
  simp only [hc]

theorem writeMessages_congr (L : GoLib) (g g' : Generator) (pbm : PartsByMessage)
    (messages : List Message) (i : Nat)
    (hc : g.includeCosts = g'.includeCosts) (ht : g.includeTimings = g'.includeTimings) :
    writeMessages L g pbm messages i = writeMessages L g' pbm messages i := by
  induction messages generalizing i with
  | nil => rfl
  | cons m rest ih =>
    simp only [writeMessages]
    rw [ih (i + 1), writeMessage_congr L g g' m (pbm m.ID) (i + 1) hc ht]

/-- The Markdown of `Generate` depends on the generator through `includeCosts`
and `includeTimings` only. -/
theorem Generate_congr (L : GoLib) (g g' : Generator) (sess : Session)
    (hc : g.includeCosts = g'.includeCosts) (ht : g.includeTimings = g'.includeTimings) :
    Generate L g sess = Generate L g' sess := by
  unfold Generate generateWrites
  rw [writeMessages_congr L g g' _ _ 0 hc ht]

/-- C18: for every session, two Options values with the same IncludeCosts and
the same IncludeTimings, whatever their IncludeSnapshots, give the same
Markdown and the same (nil) error from `Generate`. -/
theorem includeSnapshots_inert (L : GoLib) (sess : Session)
    (costs timings snapshots snapshots' : Bool) :
    Generate L (NewGenerator ⟨costs, timings, snapshots⟩) sess =
      Generate L (NewGenerator ⟨costs, timings, snapshots'⟩) sess :=
  Generate_congr L _ _ sess rfl rfl

/-! ## C19: the two shapes of a tool payload -/

/-- A tool part with both direct fields is rendered from them, whatever its
payload holds. -/
theorem writeToolPart_direct (L : GoLib) (g : Generator) (part : MessagePart)
    (t : String) (raw : String) (hTool : part.Tool = some t) (hState : part.State = some raw) :
    writeToolPart L g part = writeToolPartDirect L g part := by
  unfold writeToolPart
  simp [hTool, hState]

/-- The writes of `writeToolPartDirect` once the state is decoded are those of
`writeToolPartFromData` for the same tool name and state. -/
theorem writeToolPartDirect_eq_fromData (L : GoLib) (g : Generator) (part : MessagePart)
    (t callID : String) (s : ToolStateData) (hTool : part.Tool = some t)
    (hDecode : L.unmarshalToolStateData part.State = .ok s) :
    writeToolPartDirect L g part = writeToolPartFromData L g ⟨t, callID, s⟩ := by
  unfold writeToolPartDirect writeToolPartFromData
  rw [hDecode, hTool]
  rfl

/-- C19: a tool part carrying the tool name `t` and a state that decodes to `s`
in its direct fields, with any payload, and a tool part without both direct
fields whose payload decodes to the tool name `t` and the state `s`, have the
same writes; the direct fields are looked at first. -/
theorem tool_payload_shapes_agree (L : GoLib) (g : Generator) (direct envelope : MessagePart)
    (t callID raw : String) (s : ToolStateData)
    (hTool : direct.Tool = some t) (hState : direct.State = some raw)
    (hDecode : L.unmarshalToolStateData (some raw) = .ok s)
    (hNoDirect : ¬ (envelope.Tool.isSome ∧ envelope.State.isSome))
    (hEnvelope : L.unmarshalToolPartData envelope.Data = .ok ⟨t, callID, s⟩) :
    writeToolPart L g direct = writeToolPart L g envelope ∧
    writeToolPart L g direct = writeToolPartDirect L g direct ∧
    writeToolPart L g envelope = writeToolPartFromData L g ⟨t, callID, s⟩ ∧
    ∀ data : RawMessage, writeToolPart L g { direct with Data := data } =
      writeToolPart L g direct := by
  have h1 := writeToolPart_direct L g direct t raw hTool hState
  have h2 : writeToolPart L g envelope = writeToolPartFromData L g ⟨t, callID, s⟩ := by
    unfold writeToolPart
    rw [if_neg hNoDirect, hEnvelope]
  have h3 := writeToolPartDirect_eq_fromData L g direct t callID s hTool (hState ▸ hDecode)
  refine ⟨by rw [h1, h2, h3], h1, h2, fun data => ?_⟩
  rw [writeToolPart_direct L g { direct with Data := data } t raw hTool hState, h1]
  rfl

/-! ## C20 and C11: the unit and the divisor of `formatFileSize` -/

theorem wrapInt64_of_inRange (x : Int) (hlo : -9223372036854775808 ≤ x)
    (hhi : x < 9223372036854775808) : wrapInt64 x = x := by
  unfold wrapInt64
  omega

/-- The loop of `formatFileSize` from `n`, `div`, `exp` runs `j` times, where
`1024 ^ j ≤ n < 1024 ^ (j + 1)`, and ends with `div * 1024 ^ j` and `exp + j`;
no multiplication leaves the range of `int64` when `div * n` is in it. -/
theorem formatFileSizeLoop_spec (k : Nat) (n div : Int) (exp : Nat)
    (hn1 : 1 ≤ n) (hn : n < 1024 ^ (k + 1)) (hdiv : 0 < div)
    (hbound : div * n < 9223372036854775808) :
    ∃ j : Nat, j ≤ k ∧ formatFileSizeLoop n div exp = (div * 1024 ^ j, exp + j) ∧
      (1024 : Int) ^ j ≤ n ∧ n < 1024 ^ (j + 1) := by
  induction k generalizing n div exp with
  | zero =>
    refine ⟨0, le_refl _, ?_, by simpa using hn1, by simpa using hn⟩
    rw [formatFileSizeLoop]
    have hlt : ¬ (1024 : Int) ≤ n := by
      simp only [Nat.zero_add, pow_one] at hn
      omega
    simp [hlt]
  | succ k ih =>
    by_cases hge : (1024 : Int) ≤ n
    · have hdivn : Int.tdiv n 1024 = n / 1024 := Int.tdiv_eq_ediv (by omega) (by omega)
      have hmul : div * 1024 ≤ div * n := Int.mul_le_mul_of_nonneg_left hge (le_of_lt hdiv)
      have hwrap : wrapInt64 (div * 1024) = div * 1024 :=
        wrapInt64_of_inRange _ (by omega) (by omega)
      have hq1 : 1 ≤ n / 1024 := by omega
      have hqlt : n / 1024 < 1024 ^ (k + 1) := by
        have h' : n < 1024 ^ (k + 1) * 1024 := by
          have : (1024 : Int) ^ (k + 1 + 1) = 1024 ^ (k + 1) * 1024 := pow_succ _ _
          rw [this] at hn
          exact hn
        exact Int.ediv_lt_of_lt_mul (by omega) h'
      have hqb : div * 1024 * (n / 1024) < 9223372036854775808 := by
        have h1 : 1024 * (n / 1024) ≤ n := by omega
        have h2 : div * (1024 * (n / 1024)) ≤ div * n :=
          Int.mul_le_mul_of_nonneg_left h1 (le_of_lt hdiv)
        have h3 : div * 1024 * (n / 1024) = div * (1024 * (n / 1024)) := by ring
        omega
      obtain ⟨j, hj, hres, hlo, hhi⟩ :=
        ih (n / 1024) (div * 1024) (exp + 1) hq1 hqlt (by omega) hqb
      refine ⟨j + 1, by omega, ?_, ?_, ?_⟩
      · rw [formatFileSizeLoop, if_pos hge, hdivn, hwrap, hres]
        have : div * 1024 * 1024 ^ j = div * 1024 ^ (j + 1) := by ring
        rw [this]
        congr 1
        omega
      · have h1 : (1024 : Int) ^ (j + 1) = 1024 ^ j * 1024 := pow_succ _ _
        have h2 : (1024 : Int) ^ j * 1024 ≤ (n / 1024) * 1024 :=
          Int.mul_le_mul_of_nonneg_right hlo (by omega)
        omega
      · have h1 : (1024 : Int) ^ (j + 1 + 1) = 1024 ^ (j + 1) * 1024 := pow_succ _ _
        have h2 : (n / 1024 + 1) * 1024 ≤ (1024 : Int) ^ (j + 1) * 1024 :=
          Int.mul_le_mul_of_nonneg_right (by omega) (by omega)
        omega
    · refine ⟨0, Nat.zero_le _, ?_, by simpa using hn1, by simpa using (by omega : n < 1024)⟩
      rw [formatFileSizeLoop, if_neg hge]
      simp

/-- For a byte count of at least 1024 in the range of `int64`, the loop of
`formatFileSize` ends with the divisor `1024 ^ (k + 1)` and the index `k`,
where `k ≤ 5` and `1024 ^ (k + 1) ≤ bytes < 1024 ^ (k + 2)`. -/
theorem formatFileSizeLoop_of_bytes (bytes : Int) (hlo : 1024 ≤ bytes)
    (hhi : bytes < 9223372036854775808) :
    ∃ k : Nat, k ≤ 5 ∧
      formatFileSizeLoop (Int.tdiv bytes 1024) 1024 0 = (1024 ^ (k + 1), k) ∧
      (1024 : Int) ^ (k + 1) ≤ bytes ∧ bytes < 1024 ^ (k + 2) := by
  have hdivn : Int.tdiv bytes 1024 = bytes / 1024 := Int.tdiv_eq_ediv (by omega) (by omega)
  have hlt : bytes / 1024 < 1024 ^ (5 + 1) := by
    have h2 : (2 : Int) ^ 53 < 1024 ^ (5 + 1) := by norm_num
    omega
  obtain ⟨j, hj, hres, hjlo, hjhi⟩ :=
    formatFileSizeLoop_spec 5 (bytes / 1024) 1024 0 (by omega) hlt (by omega) (by omega)
  refine ⟨j, hj, ?_, ?_, ?_⟩
  · rw [hdivn, hres]
    have : (1024 : Int) * 1024 ^ j = 1024 ^ (j + 1) := by ring
    rw [this]
    simp
  · have h1 : (1024 : Int) ^ (j + 1) = 1024 ^ j * 1024 := pow_succ _ _
    have h2 : (1024 : Int) ^ j * 1024 ≤ (bytes / 1024) * 1024 :=
      Int.mul_le_mul_of_nonneg_right hjlo (by omega)
    omega
  · have h1 : (1024 : Int) ^ (j + 2) = 1024 ^ (j + 1) * 1024 := pow_succ _ _
    have h2 : (bytes / 1024 + 1) * 1024 ≤ (1024 : Int) ^ (j + 1) * 1024 :=
      Int.mul_le_mul_of_nonneg_right (by omega) (by omega)
    omega

theorem unitLetter_of_le (k : Nat) (hk : k ≤ 5) :
    unitLetter k = some ("KMGTPE".data.getD k ' ') := by
  interval_cases k <;> rfl

/-- The index `k` with `1024 ^ (k + 1) ≤ N < 1024 ^ (k + 2)` is unique. -/
theorem unit_index_unique (N : Int) (k k' : Nat)
    (h1 : (1024 : Int) ^ (k + 1) ≤ N) (h2 : N < 1024 ^ (k + 2))
    (h1' : (1024 : Int) ^ (k' + 1) ≤ N) (h2' : N < 1024 ^ (k' + 2)) : k' = k := by
  by_contra hne
  rcases Nat.lt_or_gt_of_ne hne with h | h
  · have : (1024 : Int) ^ (k' + 2) ≤ 1024 ^ (k + 1) :=
      pow_le_pow_right₀ (by norm_num) (by omega)
    omega
  · have : (1024 : Int) ^ (k + 2) ≤ 1024 ^ (k' + 1) :=
      pow_le_pow_right₀ (by norm_num) (by omega)
    omega

/-- C20: for every byte count of at least 1024 in the range of `int64` the loop
of `formatFileSize` ends with an index `exp` of at most 5, for which the lookup
in "KMGTPE" is in range, and with the divisor `1024 ^ (exp + 1)`, which is
below 2^63 (no `int64` multiplication wrapped) and at most the byte count, and
`formatFileSize` returns a text; for every byte count below 1024, the negative
ones too, the result is the signed decimal followed by " B". -/
theorem formatFileSize_total (L : GoLib) (bytes : Int) :
    (1024 ≤ bytes → bytes < 9223372036854775808 →
      (formatFileSizeLoop (Int.tdiv bytes 1024) 1024 0).2 ≤ 5 ∧
      (unitLetter (formatFileSizeLoop (Int.tdiv bytes 1024) 1024 0).2).isSome = true ∧
      (formatFileSizeLoop (Int.tdiv bytes 1024) 1024 0).1 =
        1024 ^ ((formatFileSizeLoop (Int.tdiv bytes 1024) 1024 0).2 + 1) ∧
      (formatFileSizeLoop (Int.tdiv bytes 1024) 1024 0).1 < 9223372036854775808 ∧
      (formatFileSizeLoop (Int.tdiv bytes 1024) 1024 0).1 ≤ bytes ∧
      (formatFileSize L bytes).isSome = true) ∧
    (bytes < 1024 → formatFileSize L bytes = some (toString bytes ++ " B")) := by
  constructor
  · intro hlo hhi
    obtain ⟨k, hk, hres, hle, _⟩ := formatFileSizeLoop_of_bytes bytes hlo hhi
    rw [hres]
    refine ⟨hk, ?_, rfl, ?_, hle, formatFileSize_isSome L bytes (by omega)⟩
    · rw [unitLetter_of_le k hk]
      rfl
    · show (1024 : Int) ^ (k + 1) < 9223372036854775808
      omega
  · intro hlt
    unfold formatFileSize
    rw [if_pos hlt]

/-- C20 at 1536 bytes, at 2^63 - 1 bytes and at -5 bytes. -/
theorem formatFileSize_total_witness :
    (formatFileSizeLoop (Int.tdiv 1536 1024) 1024 0).2 ≤ 5 ∧
    (formatFileSizeLoop (Int.tdiv 9223372036854775807 1024) 1024 0).1 ≤ 9223372036854775807 ∧
    formatFileSize sampleLib (-5) = some "-5 B" :=
  ⟨((formatFileSize_total sampleLib 1536).1 (by decide) (by decide)).1,
   ((formatFileSize_total sampleLib 9223372036854775807).1 (by decide) (by decide)).2.2.2.2.1,
   ((formatFileSize_total sampleLib (-5)).2 (by decide)).trans (by decide)⟩

/-! ## Go `float64` arithmetic and the verb `%.Nf`

A finite `float64` is kept as an exact fraction. Conversions from integers,
division and addition round to the nearest value with a significand of 53
bits, ties to even, as IEEE 754 prescribes; the values that the program forms
(byte counts below 2^63, durations, their quotients) are within the normal
range, so overflow and subnormal values are left out, as are negative zero,
infinities and NaN. -/

/-- A finite `float64` value: the fraction `num / den`. -/
structure F64 where
  num : Int
  den : Nat
deriving DecidableEq, Repr

/-- The number of binary digits of `n`, by halving at most `fuel` times. -/
def bitLengthAux : Nat → Nat → Nat
  | 0, _ => 0
  | fuel + 1, n => if n = 0 then 0 else bitLengthAux fuel (n / 2) + 1

/-- The number of binary digits of `n`. -/
def bitLength (n : Nat) : Nat := bitLengthAux n n

/-- The integer nearest to `n / d`, the even one of two at equal distance. -/
def roundNearestEven (n d : Nat) : Nat :=
  let q := n / d
  let r := n % d
  if 2 * r < d then q
  else if d < 2 * r then q + 1
  else if q % 2 = 0 then q
  else q + 1

/-- The `float64` nearest to `num / den`: with `2 ^ e ≤ |num / den| < 2 ^ (e + 1)`
the fraction is rounded to a multiple of `2 ^ (e - 52)`. -/
def roundF64 (num : Int) (den : Nat) : F64 :=
  let n := num.natAbs
  if n = 0 ∨ den = 0 then ⟨0, 1⟩
  else
    let e0 : Int := (bitLength n : Int) - (bitLength den : Int)
    let atLeast : Bool :=
      if 0 ≤ e0 then decide (den * 2 ^ e0.toNat ≤ n) else decide (den ≤ n * 2 ^ (-e0).toNat)
    let e : Int := if atLeast then e0 else e0 - 1
    let s : Int := 52 - e
    let v : Nat × Nat :=
      if 0 ≤ s then (roundNearestEven (n * 2 ^ s.toNat) den, 2 ^ s.toNat)
      else (roundNearestEven n (den * 2 ^ (-s).toNat) * 2 ^ (-s).toNat, 1)
    ⟨if 0 ≤ num then (v.1 : Int) else -(v.1 : Int), v.2⟩

/-- Go `float64(n)` for an integer `n`. -/
def F64.ofInt (n : Int) : F64 := roundF64 n 1

/-- Go `a + b` on `float64`. -/
def F64.add (a b : F64) : F64 :=
  roundF64 (a.num * b.den + b.num * a.den) (a.den * b.den)

/-- Go `a / b` on `float64`, for a divisor other than zero. -/
def F64.div (a b : F64) : F64 :=
  roundF64 (if 0 ≤ b.num then a.num * b.den else -(a.num * b.den)) (a.den * b.num.natAbs)

/-- Go `fmt.Sprintf("%.Nf", x)` with `N = prec`: the exact value of `x` rounded
to `prec` decimals, ties to even, behind the sign of `x`. -/
def fmtFixed (prec : Nat) (num : Int) (den : Nat) : String :=
  let m := roundNearestEven (num.natAbs * 10 ^ prec) den
  let whole := toString (m / 10 ^ prec)
  let digits := toString (m % 10 ^ prec)
  (if num < 0 then "-" else "") ++ whole ++ "." ++
    String.mk (List.replicate (prec - digits.length) '0') ++ digits

/-- Go `d.Seconds()`. -/
def Duration.Seconds (d : Duration) : F64 :=
  F64.add (F64.ofInt (Int.tdiv d Second))
    (F64.div (F64.ofInt (Int.tmod d Second)) (F64.ofInt 1000000000))

/-- Go `d.Minutes()`. -/
def Duration.Minutes (d : Duration) : F64 :=
  F64.add (F64.ofInt (Int.tdiv d Minute))
    (F64.div (F64.ofInt (Int.tmod d Minute)) (F64.ofInt (60 * 1000000000)))

/-- Go `d.Hours()`. -/
def Duration.Hours (d : Duration) : F64 :=
  F64.add (F64.ofInt (Int.tdiv d Hour))
    (F64.div (F64.ofInt (Int.tmod d Hour)) (F64.ofInt (60 * 60 * 1000000000)))

/-- The library formats floating-point values as Go does: its five formatting
functions are the ones their documentation in `GoLib` names. -/
def GoLib.FormatsFloats (L : GoLib) : Prop :=
  (∀ d : Duration, L.sprintfSeconds d = fmtFixed 1 d.Seconds.num d.Seconds.den) ∧
  (∀ d : Duration, L.sprintfMinutes d = fmtFixed 1 d.Minutes.num d.Minutes.den) ∧
  (∀ d : Duration, L.sprintfHours d = fmtFixed 1 d.Hours.num d.Hours.den) ∧
  (∀ bytes div : Int, L.sprintfQuotient bytes div =
    fmtFixed 1 (F64.div (F64.ofInt bytes) (F64.ofInt div)).num
      (F64.div (F64.ofInt bytes) (F64.ofInt div)).den) ∧
  (∀ x : Float64, L.sprintfCost x = fmtFixed 4 x.num x.den)

/-- The library `sampleLib` with the formatting of floating-point values of Go. -/
def floatLib : GoLib :=
  { sampleLib with
    sprintfSeconds := fun d => fmtFixed 1 d.Seconds.num d.Seconds.den
    sprintfMinutes := fun d => fmtFixed 1 d.Minutes.num d.Minutes.den
    sprintfHours := fun d => fmtFixed 1 d.Hours.num d.Hours.den
    sprintfQuotient := fun bytes div =>
      fmtFixed 1 (F64.div (F64.ofInt bytes) (F64.ofInt div)).num
        (F64.div (F64.ofInt bytes) (F64.ofInt div)).den
    sprintfCost := fun x => fmtFixed 4 x.num x.den }

theorem floatLib_formatsFloats : floatLib.FormatsFloats :=
  ⟨fun _ => rfl, fun _ => rfl, fun _ => rfl, fun _ _ => rfl, fun _ => rfl⟩

/-! ## C11 and C12: file sizes and durations as text -/

set_option maxRecDepth 100000

/-- C11: for a byte count `N` from 0 up to 1023 the result is the decimal of
`N` and " B"; for `N` of at least 1024 (and within `int64`) it is the quotient
of `float64(N)` by `float64(1024 ^ (k + 1))` with one decimal, a space, the
letter of index `k` in "KMGTPE" and "B", for the one index `k` with
`1024 ^ (k + 1) ≤ N < 1024 ^ (k + 2)`; `formatFileSize(1023)` is "1023 B" and
`formatFileSize(1536)` is "1.5 KB". The library is one that formats
floating-point values as Go does. -/
theorem formatFileSize_binary_scale (L : GoLib) (hL : L.FormatsFloats) (N : Int) :
    (0 ≤ N → N < 1024 → formatFileSize L N = some (toString N ++ " B")) ∧
    (1024 ≤ N → N < 9223372036854775808 →
      ∃ k : Nat, k ≤ 5 ∧ (1024 : Int) ^ (k + 1) ≤ N ∧ N < 1024 ^ (k + 2) ∧
        (∀ k' : Nat, (1024 : Int) ^ (k' + 1) ≤ N → N < 1024 ^ (k' + 2) → k' = k) ∧
        formatFileSize L N =
          some (fmtFixed 1 (F64.div (F64.ofInt N) (F64.ofInt (1024 ^ (k + 1)))).num
              (F64.div (F64.ofInt N) (F64.ofInt (1024 ^ (k + 1)))).den ++ " " ++
            String.singleton ("KMGTPE".data.getD k ' ') ++ "B")) ∧
    formatFileSize L 1023 = some "1023 B" ∧
    formatFileSize L 1536 = some "1.5 KB" := by
  have hbig : ∀ M : Int, 1024 ≤ M → M < 9223372036854775808 →
      ∃ k : Nat, k ≤ 5 ∧ (1024 : Int) ^ (k + 1) ≤ M ∧ M < 1024 ^ (k + 2) ∧
        (∀ k' : Nat, (1024 : Int) ^ (k' + 1) ≤ M → M < 1024 ^ (k' + 2) → k' = k) ∧
        formatFileSize L M =
          some (fmtFixed 1 (F64.div (F64.ofInt M) (F64.ofInt (1024 ^ (k + 1)))).num
              (F64.div (F64.ofInt M) (F64.ofInt (1024 ^ (k + 1)))).den ++ " " ++
            String.singleton ("KMGTPE".data.getD k ' ') ++ "B") := by
    intro M hlo hhi
    obtain ⟨k, hk, hres, hle, hlt⟩ := formatFileSizeLoop_of_bytes M hlo hhi
    refine ⟨k, hk, hle, hlt, fun k' h1 h2 => unit_index_unique M k k' hle hlt h1 h2, ?_⟩
    unfold formatFileSize
    rw [if_neg (by omega), hres]
    simp only [unitLetter_of_le k hk, hL.2.2.2.1]
  refine ⟨fun _ hlt => ?_, hbig N, ?_, ?_⟩
  · unfold formatFileSize
    rw [if_pos hlt]
  · unfold formatFileSize
    rw [if_pos (by decide)]
    decide
  · obtain ⟨k, _, hle, hlt, _, hfmt⟩ := hbig 1536 (by decide) (by decide)
    have hk : k = 0 := by
      by_contra hne
      have : (1024 : Int) ^ 2 ≤ 1024 ^ (k + 1) := pow_le_pow_right₀ (by norm_num) (by omega)
      omega
    subst hk
    rw [hfmt]
    decide

/-- C11 at the library `floatLib`. -/
theorem formatFileSize_binary_scale_witness :
    floatLib.FormatsFloats ∧ formatFileSize floatLib 1023 = some "1023 B" ∧
    formatFileSize floatLib 1536 = some "1.5 KB" :=
  ⟨floatLib_formatsFloats,
    (formatFileSize_binary_scale floatLib floatLib_formatsFloats 0).2.2.1,
    (formatFileSize_binary_scale floatLib floatLib_formatsFloats 0).2.2.2⟩

/-- C12: `formatDuration` writes one unit, chosen by threshold: below 60 s the
value of `d.Seconds()` with one decimal and "s"; from 60 s and below 1 h the
value of `d.Minutes()` with one decimal and "m"; from 1 h the value of
`d.Hours()` with one decimal and "h"; so 45 s gives "45.0s", 90 s gives "1.5m"
and 5400 s gives "1.5h". The library is one that formats floating-point values
as Go does. -/
theorem formatDuration_one_unit (L : GoLib) (hL : L.FormatsFloats) (d : Duration) :
    (d < 60 * Second →
      formatDuration L d = fmtFixed 1 d.Seconds.num d.Seconds.den ++ "s") ∧
    (60 * Second ≤ d → d < 3600 * Second →
      formatDuration L d = fmtFixed 1 d.Minutes.num d.Minutes.den ++ "m") ∧
    (3600 * Second ≤ d →
      formatDuration L d = fmtFixed 1 d.Hours.num d.Hours.den ++ "h") ∧
    formatDuration L (45 * Second) = "45.0s" ∧
    formatDuration L (90 * Second) = "1.5m" ∧
    formatDuration L (5400 * Second) = "1.5h" := by
  have hMinute : Minute = 60 * Second := rfl
  have hHour : Hour = 3600 * Second := by decide
  have hle : Minute ≤ 3600 * Second := by decide
  have hS : ∀ x : Duration, x < 60 * Second →
      formatDuration L x = fmtFixed 1 x.Seconds.num x.Seconds.den ++ "s" := by
    intro x hx
    have hx' : x < Minute := hx
    unfold formatDuration
    rw [if_pos hx', hL.1]
  have hM : ∀ x : Duration, 60 * Second ≤ x → x < 3600 * Second →
      formatDuration L x = fmtFixed 1 x.Minutes.num x.Minutes.den ++ "m" := by
    intro x h1 h2
    have h1' : ¬ x < Minute := not_lt.mpr h1
    have h2' : x < Hour := by rw [hHour]; exact h2
    unfold formatDuration
    rw [if_neg h1', if_pos h2', hL.2.1]
  have hH : ∀ x : Duration, 3600 * Second ≤ x →
      formatDuration L x = fmtFixed 1 x.Hours.num x.Hours.den ++ "h" := by
    intro x h1
    have h1' : ¬ x < Minute := not_lt.mpr (le_trans hle h1)
    have h2' : ¬ x < Hour := by rw [hHour]; exact not_lt.mpr h1
    unfold formatDuration
    rw [if_neg h1', if_neg h2', hL.2.2.1]
  refine ⟨hS d, hM d, hH d, ?_, ?_, ?_⟩
  · rw [hS _ (by decide)]
    decide
  · rw [hM _ (by decide) (by decide)]
    decide
  · rw [hH _ (by decide)]
    decide

/-- C12 at the library `floatLib`. -/
theorem formatDuration_one_unit_witness :
    floatLib.FormatsFloats ∧ formatDuration floatLib (45 * Second) = "45.0s" ∧
    formatDuration floatLib (90 * Second) = "1.5m" ∧
    formatDuration floatLib (5400 * Second) = "1.5h" :=
  ⟨floatLib_formatsFloats,
    (formatDuration_one_unit floatLib floatLib_formatsFloats 0).2.2.2.1,
    (formatDuration_one_unit floatLib floatLib_formatsFloats 0).2.2.2.2.1,
    (formatDuration_one_unit floatLib floatLib_formatsFloats 0).2.2.2.2.2⟩

/-! ## C13: the cost in the metadata line of a message -/

/-- The writes of `writeMessage` that make up the metadata line: the
timestamp and, for the role "assistant", the model, the cost and the tokens. -/
def metadataWrites (L : GoLib) (g : Generator) (msg : Message) : List String :=
  ["**Timestamp:** " ++ L.Format msg.GetCreatedAt "15:04:05"] ++
  (if msg.Role = "assistant" then
    (match msg.Model with
     | some model => [" | **Model:** " ++ model]
     | none => []) ++
    (match msg.Cost with
     | some cost => if g.includeCosts then [" | **Cost:** $" ++ L.sprintfCost cost] else []
     | none => []) ++
    (match msg.InputTokens, msg.OutputTokens with
     | some i, some o => [" | **Tokens:** " ++ toString i ++ " in, " ++ toString o ++ " out"]
     | _, _ => [])
   else [])

/-- Some write is a cost segment. -/
def hasCostSegment (ws : List String) : Bool :=
  ws.any (fun w => " | **Cost:** $".data.isPrefixOf w.data)

/-- The `float64` that the JSON number 0.0032 decodes to. -/
def cost0032 : Float64 := mkRat (roundF64 32 10000).num (roundF64 32 10000).den

/-- An assistant message with the cost 0.0032. -/
def assistantMessage : Message :=
  { ID := "m4", SessionID := "s1", Role := "assistant", Time := some ⟨1000, 1000⟩,
    Model := some "model-a", Provider := none, Cost := some cost0032, InputTokens := some 10,
    OutputTokens := some 20, CompletedAt := none }

/-- The writes of `writeMessage`: the heading, the metadata line, a blank
line, the parts, the rule. -/
theorem writeMessage_eq_metadata (L : GoLib) (g : Generator) (msg : Message)
    (parts : List MessagePart) (n : Nat) :
    writeMessage L g msg parts n =
      ["## Message " ++ toString n ++ ": " ++ L.Title msg.Role ++ "\n"] ++
        metadataWrites L g msg ++ ["\n\n"] ++ writeParts L g parts ++ ["---\n\n"] := by
  unfold writeMessage metadataWrites
  simp only [List.append_assoc]

theorem timestamp_write_not_cost (t : String) :
    " | **Cost:** $".data.isPrefixOf ("**Timestamp:** " ++ t).data = false := by
  have h1 : ("**Timestamp:** " ++ t).data = '*' :: ("*Timestamp:** " ++ t).data := rfl
  have h2 : " | **Cost:** $".data = ' ' :: "| **Cost:** $".data := rfl
  rw [h1, h2]
  simp [List.isPrefixOf]

theorem model_write_not_cost (t : String) :
    " | **Cost:** $".data.isPrefixOf (" | **Model:** " ++ t).data = false := by
  have h1 : (" | **Model:** " ++ t).data =
      ' ' :: '|' :: ' ' :: '*' :: '*' :: 'M' :: ("odel:** " ++ t).data := rfl
  have h2 : " | **Cost:** $".data =
      ' ' :: '|' :: ' ' :: '*' :: '*' :: 'C' :: "ost:** $".data := rfl
  rw [h1, h2]
  simp [List.isPrefixOf]

theorem tokens_write_not_cost (t : String) :
    " | **Cost:** $".data.isPrefixOf (" | **Tokens:** " ++ t).data = false := by
  have h1 : (" | **Tokens:** " ++ t).data =
      ' ' :: '|' :: ' ' :: '*' :: '*' :: 'T' :: ("okens:** " ++ t).data := rfl
  have h2 : " | **Cost:** $".data =
      ' ' :: '|' :: ' ' :: '*' :: '*' :: 'C' :: "ost:** $".data := rfl
  rw [h1, h2]
  simp [List.isPrefixOf]

theorem cost_write_is_cost (t : String) :
    " | **Cost:** $".data.isPrefixOf (" | **Cost:** $" ++ t).data = true := by
  have h1 : (" | **Cost:** $" ++ t).data = " | **Cost:** $".data ++ t.data := rfl
  rw [h1]
  simp [List.isPrefixOf_iff_prefix]

theorem hasCostSegment_iff (L : GoLib) (g : Generator) (msg : Message) :
    hasCostSegment (metadataWrites L g msg) = true ↔
      (g.includeCosts = true ∧ msg.Role = "assistant" ∧ msg.Cost.isSome = true) := by
  have htok : ∀ i o : Int, " | **Cost:** $".data.isPrefixOf
      (" | **Tokens:** " ++ toString i ++ " in, " ++ toString o ++ " out").data = false := by
    intro i o
    have := tokens_write_not_cost (toString i ++ " in, " ++ toString o ++ " out")
    simpa [String.append_assoc] using this
  unfold hasCostSegment metadataWrites
  by_cases hr : msg.Role = "assistant"
  · rw [if_pos hr]
    cases hm : msg.Model <;> cases hc : msg.Cost <;> cases hg : g.includeCosts <;>
      cases hi : msg.InputTokens <;> cases ho : msg.OutputTokens <;>
      simp [hr, timestamp_write_not_cost, model_write_not_cost, htok, cost_write_is_cost]
  · rw [if_neg hr]
    simp [hr, timestamp_write_not_cost]

/-- C13: the metadata line of a message has a cost segment
" | **Cost:** $" followed by the cost with four decimals if and only if
IncludeCosts is enabled, the role is "assistant" and a cost is present; for the
cost 0.0032, under a library that formats floating-point values as Go does, the
segment is " | **Cost:** $0.0032"; and with IncludeCosts disabled
`writeMessage` writes what it writes for the message without its cost. -/
theorem cost_segment_iff_enabled (L : GoLib) (opts : Options) (msg : Message)
    (parts : List MessagePart) (n : Nat) :
    (hasCostSegment (metadataWrites L (NewGenerator opts) msg) = true ↔
      (opts.IncludeCosts = true ∧ msg.Role = "assistant" ∧ msg.Cost.isSome = true)) ∧
    (∀ cost : Float64, opts.IncludeCosts = true → msg.Role = "assistant" →
      msg.Cost = some cost →
      (" | **Cost:** $" ++ L.sprintfCost cost) ∈ metadataWrites L (NewGenerator opts) msg) ∧
    (L.FormatsFloats → " | **Cost:** $" ++ L.sprintfCost cost0032 = " | **Cost:** $0.0032") ∧
    (opts.IncludeCosts = false →
      writeMessage L (NewGenerator opts) msg parts n =
        writeMessage L (NewGenerator opts) { msg with Cost := none } parts n) ∧
    writeMessage L (NewGenerator opts) msg parts n =
      ["## Message " ++ toString n ++ ": " ++ L.Title msg.Role ++ "\n"] ++
        metadataWrites L (NewGenerator opts) msg ++ ["\n\n"] ++
        writeParts L (NewGenerator opts) parts ++ ["---\n\n"] := by
  refine ⟨hasCostSegment_iff L (NewGenerator opts) msg, ?_, ?_, ?_,
    writeMessage_eq_metadata L _ msg parts n⟩
  · intro cost hc hr hcost
    have hg : (NewGenerator opts).includeCosts = true := hc
    unfold metadataWrites
    rw [if_pos hr, hcost]
    simp [hg]
  · intro hL
    rw [hL.2.2.2.2]
    decide
  · intro hc
    have hg : (NewGenerator opts).includeCosts = false := hc
    unfold writeMessage
    cases hcost : msg.Cost <;> simp [hg, Message.GetCreatedAt]

/-- C13 at `assistantMessage`, whose cost is 0.0032, with the library
`floatLib`. -/
theorem cost_segment_iff_enabled_witness :
    hasCostSegment (metadataWrites floatLib (NewGenerator ⟨true, false, false⟩)
      assistantMessage) = true ∧
    " | **Cost:** $0.0032" ∈
      metadataWrites floatLib (NewGenerator ⟨true, false, false⟩) assistantMessage ∧
    hasCostSegment (metadataWrites floatLib (NewGenerator ⟨false, false, false⟩)
      assistantMessage) = false ∧
    writeMessage floatLib (NewGenerator ⟨false, false, false⟩) assistantMessage [] 1 =
      writeMessage floatLib (NewGenerator ⟨false, false, false⟩)
        { assistantMessage with Cost := none } [] 1 := by
  have h := cost_segment_iff_enabled floatLib ⟨true, false, false⟩ assistantMessage [] 1
  have h' := cost_segment_iff_enabled floatLib ⟨false, false, false⟩ assistantMessage [] 1
  refine ⟨h.1.mpr ⟨rfl, rfl, rfl⟩, ?_, ?_, h'.2.2.2.1 rfl⟩
  · have hmem := h.2.1 cost0032 rfl rfl rfl
    rw [h.2.2.1 floatLib_formatsFloats] at hmem
    exact hmem
  · cases hb : hasCostSegment (metadataWrites floatLib (NewGenerator ⟨false, false, false⟩)
        assistantMessage)
    · rfl
    · exact absurd (h'.1.mp hb).1 (by decide)

/-! ## Go `json.MarshalIndent`

The text that `json.MarshalIndent(v, "", "  ")` returns for a value that
`json.Unmarshal` stored into an empty interface: the entries of an object in
the order of their keys, an indentation of two spaces a level, an empty array
or object without line break. The texts of numbers and strings are taken from
the library. -/

/-- The indentation at the depth `depth`. -/
def jsonIndent (depth : Nat) : String := String.mk (List.replicate (2 * depth) ' ')

mutual
/-- The indented text of a value at the depth `depth`. -/
def indentedText (num : Float64 → String) (quote : String → String) (depth : Nat) :
    Value → String
  | .null => "null"
  | .bool b => if b then "true" else "false"
  | .number x => num x
  | .string s => quote s
  | .array xs =>
    match indentedItems num quote (depth + 1) xs with
    | [] => "[]"
    | ts => "[\n" ++ jsonIndent (depth + 1) ++
        (",\n" ++ jsonIndent (depth + 1)).intercalate ts ++ "\n" ++ jsonIndent depth ++ "]"
  | .object kvs =>
    match indentedEntries num quote (depth + 1) kvs with
    | [] => "\x7b\x7d"
    | es => "\x7b\n" ++ jsonIndent (depth + 1) ++
        (",\n" ++ jsonIndent (depth + 1)).intercalate
          ((es.insertionSort (fun a b => a.1.data ≤ b.1.data)).map
            (fun e => quote e.1 ++ ": " ++ e.2)) ++
        "\n" ++ jsonIndent depth ++ "\x7d"
/-- The indented texts of the items of an array. -/
def indentedItems (num : Float64 → String) (quote : String → String) (depth : Nat) :
    List Value → List String
  | [] => []
  | x :: xs => indentedText num quote depth x :: indentedItems num quote depth xs
/-- The keys of an object with the indented texts of their values. -/
def indentedEntries (num : Float64 → String) (quote : String → String) (depth : Nat) :
    List (String × Value) → List (String × String)
  | [] => []
  | (k, v) :: kvs => (k, indentedText num quote depth v) :: indentedEntries num quote depth kvs
end

/-- A character that encoding/json writes unescaped inside a string: printable
ASCII other than the double quote, the backslash, the angle brackets and the
ampersand. -/
def jsonSafeChar (c : Char) : Bool :=
  decide (32 ≤ c.toNat ∧ c.toNat ≤ 126 ∧ c.toNat ≠ 34 ∧ c.toNat ≠ 92 ∧ c.toNat ≠ 60 ∧
    c.toNat ≠ 62 ∧ c.toNat ≠ 38)

/-- The library encodes JSON as Go does: `json.MarshalIndent` succeeds on every
decoded value and returns its indented text; an integer of magnitude below 2^53
is written by its decimal digits; a string of safe characters is written
between double quotes. -/
def GoLib.MarshalsAsGo (L : GoLib) : Prop :=
  (∀ v : Value, L.marshalIndent v = .ok (indentedText L.jsonNumber L.jsonString 0 v)) ∧
  (∀ n : Int, -9007199254740992 < n → n < 9007199254740992 →
    L.jsonNumber (n : ℚ) = toString n) ∧
  (∀ s : String, s.data.all jsonSafeChar = true → L.jsonString s = "\"" ++ s ++ "\"")

/-- The JSON text of `sampleState`. -/
def sampleStateJSON : String :=
  "\x7b\"status\":\"completed\",\"input\":\"ls\",\"output\":\x7b\"a\":1\x7d," ++
  "\"title\":\"List\",\"time\":\x7b\"start\":1000,\"end\":2500\x7d\x7d"

/-- The state of a completed tool call with the input "ls" and the output
object of the one entry a: 1. -/
def sampleState : ToolStateData :=
  { Status := "completed", Input := some "\"ls\"", Output := .object [("a", .number 1)],
    Metadata := none, Title := some "List", Time := some ⟨1000, 2500⟩ }

/-- The JSON text of the envelope of the tool "bash", the call "c1" and
`sampleState`. -/
def sampleEnvelopeJSON : String :=
  "\x7b\"tool\":\"bash\",\"callID\":\"c1\",\"state\":" ++ sampleStateJSON ++ "\x7d"

/-- The library `floatLib` with the JSON encoding of Go on decoded values and
with decoders that know the two tool texts above and the input text. -/
def toolLib : GoLib :=
  { floatLib with
    marshalIndent := fun v => .ok (indentedText floatLib.jsonNumber floatLib.jsonString 0 v)
    unmarshalString := fun raw =>
      if raw = some "\"ls\"" then .ok "ls"
      else .error "unexpected end of JSON input"
    unmarshalToolStateData := fun raw =>
      if raw = some sampleStateJSON then .ok sampleState
      else .error "unexpected end of JSON input"
    unmarshalToolPartData := fun raw =>
      if raw = some sampleEnvelopeJSON then .ok ⟨"bash", "c1", sampleState⟩
      else .error "unexpected end of JSON input" }

/-- A tool part of the direct shape: tool name and state on the part. -/
def directToolPart : MessagePart :=
  { ID := "p7", MessageID := "m1", SessionID := "s1", Type_ := "tool", Text := none,
    Tool := some "bash", CallID := some "c1", State := some sampleStateJSON,
    Data := some "ignored", Time := some ⟨1000, 2500⟩ }

/-- A tool part of the envelope shape: tool name and state inside the payload. -/
def envelopeToolPart : MessagePart :=
  { ID := "p8", MessageID := "m1", SessionID := "s1", Type_ := "tool", Text := none,
    Tool := none, CallID := none, State := none,
    Data := some sampleEnvelopeJSON, Time := some ⟨1000, 2500⟩ }

theorem toolLib_marshalsAsGo : toolLib.MarshalsAsGo := by
  refine ⟨fun _ => rfl, fun n _ _ => ?_, fun _ _ => rfl⟩
  show toString ((n : ℚ)).num = toString n
  rw [Rat.intCast_num]

/-! ## C19 at an instance -/

/-- C19 at `directToolPart` and `envelopeToolPart` with the library `toolLib`:
both are rendered alike, timings included. -/
theorem tool_payload_shapes_agree_witness :
    writeToolPart toolLib ⟨false, true, false⟩ directToolPart =
      writeToolPart toolLib ⟨false, true, false⟩ envelopeToolPart ∧
    writeToolPart toolLib ⟨false, true, false⟩ directToolPart =
      ["#### ✅ bash", " - \"List\"", "\n", "**Status:** ✅ completed",
        " | **Duration:** 1.5s", "\n\n", "**Input:**\n", "```bash\n", "ls", "\n```", "\n",
        "**Output:**\n", "```json\n", "\x7b\n  \"a\": 1\n\x7d", "\n```\n\n"] :=
  ⟨(tool_payload_shapes_agree toolLib ⟨false, true, false⟩ directToolPart envelopeToolPart
      "bash" "c1" sampleStateJSON sampleState rfl rfl rfl (by decide) rfl).1,
    by decide⟩

/-! ## C14: the output block of a tool part -/

/-- C14: under a library that encodes JSON as Go does, a tool output that is a
JSON string is written as it is inside a fence without label; any other output
that is not null is written as the indented text of `json.MarshalIndent` with
two spaces a level inside a fence with the label json; the output object of the
one entry a: 1 gives the body of three lines with the entry indented by two
spaces; a null output gives no block. Both shapes of a tool part end with this
block. -/
theorem tool_output_block (L : GoLib) (hL : L.MarshalsAsGo) (output : Value) :
    (∀ s : String, output = .string s →
      writeToolOutput L output = ["**Output:**\n", "```\n", s, "\n```\n\n"]) ∧
    (output ≠ .null → (∀ s : String, output ≠ .string s) →
      writeToolOutput L output =
        ["**Output:**\n", "```json\n", indentedText L.jsonNumber L.jsonString 0 output,
          "\n```\n\n"]) ∧
    writeToolOutput L (.object [("a", .number ((1 : Int) : ℚ))]) =
      ["**Output:**\n", "```json\n", "\x7b\n  \"a\": 1\n\x7d", "\n```\n\n"] ∧
    writeToolOutput L .null = [] ∧
    (∀ (g : Generator) (part : MessagePart) (s : ToolStateData),
      L.unmarshalToolStateData part.State = .ok s →
      ∃ pre : List String, writeToolPartDirect L g part = pre ++ writeToolOutput L s.Output) ∧
    (∀ (g : Generator) (toolData : ToolPartData),
      ∃ pre : List String,
        writeToolPartFromData L g toolData = pre ++ writeToolOutput L toolData.State.Output) := by
  have hjson : ∀ v : Value, v ≠ .null → (∀ s : String, v ≠ .string s) →
      writeToolOutput L v =
        ["**Output:**\n", "```json\n", indentedText L.jsonNumber L.jsonString 0 v,
          "\n```\n\n"] := by
    intro v hnull hstr
    cases v with
    | null => exact absurd rfl hnull
    | string s => exact absurd rfl (hstr s)
    | bool b => simp [writeToolOutput, hL.1]
    | number x => simp [writeToolOutput, hL.1]
    | array xs => simp [writeToolOutput, hL.1]
    | object kvs => simp [writeToolOutput, hL.1]
  refine ⟨?_, hjson output, ?_, rfl, ?_, ?_⟩
  · intro s hs
    rw [hs]
    rfl
  · rw [hjson _ (by simp) (by simp)]
    have h1 : L.jsonNumber ((1 : Int) : ℚ) = "1" := (hL.2.1 1 (by decide) (by decide)).trans rfl
    have h2 : L.jsonString "a" = "\"a\"" := (hL.2.2 "a" (by decide)).trans rfl
    simp only [indentedText, indentedEntries, h1, List.insertionSort, List.orderedInsert,
      List.map_cons, List.map_nil, h2]
    decide
  · intro g part s hs
    unfold writeToolPartDirect
    rw [hs]
    exact ⟨_, rfl⟩
  · intro g toolData
    unfold writeToolPartFromData
    exact ⟨_, rfl⟩

/-- C14 at the library `toolLib`. -/
theorem tool_output_block_witness :
    toolLib.MarshalsAsGo ∧
    writeToolOutput toolLib (.object [("a", .number ((1 : Int) : ℚ))]) =
      ["**Output:**\n", "```json\n", "\x7b\n  \"a\": 1\n\x7d", "\n```\n\n"] ∧
    writeToolOutput toolLib (.string "done") = ["**Output:**\n", "```\n", "done", "\n```\n\n"] :=
  ⟨toolLib_marshalsAsGo,
    (tool_output_block toolLib toolLib_marshalsAsGo .null).2.2.1,
    (tool_output_block toolLib toolLib_marshalsAsGo (.string "done")).1 "done" rfl⟩

/-! ## internal/config/paths.go -/

/-- The process environment and the functions of `os`, `os/exec`, `runtime`
and `path/filepath` that package config calls. -/
structure Env where
  /-- Go os.UserHomeDir() -/
  UserHomeDir : Except GoError String
  /-- Go os.Getenv -/
  Getenv : String → String
  /-- Go runtime.GOOS -/
  GOOS : String
  /-- Go filepath.Abs -/
  Abs : String → Except GoError String
  /-- The output of `git rev-parse --show-toplevel` run in a directory -/
  gitTopLevel : String → Except GoError String
  /-- A path, its filepath.Dir, the Dir of that, and so on up to the path
  that is its own Dir -/
  ancestors : String → List String
  /-- Go string(filepath.Separator) -/
  Separator : String
  /-- Go strings.TrimSpace on a text -/
  TrimSpaceText : String → String

def GetOpencodeDataDir (env : Env) (fs : FileSystem) : Except GoError String :=
  match env.UserHomeDir with
  | .error err => .error err
  | .ok home =>
    if env.Getenv "XDG_DATA_HOME" ≠ "" then
      .ok (fs.Join [env.Getenv "XDG_DATA_HOME", "opencode"])
    else if env.GOOS = "windows" then .ok (fs.Join [home, ".local", "share", "opencode"])
    else .ok (fs.Join [home, ".local", "share", "opencode"])

/-- Go `findGitRoot`: the loop looks for `.git` in the start path and each of
its ancestors, the root last. -/
def findGitRoot (env : Env) (fs : FileSystem) (startPath : String) : Except GoError String :=
  match env.Abs startPath with
  | .error err => .error err
  | .ok absPath =>
    match env.gitTopLevel absPath with
    | .ok output => .ok (env.TrimSpaceText output)
    | .error _ =>
      match (env.ancestors absPath).find? (fun currentPath =>
          (fs.Stat (fs.Join [currentPath, ".git"])).isNone) with
      | some currentPath => .ok currentPath
      | none => .error "not a git repository"

/-- Go `strings.TrimLeft(s, "-")`. -/
def trimLeftDashes (s : String) : String := String.mk (s.data.dropWhile (fun c => c = '-'))

def sanitizeProjectPath (env : Env) (path : String) : String :=
  let absPath :=
    match env.Abs path with
    | .ok p => p
    | .error _ => path
  let result := absPath.replace env.Separator "-"
  let result := result.replace ":" ""
  let result := result.replace " " "-"
  trimLeftDashes result

def GetProjectDataDir (env : Env) (fs : FileSystem) (projectPath : String) :
    Except GoError String :=
  match GetOpencodeDataDir env fs with
  | .error err => .error err
  | .ok dataDir =>
    match findGitRoot env fs projectPath with
    | .error _ => .ok (fs.Join [dataDir, "project", "global"])
    | .ok gitRoot => .ok (fs.Join [dataDir, "project", sanitizeProjectPath env gitRoot])

def GetStorageDir (env : Env) (fs : FileSystem) (projectPath : String) : Except GoError String :=
  match GetProjectDataDir env fs projectPath with
  | .error err => .error err
  | .ok projectDir => .ok (fs.Join [projectDir, "storage"])

/-! ## internal/session/reader.go: readers and listings -/

structure SessionWithProject where
  SessionID : String
  ProjectName : String
  Info : SessionInfo
deriving DecidableEq, Repr

def NewReader (env : Env) (fs : FileSystem) (projectPath : String) : Except GoError Reader :=
  match GetStorageDir env fs projectPath with
  | .error err => .error ("failed to get storage directory: " ++ err)
  | .ok storageDir =>
    if (fs.Stat (fs.Join [storageDir, "session"])).isNone then
      .ok { storageDir := storageDir, projectPath := "" }
    else
      match GetOpencodeDataDir env fs with
      | .error err => .error ("failed to get opencode data directory: " ++ err)
      | .ok dataDir =>
        .ok { storageDir := fs.Join [dataDir, "storage"], projectPath := projectPath }

def NewGlobalReader : Except GoError Reader := .ok { storageDir := "", projectPath := "" }

/-- Go `strings.TrimSuffix`. -/
def TrimSuffix (s suffix : String) : String :=
  if HasSuffix s suffix then String.mk (s.data.take (s.data.length - suffix.data.length)) else s

/-- The body of the inner loop of `listSessionsNewFormat`: the ID of one
session file, `none` where the loop appends nothing. -/
def sessionIDOfFile (L : GoLib) (fs : FileSystem) (projectSessionDir absProjectPath : String)
    (sessionFile : DirEntry) : Option String :=
  if ¬ HasSuffix sessionFile.Name ".json" then none
  else
    match fs.ReadFile (fs.Join [projectSessionDir, sessionFile.Name]) with
    | .error _ => none
    | .ok data =>
      match L.unmarshalSessionMeta data with
      | .error _ => none
      | .ok sessionMeta =>
        if sessionMeta.Directory = absProjectPath then some sessionMeta.ID else none

/-- The body of the outer loop of `listSessionsNewFormat`: the session IDs
after one entry of `session/`. -/
def listProjectDir (L : GoLib) (fs : FileSystem) (sessionDir absProjectPath : String)
    (sessionIDs : List String) (projectDir : DirEntry) : List String :=
  if ¬ projectDir.IsDir then sessionIDs
  else
    match fs.ReadDir (fs.Join [sessionDir, projectDir.Name]) with
    | .error _ => sessionIDs
    | .ok sessionFiles =>
      sessionFiles.foldl
        (fun sessionIDs sessionFile =>
          match sessionIDOfFile L fs (fs.Join [sessionDir, projectDir.Name]) absProjectPath
              sessionFile with
          | some id => sessionIDs ++ [id]
          | none => sessionIDs)
        sessionIDs

/-- The variable `absProjectPath` of `listSessionsNewFormat`: the error of
`filepath.Abs` is dropped, its path is then empty. -/
def absProjectPath (env : Env) (r : Reader) : String :=
  match env.Abs r.projectPath with
  | .ok p => p
  | .error _ => ""

def listSessionsNewFormat (L : GoLib) (env : Env) (fs : FileSystem) (r : Reader) :
    Except GoError (List String) :=
  match fs.ReadDir (fs.Join [r.storageDir, "session"]) with
  | .error err =>
    if err.isNotExist then .ok []
    else .error ("failed to read session directory: " ++ err.message)
  | .ok projectDirs =>
    .ok (projectDirs.foldl
      (listProjectDir L fs (fs.Join [r.storageDir, "session"]) (absProjectPath env r)) [])

def ListSessions (L : GoLib) (env : Env) (fs : FileSystem) (r : Reader) :
    Except GoError (List String) :=
  if r.projectPath ≠ "" then listSessionsNewFormat L env fs r
  else
    match fs.ReadDir (fs.Join [r.storageDir, "session", "info"]) with
    | .error err =>
      if err.isNotExist then .ok []
      else .error ("failed to read session info directory: " ++ err.message)
    | .ok entries =>
      .ok (entries.foldl
        (fun sessionIDs entry =>
          if entry.IsDir then sessionIDs
          else if HasSuffix entry.Name ".json" then
            sessionIDs ++ [TrimSuffix entry.Name ".json"]
          else sessionIDs)
        [])

def findSessionFile (fs : FileSystem) (r : Reader) (sessionID : String) :
    Except GoError String :=
  match fs.ReadDir (fs.Join [r.storageDir, "session"]) with
  | .error err => .error ("failed to read session directory: " ++ err.message)
  | .ok projectDirs =>
    match projectDirs.find? (fun projectDir =>
        projectDir.IsDir ∧
        (fs.Stat (fs.Join [fs.Join [r.storageDir, "session"], projectDir.Name,
          sessionID ++ ".json"])).isNone) with
    | some projectDir =>
      .ok (fs.Join [fs.Join [r.storageDir, "session"], projectDir.Name, sessionID ++ ".json"])
    | none => .error ("session " ++ sessionID ++ " not found")

def ReadSessionInfo (L : GoLib) (fs : FileSystem) (r : Reader) (sessionID : String) :
    Except GoError SessionInfo :=
  let infoPath : Except GoError String :=
    if r.projectPath ≠ "" then findSessionFile fs r sessionID
    else .ok (fs.Join [r.storageDir, "session", "info", sessionID ++ ".json"])
  match infoPath with
  | .error err => .error err
  | .ok infoPath =>
    match fs.ReadFile infoPath with
    | .error err => .error ("failed to read session info: " ++ err.message)
    | .ok data =>
      match L.unmarshalSessionInfo data with
      | .error err => .error ("failed to parse session info: " ++ err)
      | .ok info => .ok info

/-- The less function that `ListAllSessions` hands to `sort.Slice`. -/
def sessionLess (a b : SessionWithProject) : Bool :=
  decide (a.Info.GetUpdatedAt.After b.Info.GetUpdatedAt)

/-- The body of the inner loop of `ListAllSessions`: the entry of one session
ID, `none` where the loop appends nothing. -/
def loadSession (L : GoLib) (fs : FileSystem) (projectReader : Reader) (projectName : String)
    (sessionID : String) : Option SessionWithProject :=
  match ReadSessionInfo L fs projectReader sessionID with
  | .error _ => none
  | .ok info => some { SessionID := sessionID, ProjectName := projectName, Info := info }

/-- The body of the outer loop of `ListAllSessions`: the sessions after one
entry of the projects directory. -/
def loadProject (L : GoLib) (env : Env) (fs : FileSystem) (projectsDir : String)
    (allSessions : List SessionWithProject) (entry : DirEntry) : List SessionWithProject :=
  if ¬ entry.IsDir then allSessions
  else
    match ListSessions L env fs
        { storageDir := fs.Join [projectsDir, entry.Name, "storage"], projectPath := "" } with
    | .error _ => allSessions
    | .ok sessionIDs =>
      sessionIDs.foldl
        (fun allSessions sessionID =>
          match loadSession L fs
              { storageDir := fs.Join [projectsDir, entry.Name, "storage"], projectPath := "" }
              entry.Name sessionID with
          | some s => allSessions ++ [s]
          | none => allSessions)
        allSessions

/-- Go `os.IsNotExist(err)` for the error of `os.Stat`, which is nil on success. -/
def IsNotExist (err : Option OsError) : Bool :=
  match err with
  | some e => e.isNotExist
  | none => false

def ListAllSessions (L : GoLib) (env : Env) (fs : FileSystem) :
    Except GoError (List SessionWithProject) :=
  match GetOpencodeDataDir env fs with
  | .error err => .error ("failed to get opencode data directory: " ++ err)
  | .ok dataDir =>
    if IsNotExist (fs.Stat (fs.Join [dataDir, "project"])) then .ok []
    else
      match fs.ReadDir (fs.Join [dataDir, "project"]) with
      | .error err => .error ("failed to read projects directory: " ++ err.message)
      | .ok entries =>
        .ok (sortSlice L sessionLess
          (entries.foldl (loadProject L env fs (fs.Join [dataDir, "project"])) []))

/-! ## Environments and file systems at which the reader is evaluated -/

/-- An environment with the home directory /home/u, no XDG_DATA_HOME, paths
that are absolute already and no git: the data directory is
/home/u/.local/share/opencode. -/
def sampleEnv : Env :=
  { UserHomeDir := .ok "/home/u"
    Getenv := fun _ => ""
    GOOS := "linux"
    Abs := fun p => .ok p
    gitTopLevel := fun _ => .error "exit status 128"
    ancestors := fun p => [p, "/"]
    Separator := "/"
    TrimSpaceText := fun s => s }

/-- A file system that holds the empty directory
/home/u/.local/share/opencode/project/global/storage/session and nothing else. -/
def sessionOnlyFS : FileSystem :=
  { ReadDir := fun path =>
      if path = "/home/u/.local/share/opencode/project/global/storage/session" then .ok []
      else .error ⟨"no such file or directory", true⟩
    ReadFile := fun _ => .error ⟨"no such file or directory", true⟩
    Stat := fun path =>
      if path = "/home/u/.local/share/opencode/project/global/storage/session" then none
      else some ⟨"no such file or directory", true⟩
    Join := fun elems => "/".intercalate elems }

/-- A file system in which no directory can be read. -/
def unreadableFS : FileSystem :=
  { ReadDir := fun _ => .error ⟨"permission denied", false⟩
    ReadFile := fun _ => .error ⟨"permission denied", false⟩
    Stat := fun _ => none
    Join := fun elems => "/".intercalate elems }

/-- The text of a session file of the project /work. -/
def metaWorkJSON : String := "\x7b\"id\":\"ses_a\",\"directory\":\"/work\"\x7d"

/-- The text of a session file of the project /other. -/
def metaOtherJSON : String := "\x7b\"id\":\"ses_b\",\"directory\":\"/other\"\x7d"

/-- The text of the info file of a session updated at millisecond 1000. -/
def infoOldJSON : String :=
  "\x7b\"id\":\"s_old\",\"title\":\"Old\",\"version\":\"1\"," ++
  "\"time\":\x7b\"created\":500,\"updated\":1000\x7d\x7d"

/-- The text of the info file of a session updated at millisecond 2000. -/
def infoNewJSON : String :=
  "\x7b\"id\":\"s_new\",\"title\":\"New\",\"version\":\"1\"," ++
  "\"time\":\x7b\"created\":600,\"updated\":2000\x7d\x7d"

/-- The session of `infoOldJSON`. -/
def infoOld : SessionInfo :=
  { ID := "s_old", ParentID := none, Title := "Old", Version := "1", Time := ⟨500, 1000⟩,
    ShareURL := none }

/-- The session of `infoNewJSON`. -/
def infoNew : SessionInfo :=
  { ID := "s_new", ParentID := none, Title := "New", Version := "1", Time := ⟨600, 2000⟩,
    ShareURL := none }

/-- The library `sampleLib` with decoders that know the four texts above. -/
def readerLib : GoLib :=
  { sampleLib with
    unmarshalSessionMeta := fun data =>
      if data = metaWorkJSON then .ok ⟨"ses_a", "/work"⟩
      else if data = metaOtherJSON then .ok ⟨"ses_b", "/other"⟩
      else .error "invalid character 'o' in literal null (expecting 'u')"
    unmarshalSessionInfo := fun data =>
      if data = infoOldJSON then .ok infoOld
      else if data = infoNewJSON then .ok infoNew
      else .error "unexpected end of JSON input" }

/-- A file system with a current-layout storage under /data/storage (two
project directories and a file under session/, a session file that is no
JSON) and two legacy projects p1 and p2 under the data directory of
`sampleEnv`, the older session listed first. -/
def readerFS : FileSystem :=
  { ReadDir := fun path =>
      if path = "/data/storage/session" then
        .ok [⟨"h1", true⟩, ⟨"note.txt", false⟩, ⟨"h2", true⟩]
      else if path = "/data/storage/session/h1" then
        .ok [⟨"ses_a.json", false⟩, ⟨"ses_bad.json", false⟩, ⟨"readme", false⟩]
      else if path = "/data/storage/session/h2" then .ok [⟨"ses_b.json", false⟩]
      else if path = "/home/u/.local/share/opencode/project" then
        .ok [⟨"p1", true⟩, ⟨"p2", true⟩]
      else if path = "/home/u/.local/share/opencode/project/p1/storage/session/info" then
        .ok [⟨"s_old.json", false⟩]
      else if path = "/home/u/.local/share/opencode/project/p2/storage/session/info" then
        .ok [⟨"s_new.json", false⟩]
      else .error ⟨"no such file or directory", true⟩
    ReadFile := fun path =>
      if path = "/data/storage/session/h1/ses_a.json" then .ok metaWorkJSON
      else if path = "/data/storage/session/h1/ses_bad.json" then .ok "not json"
      else if path = "/data/storage/session/h2/ses_b.json" then .ok metaOtherJSON
      else if path =
          "/home/u/.local/share/opencode/project/p1/storage/session/info/s_old.json" then
        .ok infoOldJSON
      else if path =
          "/home/u/.local/share/opencode/project/p2/storage/session/info/s_new.json" then
        .ok infoNewJSON
      else .error ⟨"no such file or directory", true⟩
    Stat := fun path =>
      if path = "/home/u/.local/share/opencode/project" then none
      else some ⟨"no such file or directory", true⟩
    Join := fun elems => "/".intercalate elems }

/-- The entries that the outer loop of `ListAllSessions` loads for one
entry of the projects directory. -/
def projectSessions (L : GoLib) (env : Env) (fs : FileSystem) (projectsDir : String)
    (entry : DirEntry) : List SessionWithProject :=
  if entry.IsDir then
    match ListSessions L env fs
        { storageDir := fs.Join [projectsDir, entry.Name, "storage"], projectPath := "" } with
    | .ok sessionIDs =>
      sessionIDs.filterMap (loadSession L fs
        { storageDir := fs.Join [projectsDir, entry.Name, "storage"], projectPath := "" }
        entry.Name)
    | .error _ => []
  else []

/-- The session IDs that the outer loop of `listSessionsNewFormat` finds for
one entry of `session/`. -/
def projectDirSessionIDs (L : GoLib) (fs : FileSystem) (sessionDir absPath : String)
    (projectDir : DirEntry) : List String :=
  if projectDir.IsDir then
    match fs.ReadDir (fs.Join [sessionDir, projectDir.Name]) with
    | .ok sessionFiles =>
      sessionFiles.filterMap (sessionIDOfFile L fs (fs.Join [sessionDir, projectDir.Name]) absPath)
    | .error _ => []
  else []

/-! ## C15: the layout that `NewReader` picks -/

/-- C15, as stated, fails: in `sessionOnlyFS` the storage root of the project
holds a directory `session` without a subdirectory `info`, and `NewReader`
builds a legacy reader (empty projectPath), which then lists no session. -/
theorem legacy_reader_without_info_directory :
    NewReader sampleEnv sessionOnlyFS "/work" =
      .ok ⟨"/home/u/.local/share/opencode/project/global/storage", ""⟩ ∧
    sessionOnlyFS.Stat "/home/u/.local/share/opencode/project/global/storage/session/info" =
      some ⟨"no such file or directory", true⟩ ∧
    sessionOnlyFS.ReadDir "/home/u/.local/share/opencode/project/global/storage/session" =
      .ok [] ∧
    ListSessions sampleLib sampleEnv sessionOnlyFS
      ⟨"/home/u/.local/share/opencode/project/global/storage", ""⟩ = .ok [] :=
  ⟨rfl, rfl, rfl, rfl⟩

/-- C15, amended: where package config resolves the storage root and the data
directory, `NewReader` builds the legacy reader (the storage root, empty
projectPath) if and only if `os.Stat` succeeds on `session` under the storage
root, whatever that directory holds; otherwise it builds the reader of the
current layout, on `storage` under the data directory, with the project path
of the caller. A reader with empty projectPath uses the paths
`session/message` and `session/part`, a reader with a project path the paths
`message` and `part`. -/
theorem NewReader_layout (env : Env) (fs : FileSystem) (projectPath storageDir dataDir : String)
    (hs : GetStorageDir env fs projectPath = .ok storageDir)
    (hd : GetOpencodeDataDir env fs = .ok dataDir) :
    (fs.Stat (fs.Join [storageDir, "session"]) = none →
      NewReader env fs projectPath = .ok ⟨storageDir, ""⟩) ∧
    (fs.Stat (fs.Join [storageDir, "session"]) ≠ none →
      NewReader env fs projectPath = .ok ⟨fs.Join [dataDir, "storage"], projectPath⟩) ∧
    (∀ root sessionID messageID : String,
      messageDir fs ⟨root, ""⟩ sessionID = fs.Join [root, "session", "message", sessionID] ∧
      partDir fs ⟨root, ""⟩ sessionID messageID =
        fs.Join [root, "session", "part", sessionID, messageID]) ∧
    (∀ root path sessionID messageID : String, path ≠ "" →
      messageDir fs ⟨root, path⟩ sessionID = fs.Join [root, "message", sessionID] ∧
      partDir fs ⟨root, path⟩ sessionID messageID = fs.Join [root, "part", messageID]) := by
  refine ⟨?_, ?_, ?_, ?_⟩
  · intro hstat
    unfold NewReader
    rw [hs]
    simp [hstat]
  · intro hstat
    unfold NewReader
    rw [hs]
    have : (fs.Stat (fs.Join [storageDir, "session"])).isNone = false := by
      cases h : fs.Stat (fs.Join [storageDir, "session"]) with
      | none => exact absurd h hstat
      | some e => rfl
    simp [this, hd]
  · intro root sessionID messageID
    exact ⟨by simp [messageDir], by simp [partDir]⟩
  · intro root path sessionID messageID hp
    exact ⟨by simp [messageDir, hp], by simp [partDir, hp]⟩

/-- C15, amended, at `sampleEnv`, `sessionOnlyFS` and the project /work. -/
theorem NewReader_layout_witness :
    sessionOnlyFS.Stat (sessionOnlyFS.Join
      ["/home/u/.local/share/opencode/project/global/storage", "session"]) = none ∧
    NewReader sampleEnv sessionOnlyFS "/work" =
      .ok ⟨"/home/u/.local/share/opencode/project/global/storage", ""⟩ :=
  ⟨rfl, (NewReader_layout sampleEnv sessionOnlyFS "/work"
    "/home/u/.local/share/opencode/project/global/storage" "/home/u/.local/share/opencode"
    rfl rfl).1 rfl⟩

/-! ## C16: the sessions of a current-layout reader -/

theorem foldl_sessionIDOfFile (L : GoLib) (fs : FileSystem) (dir absPath : String)
    (sessionFiles : List DirEntry) (acc : List String) :
    sessionFiles.foldl
      (fun sessionIDs sessionFile =>
        match sessionIDOfFile L fs dir absPath sessionFile with
        | some id => sessionIDs ++ [id]
        | none => sessionIDs)
      acc = acc ++ sessionFiles.filterMap (sessionIDOfFile L fs dir absPath) := by
  induction sessionFiles generalizing acc with
  | nil => simp
  | cons f rest ih =>
    rw [List.foldl_cons, ih]
    cases h : sessionIDOfFile L fs dir absPath f <;> simp [List.filterMap_cons, h]

theorem listProjectDir_eq (L : GoLib) (fs : FileSystem) (sessionDir absPath : String)
    (acc : List String) (projectDir : DirEntry) :
    listProjectDir L fs sessionDir absPath acc projectDir =
      acc ++ projectDirSessionIDs L fs sessionDir absPath projectDir := by
  unfold listProjectDir projectDirSessionIDs
  by_cases hd : projectDir.IsDir = true
  · simp only [hd, not_true_eq_false, if_false, if_true]
    cases fs.ReadDir (fs.Join [sessionDir, projectDir.Name]) with
    | error e => simp
    | ok files => exact foldl_sessionIDOfFile L fs _ absPath files acc
  · simp [hd]

theorem foldl_listProjectDir (L : GoLib) (fs : FileSystem) (sessionDir absPath : String)
    (projectDirs : List DirEntry) (acc : List String) :
    projectDirs.foldl (listProjectDir L fs sessionDir absPath) acc =
      acc ++ projectDirs.flatMap (projectDirSessionIDs L fs sessionDir absPath) := by
  induction projectDirs generalizing acc with
  | nil => simp
  | cons d rest ih =>
    rw [List.foldl_cons, ih, listProjectDir_eq]
    simp [List.flatMap_cons]

/-- C16, as stated, fails: in `unreadableFS` the directory `session` exists
and cannot be read for a reason other than absence; `ListSessions` of a
current-layout reader returns an error, not a list. -/
theorem unreadable_session_directory_is_an_error :
    unreadableFS.ReadDir "/data/storage/session" = .error ⟨"permission denied", false⟩ ∧
    ListSessions sampleLib sampleEnv unreadableFS ⟨"/data/storage", "/work"⟩ =
      .error "failed to read session directory: permission denied" :=
  ⟨rfl, rfl⟩

/-- C16, amended: for a current-layout reader, when `session/` can be read
`ListSessions` returns, in enumeration order, the `id` of every file named
`*.json` in a subdirectory of `session/` that can be read and decoded and
whose `directory` equals the absolute project path of the caller, skipping
every other file and every subdirectory that cannot be read; when `session/`
does not exist it returns the empty list without error; when `session/`
cannot be read for another reason it returns that error. -/
theorem ListSessions_current_layout (L : GoLib) (env : Env) (fs : FileSystem) (r : Reader)
    (hcur : r.projectPath ≠ "") :
    (∀ projectDirs : List DirEntry,
      fs.ReadDir (fs.Join [r.storageDir, "session"]) = .ok projectDirs →
      ListSessions L env fs r =
        .ok (projectDirs.flatMap
          (projectDirSessionIDs L fs (fs.Join [r.storageDir, "session"])
            (absProjectPath env r)))) ∧
    (∀ err : OsError, fs.ReadDir (fs.Join [r.storageDir, "session"]) = .error err →
      err.isNotExist = true → ListSessions L env fs r = .ok []) ∧
    (∀ err : OsError, fs.ReadDir (fs.Join [r.storageDir, "session"]) = .error err →
      err.isNotExist = false →
      ListSessions L env fs r =
        .error ("failed to read session directory: " ++ err.message)) ∧
    (∀ (dir : String) (sessionFile : DirEntry) (id : String),
      sessionIDOfFile L fs dir (absProjectPath env r) sessionFile = some id ↔
        (HasSuffix sessionFile.Name ".json" = true ∧
          ∃ (data : String) (sessionMeta : SessionMeta),
            fs.ReadFile (fs.Join [dir, sessionFile.Name]) = .ok data ∧
            L.unmarshalSessionMeta data = .ok sessionMeta ∧
            sessionMeta.Directory = absProjectPath env r ∧ sessionMeta.ID = id)) := by
  refine ⟨?_, ?_, ?_, ?_⟩
  · intro projectDirs hdir
    unfold ListSessions listSessionsNewFormat
    rw [if_pos hcur, hdir]
    simp only [foldl_listProjectDir, List.nil_append]
  · intro err hdir hne
    unfold ListSessions listSessionsNewFormat
    rw [if_pos hcur, hdir]
    simp [hne]
  · intro err hdir hne
    unfold ListSessions listSessionsNewFormat
    rw [if_pos hcur, hdir]
    simp [hne]
  · intro dir sessionFile id
    unfold sessionIDOfFile
    by_cases hsuf : HasSuffix sessionFile.Name ".json" = true
    · simp only [hsuf, not_true_eq_false, if_false, true_and]
      cases hread : fs.ReadFile (fs.Join [dir, sessionFile.Name]) with
      | error e => simp
      | ok data =>
        cases hdec : L.unmarshalSessionMeta data with
        | error e => simp [hdec]
        | ok sessionMeta =>
          by_cases hdirEq : sessionMeta.Directory = absProjectPath env r
          · simp [hdec, hdirEq]
          · simp [hdec, hdirEq]
    · simp [hsuf]

/-- C16, amended, at `readerFS` with the reader of the project /work: of the
three session files, one is of another project and one is no JSON. -/
theorem ListSessions_current_layout_witness :
    ListSessions readerLib sampleEnv readerFS ⟨"/data/storage", "/work"⟩ = .ok ["ses_a"] ∧
    ListSessions readerLib sampleEnv readerFS ⟨"/data/storage", "/work"⟩ =
      .ok (List.flatMap
        ([⟨"h1", true⟩, ⟨"note.txt", false⟩, ⟨"h2", true⟩] : List DirEntry)
        (projectDirSessionIDs readerLib readerFS
          (readerFS.Join ["/data/storage", "session"])
          (absProjectPath sampleEnv ⟨"/data/storage", "/work"⟩))) :=
  ⟨rfl,
    (ListSessions_current_layout readerLib sampleEnv readerFS ⟨"/data/storage", "/work"⟩
      (by decide)).1 _ rfl⟩

/-! ## C17: the order of `ListAllSessions` -/

theorem Time.after_asymm (t u : Time) (h : t.After u) : ¬ u.After t := by
  unfold Time.After at *
  omega

theorem Time.not_after_trans (t u v : Time) (h1 : ¬ t.After u) (h2 : ¬ u.After v) :
    ¬ t.After v := by
  unfold Time.After at *
  omega

theorem Time.before_iff_after (t u : Time) : t.Before u ↔ u.After t := by
  unfold Time.Before Time.After
  omega

theorem sessionLess_asymm (a b : SessionWithProject) (h : sessionLess a b = true) :
    sessionLess b a = false := by
  unfold sessionLess at *
  simp only [decide_eq_true_eq, decide_eq_false_iff_not] at *
  exact Time.after_asymm _ _ h

theorem sessionLess_trans (a b c : SessionWithProject) (h1 : sessionLess a b = false)
    (h2 : sessionLess b c = false) : sessionLess a c = false := by
  unfold sessionLess at *
  simp only [decide_eq_false_iff_not] at *
  exact Time.not_after_trans _ _ _ h1 h2

theorem foldl_loadSession (L : GoLib) (fs : FileSystem) (projectReader : Reader)
    (projectName : String) (sessionIDs : List String) (acc : List SessionWithProject) :
    sessionIDs.foldl
      (fun allSessions sessionID =>
        match loadSession L fs projectReader projectName sessionID with
        | some s => allSessions ++ [s]
        | none => allSessions)
      acc = acc ++ sessionIDs.filterMap (loadSession L fs projectReader projectName) := by
  induction sessionIDs generalizing acc with
  | nil => simp
  | cons id rest ih =>
    rw [List.foldl_cons, ih]
    cases h : loadSession L fs projectReader projectName id <;> simp [List.filterMap_cons, h]

theorem loadProject_eq (L : GoLib) (env : Env) (fs : FileSystem) (projectsDir : String)
    (acc : List SessionWithProject) (entry : DirEntry) :
    loadProject L env fs projectsDir acc entry =
      acc ++ projectSessions L env fs projectsDir entry := by
  unfold loadProject projectSessions
  by_cases hd : entry.IsDir = true
  · simp only [hd, not_true_eq_false, if_false, if_true]
    cases ListSessions L env fs
        { storageDir := fs.Join [projectsDir, entry.Name, "storage"], projectPath := "" } with
    | error e => simp
    | ok ids => exact foldl_loadSession L fs _ entry.Name ids acc
  · simp [hd]

theorem foldl_loadProject (L : GoLib) (env : Env) (fs : FileSystem) (projectsDir : String)
    (entries : List DirEntry) (acc : List SessionWithProject) :
    entries.foldl (loadProject L env fs projectsDir) acc =
      acc ++ entries.flatMap (projectSessions L env fs projectsDir) := by
  induction entries generalizing acc with
  | nil => simp
  | cons e rest ih =>
    rw [List.foldl_cons, ih, loadProject_eq]
    simp [List.flatMap_cons]

/-- C17: when the data directory is resolved and the projects directory
exists and can be read, `ListAllSessions` returns a permutation of the
entries loaded from the projects (for every project directory whose sessions
can be listed, every session whose info can be read and decoded, tagged with
the name of the project), in which no entry is updated before an entry behind
it. This holds for any number of entries: up to 12 the sort is the insertion
sort of package sort, above 12 it is the sort of the library, of which the
contract `SortsAsGo` is used and no more. -/
theorem ListAllSessions_sorted_permutation (L : GoLib) (env : Env) (fs : FileSystem)
    (dataDir : String) (entries : List DirEntry) (hsort : L.SortsAsGo)
    (hd : GetOpencodeDataDir env fs = .ok dataDir)
    (hstat : IsNotExist (fs.Stat (fs.Join [dataDir, "project"])) = false)
    (hdir : fs.ReadDir (fs.Join [dataDir, "project"]) = .ok entries) :
    ∃ sessions : List SessionWithProject,
      ListAllSessions L env fs = .ok sessions ∧
      sessions.Perm
        (entries.flatMap (projectSessions L env fs (fs.Join [dataDir, "project"]))) ∧
      sessions.Pairwise (fun a b => ¬ a.Info.GetUpdatedAt.Before b.Info.GetUpdatedAt) := by
  refine ⟨sortSlice L sessionLess
    (entries.foldl (loadProject L env fs (fs.Join [dataDir, "project"])) []), ?_, ?_, ?_⟩
  · unfold ListAllSessions
    rw [hd]
    simp only [hstat, hdir]
    rfl
  · refine (sortSlice_perm sessionLess L hsort sessionLess_asymm sessionLess_trans _).trans ?_
    rw [foldl_loadProject]
    simp
  · have h := sortSlice_pairwise sessionLess L hsort sessionLess_asymm sessionLess_trans
      (entries.foldl (loadProject L env fs (fs.Join [dataDir, "project"])) [])
    refine h.imp ?_
    intro a b hab
    unfold sessionLess at hab
    rw [Time.before_iff_after]
    simpa using hab

/-- The library `readerLib` takes its sort from `sampleLib`. -/
theorem readerLib_sortsAsGo : readerLib.SortsAsGo := sampleLib_sortsAsGo

/-- C17 at `readerFS`, whose projects directory lists the project of the
older session first: the newer session comes first in the result. -/
theorem ListAllSessions_sorted_permutation_witness :
    ListAllSessions readerLib sampleEnv readerFS =
      .ok [⟨"s_new", "p2", infoNew⟩, ⟨"s_old", "p1", infoOld⟩] ∧
    ∃ sessions : List SessionWithProject,
      ListAllSessions readerLib sampleEnv readerFS = .ok sessions ∧
      sessions.Perm
        (List.flatMap ([⟨"p1", true⟩, ⟨"p2", true⟩] : List DirEntry)
          (projectSessions readerLib sampleEnv readerFS
            (readerFS.Join ["/home/u/.local/share/opencode", "project"]))) ∧
      sessions.Pairwise (fun a b => ¬ a.Info.GetUpdatedAt.Before b.Info.GetUpdatedAt) :=
  ⟨rfl,
    ListAllSessions_sorted_permutation readerLib sampleEnv readerFS
      "/home/u/.local/share/opencode" [⟨"p1", true⟩, ⟨"p2", true⟩] readerLib_sortsAsGo
      rfl rfl rfl⟩

/-! ## internal/session/reader.go: `ReadSession` -/

/-- The loop of `ReadSession` over the messages: the parts of a message whose
part directory cannot be read are left out. -/
def loadAllParts (L : GoLib) (fs : FileSystem) (r : Reader) (sessionID : String)
    (messages : List Message) : List MessagePart :=
  messages.foldl
    (fun allParts message =>
      match ReadMessageParts L fs r sessionID message.ID with
      | .error _ => allParts
      | .ok parts => allParts ++ parts)
    []

def ReadSession (L : GoLib) (fs : FileSystem) (r : Reader) (sessionID : String) :
    Except GoError Session :=
  match ReadSessionInfo L fs r sessionID with
  | .error err => .error ("failed to read session info: " ++ err)
  | .ok info =>
    match ReadMessages L fs r sessionID with
    | .error err => .error ("failed to read messages: " ++ err)
    | .ok messages =>
      .ok { Info := info, Messages := messages,
            Parts := loadAllParts L fs r sessionID messages }

/-! ## internal/cli/commands.go: the export commands

The export functions write files and print to standard output. They are
embedded as functions of a `World`, the file system as the reader observes it
and the texts printed so far, and they return the world they leave behind with
an `Outcome`. What `os.MkdirAll` and `os.WriteFile` do to the file system is a
parameter, `Os`: a later `ReadSession` reads the file system they return. -/

/-- How a command function ends: it returns nil, it returns an error, or a
slice expression is out of range and the run-time panics. -/
inductive Outcome where
  | nil
  | error (err : GoError)
  | panic
deriving DecidableEq, Repr

structure World where
  fs : FileSystem
  stdout : List GoString

/-- The call `fmt.Print` or `fmt.Printf` with the text it writes. -/
def World.print (w : World) (text : GoString) : World :=
  { w with stdout := w.stdout ++ [text] }

/-- The functions of packages os and filepath that the export commands call:
each of `MkdirAll` and `WriteFile` gives the file system after the call and
the error, `none` for nil; `Join` is `filepath.Join` on byte strings. -/
structure Os where
  MkdirAll : FileSystem → GoString → FileSystem × Option OsError
  WriteFile : FileSystem → GoString → String → FileSystem × Option OsError
  Join : List GoString → GoString

def exportSingleSession (L : GoLib) (os : Os) (w : World) (reader : Reader)
    (generator : Generator) (sessionID outputFile : String) : World × Outcome :=
  match ReadSession L w.fs reader sessionID with
  | .error err => (w, .error ("failed to read session: " ++ err))
  | .ok sess =>
    match Generate L generator sess with
    | (_, some err) => (w, .error ("failed to generate markdown: " ++ err))
    | (markdown, none) =>
      if outputFile = "" then (w.print (utf8 markdown), .nil)
      else
        match os.WriteFile w.fs (utf8 outputFile) markdown with
        | (fs, some err) =>
          ({ w with fs := fs }, .error ("failed to write output file: " ++ err.message))
        | (fs, none) =>
          match sessionIDPrefix (utf8 sessionID) with
          | none => ({ w with fs := fs }, .panic)
          | some pre =>
            (World.print { w with fs := fs }
              (utf8 "Exported session " ++ pre ++ utf8 " to " ++ utf8 outputFile ++ utf8 "\n"),
             .nil)

/-- The body of the loop of `exportMultipleSessions` for the session at index
`i` of `n`; the outcome `nil` stands for the end of the iteration, by
`continue` or at the end of the body. -/
def exportSession (L : GoLib) (os : Os) (reader : Reader) (generator : Generator)
    (outputDir : String) (n : Nat) (w : World) (i : Nat) (sessionID : String) :
    World × Outcome :=
  match ReadSession L w.fs reader sessionID with
  | .error err =>
    match sessionIDPrefix (utf8 sessionID) with
    | none => (w, .panic)
    | some pre =>
      (w.print (utf8 "Warning: failed to read session " ++ pre ++ utf8 ": " ++ utf8 err ++
        utf8 "\n"), .nil)
  | .ok sess =>
    match Generate L generator sess with
    | (_, some err) =>
      match sessionIDPrefix (utf8 sessionID) with
      | none => (w, .panic)
      | some pre =>
        (w.print (utf8 "Warning: failed to generate markdown for session " ++ pre ++ utf8 ": " ++
          utf8 err ++ utf8 "\n"), .nil)
    | (markdown, none) =>
      match exportFilename L (utf8 sess.Info.Title) (utf8 sessionID) with
      | none => (w, .panic)
      | some filename =>
        match os.WriteFile w.fs (os.Join [utf8 outputDir, filename]) markdown with
        | (fs, some err) =>
          (World.print { w with fs := fs }
            (utf8 "Warning: failed to write " ++ filename ++ utf8 ": " ++ utf8 err.message ++
              utf8 "\n"), .nil)
        | (fs, none) =>
          match sessionIDPrefix (utf8 sessionID) with
          | none => ({ w with fs := fs }, .panic)
          | some pre =>
            (World.print { w with fs := fs }
              (utf8 ("  [" ++ toString (i + 1) ++ "/" ++ toString n ++ "] ") ++ pre ++
                utf8 " -> " ++ filename ++ utf8 "\n"), .nil)

/-- The loop of `exportMultipleSessions` from index `i` on. -/
def exportSessions (L : GoLib) (os : Os) (reader : Reader) (generator : Generator)
    (outputDir : String) (n : Nat) : Nat → List String → World → World × Outcome
  | _, [], w => (w, .nil)
  | i, sessionID :: rest, w =>
    match exportSession L os reader generator outputDir n w i sessionID with
    | (w, .nil) => exportSessions L os reader generator outputDir n (i + 1) rest w
    | (w, outcome) => (w, outcome)

def exportMultipleSessions (L : GoLib) (os : Os) (w : World) (reader : Reader)
    (generator : Generator) (sessionIDs : List String) (outputDir : String) :
    World × Outcome :=
  match os.MkdirAll w.fs (utf8 outputDir) with
  | (fs, some err) =>
    ({ w with fs := fs }, .error ("failed to create output directory: " ++ err.message))
  | (fs, none) =>
    match exportSessions L os reader generator outputDir sessionIDs.length 0 sessionIDs
        (World.print { w with fs := fs }
          (utf8 ("Exporting " ++ toString sessionIDs.length ++ " session(s) to " ++ outputDir ++
            "...\n"))) with
    | (w, .nil) =>
      (w.print (utf8 ("Export complete! Files saved to " ++ outputDir ++ "\n")), .nil)
    | (w, outcome) => (w, outcome)

/-! ## Worlds at which the export commands are evaluated -/

/-- The text of the info file of the session "abc123" of the usage example. -/
def shortInfoJSON : String :=
  "\x7b\"id\":\"abc123\",\"title\":\"Notes\",\"version\":\"1\"," ++
  "\"time\":\x7b\"created\":500,\"updated\":1000\x7d\x7d"

/-- The text of the info file of the session "abc123def456". -/
def longInfoJSON : String :=
  "\x7b\"id\":\"abc123def456\",\"title\":\"Fix bug #1\",\"version\":\"1\"," ++
  "\"time\":\x7b\"created\":600,\"updated\":2000\x7d\x7d"

/-- The session of `shortInfoJSON`. -/
def shortInfo : SessionInfo :=
  { ID := "abc123", ParentID := none, Title := "Notes", Version := "1", Time := ⟨500, 1000⟩,
    ShareURL := none }

/-- The session of `longInfoJSON`. -/
def longInfo : SessionInfo :=
  { ID := "abc123def456", ParentID := none, Title := "Fix bug #1", Version := "1",
    Time := ⟨600, 2000⟩, ShareURL := none }

/-- The library `sampleLib` with a decoder that knows the two texts above. -/
def exportLib : GoLib :=
  { sampleLib with
    unmarshalSessionInfo := fun data =>
      if data = shortInfoJSON then .ok shortInfo
      else if data = longInfoJSON then .ok longInfo
      else .error "unexpected end of JSON input" }

/-- A legacy storage under /data with the info files of the sessions "abc123"
and "abc123def456" and no messages. -/
def exportFS : FileSystem :=
  { ReadDir := fun path =>
      if path = "/data/session/info" then
        .ok [⟨"abc123.json", false⟩, ⟨"abc123def456.json", false⟩]
      else .error ⟨"no such file or directory", true⟩
    ReadFile := fun path =>
      if path = "/data/session/info/abc123.json" then .ok shortInfoJSON
      else if path = "/data/session/info/abc123def456.json" then .ok longInfoJSON
      else .error ⟨"no such file or directory", true⟩
    Stat := fun path =>
      if path = "/data/session" ∨ path = "/data/session/info" ∨
          path = "/data/session/info/abc123.json" ∨
          path = "/data/session/info/abc123def456.json" then none
      else some ⟨"no such file or directory", true⟩
    Join := fun elems => "/".intercalate elems }

/-- An operating system on which every directory can be made and every file
written: a file written is read back with its text. -/
def sampleOs : Os :=
  { MkdirAll := fun fs _ => (fs, none)
    WriteFile := fun fs name data =>
      ({ fs with ReadFile := fun path => if utf8 path = name then .ok data else fs.ReadFile path },
       none)
    Join := fun elems => [(47 : UInt8)].intercalate elems }

/-- An operating system on which nothing can be written. -/
def readOnlyOs : Os :=
  { MkdirAll := fun fs _ => (fs, some ⟨"read-only file system", false⟩)
    WriteFile := fun fs _ _ => (fs, some ⟨"read-only file system", false⟩)
    Join := fun elems => [(47 : UInt8)].intercalate elems }

/-! ## C21: the slice expression `sessionID[:8]` in the export commands -/

theorem sessionIDPrefix_of_le (sessionID : GoString) (h : 8 ≤ sessionID.length) :
    sessionIDPrefix sessionID = some (sessionID.take 8) := by
  simp [sessionIDPrefix, h]

theorem sessionIDPrefix_of_lt (sessionID : GoString) (h : sessionID.length < 8) :
    sessionIDPrefix sessionID = none := by
  simp [sessionIDPrefix, Nat.not_le.mpr h]

theorem exportFilename_of_le (L : GoLib) (title sessionID : GoString)
    (h : 8 ≤ sessionID.length) :
    exportFilename L title sessionID =
      some (sanitizeFilename L title ++ utf8 "_" ++ sessionID.take 8 ++ utf8 ".md") := by
  unfold exportFilename
  rw [sessionIDPrefix_of_le sessionID h]
  rfl

theorem exportFilename_of_lt (L : GoLib) (title sessionID : GoString)
    (h : sessionID.length < 8) : exportFilename L title sessionID = none := by
  unfold exportFilename
  rw [sessionIDPrefix_of_lt sessionID h]

/-- An iteration of the loop of `exportMultipleSessions` on an ID of fewer than
8 bytes panics before it writes or prints, whether the session can be read or
not: the warning for a session that cannot be read slices the ID as well. -/
theorem exportSession_of_lt (L : GoLib) (os : Os) (reader : Reader) (generator : Generator)
    (outputDir : String) (n : Nat) (w : World) (i : Nat) (sessionID : String)
    (h : (utf8 sessionID).length < 8) :
    exportSession L os reader generator outputDir n w i sessionID = (w, .panic) := by
  unfold exportSession
  cases ReadSession L w.fs reader sessionID with
  | error err => simp [sessionIDPrefix_of_lt _ h]
  | ok sess => simp [Generate, exportFilename_of_lt L _ _ h]

/-- An iteration of the loop of `exportMultipleSessions` returns no error: it
ends, for the next iteration to start, or it panics. -/
theorem exportSession_nil_or_panic (L : GoLib) (os : Os) (reader : Reader)
    (generator : Generator) (outputDir : String) (n : Nat) (w : World) (i : Nat)
    (sessionID : String) :
    (exportSession L os reader generator outputDir n w i sessionID).2 = .nil ∨
    (exportSession L os reader generator outputDir n w i sessionID).2 = .panic := by
  by_cases h : (utf8 sessionID).length < 8
  · rw [exportSession_of_lt L os reader generator outputDir n w i sessionID h]
    exact Or.inr rfl
  · have h8 : 8 ≤ (utf8 sessionID).length := Nat.le_of_not_lt h
    unfold exportSession
    cases ReadSession L w.fs reader sessionID with
    | error err => simp [sessionIDPrefix_of_le _ h8]
    | ok sess =>
      simp only [Generate, exportFilename_of_le L _ _ h8, sessionIDPrefix_of_le _ h8]
      cases hw : os.WriteFile w.fs
          (os.Join [utf8 outputDir, sanitizeFilename L (utf8 sess.Info.Title) ++ utf8 "_" ++
            (utf8 sessionID).take 8 ++ utf8 ".md"])
          (String.join (generateWrites L generator sess)) with
      | mk fs e => cases e <;> simp

/-- The loop of `exportMultipleSessions` over IDs of which one has fewer than
8 bytes ends in the panic. -/
theorem exportSessions_of_lt (L : GoLib) (os : Os) (reader : Reader) (generator : Generator)
    (outputDir : String) (n : Nat) (sessionID : String) (h : (utf8 sessionID).length < 8)
    (sessionIDs : List String) (hmem : sessionID ∈ sessionIDs) (i : Nat) (w : World) :
    (exportSessions L os reader generator outputDir n i sessionIDs w).2 = .panic := by
  induction sessionIDs generalizing i w with
  | nil => cases hmem
  | cons id rest ih =>
    unfold exportSessions
    rcases exportSession_nil_or_panic L os reader generator outputDir n w i id with hnil | hpanic
    · have hrest : sessionID ∈ rest := by
        rcases List.mem_cons.mp hmem with heq | hin
        · subst heq
          rw [exportSession_of_lt L os reader generator outputDir n w i sessionID h] at hnil
          cases hnil
        · exact hin
      cases hstep : exportSession L os reader generator outputDir n w i id with
      | mk w1 outcome =>
        rw [hstep] at hnil
        simp only at hnil
        subst hnil
        exact ih hrest (i + 1) w1
    · cases hstep : exportSession L os reader generator outputDir n w i id with
      | mk w1 outcome =>
        rw [hstep] at hpanic
        simp only at hpanic
        subst hpanic
        rfl

theorem exportMultipleSessions_of_lt (L : GoLib) (os : Os) (w : World) (reader : Reader)
    (generator : Generator) (sessionIDs : List String) (outputDir : String)
    (sessionID : String) (h : (utf8 sessionID).length < 8) (hmem : sessionID ∈ sessionIDs)
    (hdir : (os.MkdirAll w.fs (utf8 outputDir)).2 = none) :
    (exportMultipleSessions L os w reader generator sessionIDs outputDir).2 = .panic := by
  unfold exportMultipleSessions
  cases hm : os.MkdirAll w.fs (utf8 outputDir) with
  | mk fs e =>
    rw [hm] at hdir
    simp only at hdir
    subst hdir
    simp only
    have hloop := exportSessions_of_lt L os reader generator outputDir sessionIDs.length
      sessionID h sessionIDs hmem 0
      (World.print { w with fs := fs }
        (utf8 ("Exporting " ++ toString sessionIDs.length ++ " session(s) to " ++ outputDir ++
          "...\n")))
    cases hl : exportSessions L os reader generator outputDir sessionIDs.length 0 sessionIDs
        (World.print { w with fs := fs }
          (utf8 ("Exporting " ++ toString sessionIDs.length ++ " session(s) to " ++ outputDir ++
            "...\n"))) with
    | mk w1 outcome =>
      rw [hl] at hloop
      simp only at hloop
      subst hloop
      rfl

/-- When `os.MkdirAll` fails, `exportMultipleSessions` returns its error and
the loop does not start. -/
theorem exportMultipleSessions_of_mkdir_error (L : GoLib) (os : Os) (w : World)
    (reader : Reader) (generator : Generator) (sessionIDs : List String) (outputDir : String)
    (err : OsError) (hdir : (os.MkdirAll w.fs (utf8 outputDir)).2 = some err) :
    (exportMultipleSessions L os w reader generator sessionIDs outputDir).2 =
      .error ("failed to create output directory: " ++ err.message) := by
  unfold exportMultipleSessions
  cases hm : os.MkdirAll w.fs (utf8 outputDir) with
  | mk fs e =>
    rw [hm] at hdir
    simp only at hdir
    subst hdir
    rfl

/-- What `exportSingleSession` does with a session that can be read and an
output file: the Markdown is written first; the error of the write is returned
before the ID is sliced, and after a write that succeeded the message is
printed with `sessionID[:8]`. -/
theorem exportSingleSession_to_file (L : GoLib) (os : Os) (w : World) (reader : Reader)
    (generator : Generator) (sessionID outputFile : String) (sess : Session)
    (hread : ReadSession L w.fs reader sessionID = .ok sess) (hfile : outputFile ≠ "") :
    exportSingleSession L os w reader generator sessionID outputFile =
      match os.WriteFile w.fs (utf8 outputFile) (Generate L generator sess).1 with
      | (fs, some err) =>
        (⟨fs, w.stdout⟩, .error ("failed to write output file: " ++ err.message))
      | (fs, none) =>
        match sessionIDPrefix (utf8 sessionID) with
        | none => (⟨fs, w.stdout⟩, .panic)
        | some pre =>
          (⟨fs, w.stdout ++
            [utf8 "Exported session " ++ pre ++ utf8 " to " ++ utf8 outputFile ++ utf8 "\n"]⟩,
           .nil) := by
  unfold exportSingleSession
  rw [hread]
  simp only [Generate, hfile, if_false]
  rfl

/-- At `readOnlyOs` no export reaches the slice expression: the error of
`os.WriteFile` or `os.MkdirAll` is returned first, also for the ID "abc123". -/
theorem export_to_read_only_target :
    (exportSingleSession exportLib readOnlyOs ⟨exportFS, []⟩ ⟨"/data", ""⟩
      (NewGenerator ⟨false, false, false⟩) "abc123" "session.md").2 =
      .error "failed to write output file: read-only file system" ∧
    (exportMultipleSessions exportLib readOnlyOs ⟨exportFS, []⟩ ⟨"/data", ""⟩
      (NewGenerator ⟨false, false, false⟩) ["abc123"] "./exports").2 =
      .error "failed to create output directory: read-only file system" :=
  ⟨rfl, rfl⟩

/-- C21: the slice expression `sessionID[:8]` is in range exactly when the ID
has at least 8 bytes. For a session that can be read and whose ID has 8 bytes
or more, the expression is the first 8 bytes of the ID: the iteration of
multi-session export writes the file named by the sanitised title, an
underscore, these 8 bytes and ".md" and prints its progress line with them, and
single-session export to an output file prints its message with them. For a
session that can be read and whose ID has fewer than 8 bytes, the expression is
out of range: the iteration of multi-session export panics before it writes or
prints, multi-session export into an output directory that was created panics
whenever the ID is among those to export, and single-session export panics
after it has written the output file, with nothing printed. -/
theorem sessionID_slice_in_range_iff (L : GoLib) (os : Os) (w : World) (reader : Reader)
    (generator : Generator) (sessionID : String) (sess : Session)
    (hread : ReadSession L w.fs reader sessionID = .ok sess) :
    ((sessionIDPrefix (utf8 sessionID)).isSome ↔ 8 ≤ (utf8 sessionID).length) ∧
    (8 ≤ (utf8 sessionID).length →
      sessionIDPrefix (utf8 sessionID) = some ((utf8 sessionID).take 8) ∧
      ((utf8 sessionID).take 8).length = 8 ∧
      (∀ (outputDir : String) (n i : Nat),
        (os.WriteFile w.fs
          (os.Join [utf8 outputDir, sanitizeFilename L (utf8 sess.Info.Title) ++ utf8 "_" ++
            (utf8 sessionID).take 8 ++ utf8 ".md"])
          (Generate L generator sess).1).2 = none →
        exportSession L os reader generator outputDir n w i sessionID =
          (⟨(os.WriteFile w.fs
              (os.Join [utf8 outputDir, sanitizeFilename L (utf8 sess.Info.Title) ++ utf8 "_" ++
                (utf8 sessionID).take 8 ++ utf8 ".md"])
              (Generate L generator sess).1).1,
            w.stdout ++
              [utf8 ("  [" ++ toString (i + 1) ++ "/" ++ toString n ++ "] ") ++
                (utf8 sessionID).take 8 ++ utf8 " -> " ++
                (sanitizeFilename L (utf8 sess.Info.Title) ++ utf8 "_" ++
                  (utf8 sessionID).take 8 ++ utf8 ".md") ++ utf8 "\n"]⟩,
           .nil)) ∧
      (∀ outputFile : String, outputFile ≠ "" →
        (os.WriteFile w.fs (utf8 outputFile) (Generate L generator sess).1).2 = none →
        exportSingleSession L os w reader generator sessionID outputFile =
          (⟨(os.WriteFile w.fs (utf8 outputFile) (Generate L generator sess).1).1,
            w.stdout ++
              [utf8 "Exported session " ++ (utf8 sessionID).take 8 ++ utf8 " to " ++
                utf8 outputFile ++ utf8 "\n"]⟩,
           .nil))) ∧
    ((utf8 sessionID).length < 8 →
      sessionIDPrefix (utf8 sessionID) = none ∧
      (∀ (outputDir : String) (n i : Nat),
        exportSession L os reader generator outputDir n w i sessionID = (w, .panic)) ∧
      (∀ (w0 : World) (sessionIDs : List String) (outputDir : String),
        sessionID ∈ sessionIDs → (os.MkdirAll w0.fs (utf8 outputDir)).2 = none →
        (exportMultipleSessions L os w0 reader generator sessionIDs outputDir).2 = .panic) ∧
      (∀ outputFile : String, outputFile ≠ "" →
        (os.WriteFile w.fs (utf8 outputFile) (Generate L generator sess).1).2 = none →
        exportSingleSession L os w reader generator sessionID outputFile =
          (⟨(os.WriteFile w.fs (utf8 outputFile) (Generate L generator sess).1).1, w.stdout⟩,
           .panic))) := by
  refine ⟨?_, ?_, ?_⟩
  · unfold sessionIDPrefix
    by_cases h : 8 ≤ (utf8 sessionID).length <;> simp [h]
  · intro h8
    refine ⟨sessionIDPrefix_of_le _ h8, ?_, ?_, ?_⟩
    · rw [List.length_take]
      exact Nat.min_eq_left h8
    · intro outputDir n i hw
      unfold exportSession
      rw [hread]
      simp only [Generate, exportFilename_of_le L _ _ h8, sessionIDPrefix_of_le _ h8]
      simp only [Generate] at hw
      cases hwf : os.WriteFile w.fs
          (os.Join [utf8 outputDir, sanitizeFilename L (utf8 sess.Info.Title) ++ utf8 "_" ++
            (utf8 sessionID).take 8 ++ utf8 ".md"])
          (String.join (generateWrites L generator sess)) with
      | mk fs e =>
        rw [hwf] at hw
        simp only at hw
        subst hw
        rfl
    · intro outputFile hfile hw
      rw [exportSingleSession_to_file L os w reader generator sessionID outputFile sess hread
        hfile]
      cases hwf : os.WriteFile w.fs (utf8 outputFile) (Generate L generator sess).1 with
      | mk fs e =>
        rw [hwf] at hw
        simp only at hw
        subst hw
        simp only [sessionIDPrefix_of_le _ h8]
  · intro hlt
    refine ⟨sessionIDPrefix_of_lt _ hlt, ?_, ?_, ?_⟩
    · intro outputDir n i
      exact exportSession_of_lt L os reader generator outputDir n w i sessionID hlt
    · intro w0 sessionIDs outputDir hmem hdir
      exact exportMultipleSessions_of_lt L os w0 reader generator sessionIDs outputDir sessionID
        hlt hmem hdir
    · intro outputFile hfile hw
      rw [exportSingleSession_to_file L os w reader generator sessionID outputFile sess hread
        hfile]
      cases hwf : os.WriteFile w.fs (utf8 outputFile) (Generate L generator sess).1 with
      | mk fs e =>
        rw [hwf] at hw
        simp only at hw
        subst hw
        simp only [sessionIDPrefix_of_lt _ hlt]

/-- C21 at `exportLib`, `sampleOs` and the storage `exportFS`: the session
"abc123" of the usage example can be read and has 6 bytes, and both exports
panic on it, multi-session export after the progress line of the session
before it; the session "abc123def456" is exported with the prefix "abc123de". -/
theorem sessionID_slice_in_range_iff_witness :
    ReadSession exportLib exportFS ⟨"/data", ""⟩ "abc123" = .ok ⟨shortInfo, [], []⟩ ∧
    (utf8 "abc123").length < 8 ∧
    sessionIDPrefix (utf8 "abc123") = none ∧
    (exportSingleSession exportLib sampleOs ⟨exportFS, []⟩ ⟨"/data", ""⟩
      (NewGenerator ⟨false, false, false⟩) "abc123" "session.md").2 = .panic ∧
    (exportSingleSession exportLib sampleOs ⟨exportFS, []⟩ ⟨"/data", ""⟩
      (NewGenerator ⟨false, false, false⟩) "abc123" "session.md").1.stdout = [] ∧
    (exportMultipleSessions exportLib sampleOs ⟨exportFS, []⟩ ⟨"/data", ""⟩
      (NewGenerator ⟨false, false, false⟩) ["abc123def456", "abc123"] "./exports").2 = .panic ∧
    (exportMultipleSessions exportLib sampleOs ⟨exportFS, []⟩ ⟨"/data", ""⟩
      (NewGenerator ⟨false, false, false⟩) ["abc123def456", "abc123"] "./exports").1.stdout =
      [utf8 "Exporting 2 session(s) to ./exports...\n",
       utf8 "  [1/2] abc123de -> Fix bug #1_abc123de.md\n"] ∧
    ReadSession exportLib exportFS ⟨"/data", ""⟩ "abc123def456" = .ok ⟨longInfo, [], []⟩ ∧
    8 ≤ (utf8 "abc123def456").length ∧
    sessionIDPrefix (utf8 "abc123def456") = some (utf8 "abc123de") ∧
    (exportSingleSession exportLib sampleOs ⟨exportFS, []⟩ ⟨"/data", ""⟩
      (NewGenerator ⟨false, false, false⟩) "abc123def456" "session.md").2 = .nil ∧
    (exportSingleSession exportLib sampleOs ⟨exportFS, []⟩ ⟨"/data", ""⟩
      (NewGenerator ⟨false, false, false⟩) "abc123def456" "session.md").1.stdout =
      [utf8 "Exported session abc123de to session.md\n"] :=
  have hshort := (sessionID_slice_in_range_iff exportLib sampleOs ⟨exportFS, []⟩ ⟨"/data", ""⟩
    (NewGenerator ⟨false, false, false⟩) "abc123" ⟨shortInfo, [], []⟩ rfl).2.2 (by decide)
  have hlong := (sessionID_slice_in_range_iff exportLib sampleOs ⟨exportFS, []⟩ ⟨"/data", ""⟩
    (NewGenerator ⟨false, false, false⟩) "abc123def456" ⟨longInfo, [], []⟩ rfl).2.1 (by decide)
  ⟨rfl, by decide, hshort.1,
    congrArg Prod.snd (hshort.2.2.2 "session.md" (by decide) rfl),
    congrArg (fun r => r.1.stdout) (hshort.2.2.2 "session.md" (by decide) rfl),
    hshort.2.2.1 ⟨exportFS, []⟩ ["abc123def456", "abc123"] "./exports" (by decide) rfl,
    by decide,
    rfl, by decide, hlong.1,
    congrArg Prod.snd (hlong.2.2.2 "session.md" (by decide) rfl),
    congrArg (fun r => r.1.stdout) (hlong.2.2.2 "session.md" (by decide) rfl)⟩

/-! ## Stores at which `ReadSession` and `Generate` are evaluated together -/

/-- The text of the info file of the session s1. -/
def storeInfoJSON : String :=
  "\x7b\"id\":\"s1\",\"title\":\"t\",\"version\":\"1\"," ++
  "\"time\":\x7b\"created\":1000,\"updated\":2000\x7d\x7d"

/-- The JSON text of `earlyToolPart`. -/
def earlyToolPartJSON : String :=
  "\x7b\"id\":\"p1\",\"messageID\":\"m1\",\"sessionID\":\"s1\",\"type\":\"tool\"," ++
  "\"time\":\x7b\"start\":1000,\"end\":1000\x7d\x7d"

/-- The JSON text of `lateTextPart`. -/
def lateTextPartJSON : String :=
  "\x7b\"id\":\"p2\",\"messageID\":\"m1\",\"sessionID\":\"s1\",\"type\":\"text\"," ++
  "\"text\":\"hello\",\"time\":\x7b\"start\":2000,\"end\":2000\x7d\x7d"

/-- A text part of the message m1 created at millisecond 1500. -/
def midTextPart : MessagePart :=
  { ID := "p9", MessageID := "m1", SessionID := "s1", Type_ := "text", Text := some "mid",
    Tool := none, CallID := none, State := none, Data := none, Time := some ⟨1500, 1500⟩ }

/-- The JSON text of `midTextPart`. -/
def midTextPartJSON : String :=
  "\x7b\"id\":\"p9\",\"messageID\":\"m1\",\"sessionID\":\"s1\",\"type\":\"text\"," ++
  "\"text\":\"mid\",\"time\":\x7b\"start\":1500,\"end\":1500\x7d\x7d"

/-- A text part of the message m3 created at millisecond 3000. -/
def strayPart : MessagePart :=
  { ID := "p7", MessageID := "m3", SessionID := "s1", Type_ := "text", Text := some "late",
    Tool := none, CallID := none, State := none, Data := none, Time := some ⟨3000, 3000⟩ }

/-- A text part of the message m3 created at millisecond 500. -/
def ownPart : MessagePart :=
  { ID := "p8", MessageID := "m3", SessionID := "s1", Type_ := "text", Text := some "early",
    Tool := none, CallID := none, State := none, Data := none, Time := some ⟨500, 500⟩ }

/-- The JSON text of `strayPart`. -/
def strayPartJSON : String :=
  "\x7b\"id\":\"p7\",\"messageID\":\"m3\",\"sessionID\":\"s1\",\"type\":\"text\"," ++
  "\"text\":\"late\",\"time\":\x7b\"start\":3000,\"end\":3000\x7d\x7d"

/-- The JSON text of `ownPart`. -/
def ownPartJSON : String :=
  "\x7b\"id\":\"p8\",\"messageID\":\"m3\",\"sessionID\":\"s1\",\"type\":\"text\"," ++
  "\"text\":\"early\",\"time\":\x7b\"start\":500,\"end\":500\x7d\x7d"

/-- The library `sampleLib` with decoders that know the texts above. -/
def storeLib : GoLib :=
  { sampleLib with
    unmarshalSessionInfo := fun data =>
      if data = storeInfoJSON then .ok updatedInfo
      else .error "unexpected end of JSON input"
    unmarshalMessagePart := fun data =>
      if data = earlyToolPartJSON then .ok earlyToolPart
      else if data = lateTextPartJSON then .ok lateTextPart
      else if data = midTextPartJSON then .ok midTextPart
      else if data = strayPartJSON then .ok strayPart
      else if data = ownPartJSON then .ok ownPart
      else .error "unexpected end of JSON input" }

/-- A legacy storage under /store with the session s1: the messages m1 and m3,
the parts p1 (tool, 1000 ms), p2 (text, 2000 ms) and p9 (text, 1500 ms) in the
directory of m1 and the part p8 in the directory of m3, every part file in the
directory of the message it names. -/
def filedFS : FileSystem :=
  { ReadDir := fun path =>
      if path = "/store/session/message/s1" then .ok [⟨"m1.json", false⟩, ⟨"m3.json", false⟩]
      else if path = "/store/session/part/s1/m1" then
        .ok [⟨"p1.json", false⟩, ⟨"p2.json", false⟩, ⟨"p9.json", false⟩]
      else if path = "/store/session/part/s1/m3" then .ok [⟨"p8.json", false⟩]
      else .error ⟨"no such file or directory", true⟩
    ReadFile := fun path =>
      if path = "/store/session/info/s1.json" then .ok storeInfoJSON
      else if path = "/store/session/message/s1/m1.json" then .ok untimedMessageJSON
      else if path = "/store/session/message/s1/m3.json" then .ok epochMessageJSON
      else if path = "/store/session/part/s1/m1/p1.json" then .ok earlyToolPartJSON
      else if path = "/store/session/part/s1/m1/p2.json" then .ok lateTextPartJSON
      else if path = "/store/session/part/s1/m1/p9.json" then .ok midTextPartJSON
      else if path = "/store/session/part/s1/m3/p8.json" then .ok ownPartJSON
      else .error ⟨"no such file or directory", true⟩
    Stat := fun _ => none
    Join := fun elems => "/".intercalate elems }

/-- The storage `filedFS` with another directory of m1: it holds p2 and the
part file p7, whose messageID names the message m3. -/
def misfiledFS : FileSystem :=
  { filedFS with
    ReadDir := fun path =>
      if path = "/store/session/part/s1/m1" then .ok [⟨"p2.json", false⟩, ⟨"p7.json", false⟩]
      else filedFS.ReadDir path
    ReadFile := fun path =>
      if path = "/store/session/part/s1/m1/p7.json" then .ok strayPartJSON
      else filedFS.ReadFile path }

/-- The storage `filedFS` with another message directory: its two files both
hold the message m1. -/
def twinFS : FileSystem :=
  { filedFS with
    ReadDir := fun path =>
      if path = "/store/session/message/s1" then
        .ok [⟨"m1.json", false⟩, ⟨"m1.copy.json", false⟩]
      else filedFS.ReadDir path
    ReadFile := fun path =>
      if path = "/store/session/message/s1/m1.copy.json" then .ok untimedMessageJSON
      else filedFS.ReadFile path }

/-! ## C1: order of the parts of a message -/

/-- The parts that the loop of `ReadSession` appends for one message: what
`ReadMessageParts` returns for its ID, nothing where that fails. -/
def partsOfMessage (L : GoLib) (fs : FileSystem) (r : Reader) (sessionID : String)
    (message : Message) : List MessagePart :=
  match ReadMessageParts L fs r sessionID message.ID with
  | .error _ => []
  | .ok parts => parts

theorem foldl_loadAllParts (L : GoLib) (fs : FileSystem) (r : Reader) (sessionID : String)
    (messages : List Message) (acc : List MessagePart) :
    messages.foldl
      (fun allParts message =>
        match ReadMessageParts L fs r sessionID message.ID with
        | .error _ => allParts
        | .ok parts => allParts ++ parts)
      acc = acc ++ messages.flatMap (partsOfMessage L fs r sessionID) := by
  induction messages generalizing acc with
  | nil => simp
  | cons m rest ih =>
    rw [List.foldl_cons, ih, List.flatMap_cons]
    unfold partsOfMessage
    cases ReadMessageParts L fs r sessionID m.ID <;> simp

theorem loadAllParts_eq_flatMap (L : GoLib) (fs : FileSystem) (r : Reader)
    (sessionID : String) (messages : List Message) :
    loadAllParts L fs r sessionID messages =
      messages.flatMap (partsOfMessage L fs r sessionID) := by
  unfold loadAllParts
  rw [foldl_loadAllParts]
  simp

/-- A session that `ReadSession` returns holds the parts of its messages,
message after message. -/
theorem ReadSession_parts (L : GoLib) (fs : FileSystem) (r : Reader) (sessionID : String)
    (sess : Session) (hread : ReadSession L fs r sessionID = .ok sess) :
    sess.Parts = sess.Messages.flatMap (partsOfMessage L fs r sessionID) := by
  unfold ReadSession at hread
  cases hinfo : ReadSessionInfo L fs r sessionID with
  | error e => rw [hinfo] at hread; cases hread
  | ok info =>
    rw [hinfo] at hread
    cases hmsg : ReadMessages L fs r sessionID with
    | error e => rw [hmsg] at hread; cases hread
    | ok messages =>
      rw [hmsg] at hread
      simp only [Except.ok.injEq] at hread
      subst hread
      exact loadAllParts_eq_flatMap L fs r sessionID messages

/-- What `ReadMessageParts` returns stands in non-decreasing creation time. -/
theorem partsOfMessage_sorted (L : GoLib) (hL : L.SortsAsGo) (fs : FileSystem) (r : Reader)
    (sessionID : String) (message : Message) :
    (partsOfMessage L fs r sessionID message).Pairwise partNotAfter := by
  unfold partsOfMessage ReadMessageParts
  cases fs.ReadDir (partDir fs r sessionID message.ID) with
  | error err =>
    by_cases h : err.isNotExist = true <;> simp [h]
  | ok entries => exact sortSlice_partLess_sorted L hL _

/-- Where every part lies with the message it names and no two messages share
an ID, the parts that carry the ID of a message are the parts of that message. -/
theorem filter_flatMap_of_filed (f : Message → List MessagePart) (messages : List Message)
    (hids : (messages.map (fun m => m.ID)).Nodup)
    (hfiled : ∀ m ∈ messages, ∀ p ∈ f m, p.MessageID = m.ID)
    (m : Message) (hm : m ∈ messages) :
    (messages.flatMap f).filter (fun p => decide (p.MessageID = m.ID)) = f m := by
  induction messages with
  | nil => cases hm
  | cons a rest ih =>
    rw [List.map_cons, List.nodup_cons] at hids
    rw [List.flatMap_cons, List.filter_append]
    have hrestFiled : ∀ m ∈ rest, ∀ p ∈ f m, p.MessageID = m.ID :=
      fun m' hm' => hfiled m' (List.mem_cons_of_mem a hm')
    by_cases hid : m.ID = a.ID
    · have hma : m = a := by
        rcases List.mem_cons.mp hm with h | h
        · exact h
        · exact absurd (List.mem_map.mpr ⟨m, h, hid⟩) hids.1
      subst hma
      have h1 : (f m).filter (fun p => decide (p.MessageID = m.ID)) = f m := by
        rw [List.filter_eq_self]
        intro p hp
        simpa using hfiled m (List.mem_cons_self m rest) p hp
      have h2 : (rest.flatMap f).filter (fun p => decide (p.MessageID = m.ID)) = [] := by
        rw [List.filter_eq_nil_iff]
        intro p hp
        obtain ⟨m', hm', hp'⟩ := List.mem_flatMap.mp hp
        have hpid := hrestFiled m' hm' p hp'
        have hne : m'.ID ≠ m.ID := fun e => hids.1 (List.mem_map.mpr ⟨m', hm', e⟩)
        simpa [hpid] using hne
      rw [h1, h2, List.append_nil]
    · have hmr : m ∈ rest := by
        rcases List.mem_cons.mp hm with h | h
        · exact absurd (congrArg Message.ID h) hid
        · exact h
      have h1 : (f a).filter (fun p => decide (p.MessageID = m.ID)) = [] := by
        rw [List.filter_eq_nil_iff]
        intro p hp
        have hpid := hfiled a (List.mem_cons_self a rest) p hp
        have hne : a.ID ≠ m.ID := fun e => hid e.symm
        simpa [hpid] using hne
      rw [h1, List.nil_append]
      exact ih hids.2 hrestFiled hmr

/-- The loop of `Generate` reads the map of the parts at the IDs of the
messages only, and writes the messages in list order, numbered from `i + 1`. -/
theorem writeMessages_eq_flatMap_on (L : GoLib) (g : Generator) (pbm : PartsByMessage)
    (f : Message → List MessagePart) (messages : List Message) (i : Nat)
    (h : ∀ m ∈ messages, pbm m.ID = f m) :
    writeMessages L g pbm messages i =
      (messages.enumFrom i).flatMap (fun im => writeMessage L g im.2 (f im.2) (im.1 + 1)) := by
  induction messages generalizing i with
  | nil => rfl
  | cons m rest ih =>
    simp only [writeMessages, List.enumFrom_cons, List.flatMap_cons]
    rw [h m (List.mem_cons_self m rest),
      ih (i + 1) (fun m' hm' => h m' (List.mem_cons_of_mem m hm'))]

/-- C1, as stated, fails in `Generate`, for three reasons. In the store
`filedFS` the tool part p1 of the message m1 is created before its text parts
(p9 at 1500 ms, p2 at 2000 ms), and `Generate` writes the text parts first and
the tool part under its heading after them: `writeParts` writes bucket by
bucket. In the store `misfiledFS` the part file p7 (3000 ms) lies in the
directory of m1 and names the message m3, whose own part p8 was created at
500 ms: `Generate` groups by the messageID of the part, the parts of a message
are sorted directory by directory, and p7 is written before p8, both text. In
the store `twinFS` two message files hold the message m1: its parts are read
twice, and the text part p2 (2000 ms) of the first reading is written before
the text part p9 (1500 ms) of the second. -/
theorem later_text_part_rendered_before_earlier_tool_part :
    (ReadSession storeLib filedFS ⟨"/store", ""⟩ "s1" =
        .ok ⟨updatedInfo, [untimedMessage, epochMessage],
          [earlyToolPart, midTextPart, lateTextPart, ownPart]⟩ ∧
      earlyToolPart.GetCreatedAt.Before midTextPart.GetCreatedAt ∧
      earlyToolPart.GetCreatedAt.Before lateTextPart.GetCreatedAt ∧
      (∀ g : Generator,
        generateWrites storeLib g ⟨updatedInfo, [untimedMessage, epochMessage],
            [earlyToolPart, midTextPart, lateTextPart, ownPart]⟩ =
          writeSessionHeader storeLib updatedInfo ++
          writeMessage storeLib g untimedMessage [earlyToolPart, midTextPart, lateTextPart] 1 ++
          writeMessage storeLib g epochMessage [ownPart] 2) ∧
      (∀ (L : GoLib) (g : Generator),
        writeParts L g [earlyToolPart, midTextPart, lateTextPart] =
          ["mid", "\n\n"] ++ ["hello", "\n\n"] ++ ["### Tool Executions\n\n"] ++
            writeToolPart L g earlyToolPart)) ∧
    ((∀ L : GoLib, sortSlice L partLess [earlyToolPart, lateTextPart] =
        [earlyToolPart, lateTextPart]) ∧
      emissionOrder [earlyToolPart, lateTextPart] = [lateTextPart, earlyToolPart] ∧
      (∀ (L : GoLib) (g : Generator),
        writeParts L g [earlyToolPart, lateTextPart] =
          writeTextPart L lateTextPart ++ ["### Tool Executions\n\n"] ++
            writeToolPart L g earlyToolPart)) ∧
    (ReadSession storeLib misfiledFS ⟨"/store", ""⟩ "s1" =
        .ok ⟨updatedInfo, [untimedMessage, epochMessage], [lateTextPart, strayPart, ownPart]⟩ ∧
      strayPart.MessageID = epochMessage.ID ∧ ownPart.MessageID = epochMessage.ID ∧
      ownPart.GetCreatedAt.Before strayPart.GetCreatedAt ∧
      (∀ g : Generator,
        generateWrites storeLib g ⟨updatedInfo, [untimedMessage, epochMessage],
            [lateTextPart, strayPart, ownPart]⟩ =
          writeSessionHeader storeLib updatedInfo ++
          writeMessage storeLib g untimedMessage [lateTextPart] 1 ++
          writeMessage storeLib g epochMessage [strayPart, ownPart] 2) ∧
      (∀ (L : GoLib) (g : Generator),
        writeParts L g [strayPart, ownPart] = ["late", "\n\n"] ++ ["early", "\n\n"])) ∧
    (ReadSession storeLib twinFS ⟨"/store", ""⟩ "s1" =
        .ok ⟨updatedInfo, [untimedMessage, untimedMessage],
          [earlyToolPart, midTextPart, lateTextPart, earlyToolPart, midTextPart,
            lateTextPart]⟩ ∧
      midTextPart.GetCreatedAt.Before lateTextPart.GetCreatedAt ∧
      (∀ g : Generator,
        generateWrites storeLib g ⟨updatedInfo, [untimedMessage, untimedMessage],
            [earlyToolPart, midTextPart, lateTextPart, earlyToolPart, midTextPart,
              lateTextPart]⟩ =
          writeSessionHeader storeLib updatedInfo ++
          writeMessage storeLib g untimedMessage
            [earlyToolPart, midTextPart, lateTextPart, earlyToolPart, midTextPart,
              lateTextPart] 1 ++
          writeMessage storeLib g untimedMessage
            [earlyToolPart, midTextPart, lateTextPart, earlyToolPart, midTextPart,
              lateTextPart] 2) ∧
      (∀ (L : GoLib) (g : Generator),
        writeParts L g
            [earlyToolPart, midTextPart, lateTextPart, earlyToolPart, midTextPart,
              lateTextPart] =
          ["mid", "\n\n"] ++ ["hello", "\n\n"] ++ ["mid", "\n\n"] ++ ["hello", "\n\n"] ++
            ["### Tool Executions\n\n"] ++
            (writeToolPart L g earlyToolPart ++ writeToolPart L g earlyToolPart))) := by
  refine ⟨⟨rfl, by decide, by decide, ?_, ?_⟩, ⟨?_, by decide, ?_⟩,
    ⟨rfl, rfl, rfl, by decide, ?_, ?_⟩, ⟨rfl, by decide, ?_, ?_⟩⟩
  · intro g
    have h1 : groupPartsByMessage [earlyToolPart, midTextPart, lateTextPart, ownPart] "m1" =
        [earlyToolPart, midTextPart, lateTextPart] := by decide
    have h3 : groupPartsByMessage [earlyToolPart, midTextPart, lateTextPart, ownPart] "m3" =
        [ownPart] := by decide
    simp only [generateWrites, writeMessages, List.append_nil, List.append_assoc]
    rw [show untimedMessage.ID = "m1" from rfl, show epochMessage.ID = "m3" from rfl, h1, h3]
  · intro L g
    have h : groupByType [earlyToolPart, midTextPart, lateTextPart] =
        ⟨[midTextPart, lateTextPart], [earlyToolPart], [], []⟩ := by decide
    simp only [writeParts, h]
    simp [writeTextPart, midTextPart, lateTextPart]
  · intro L
    rw [sortSlice_of_le partLess L _ (by decide)]
    decide
  · intro L g
    have h : groupByType [earlyToolPart, lateTextPart] =
        ⟨[lateTextPart], [earlyToolPart], [], []⟩ := by decide
    simp [writeParts, h]
  · intro g
    have h1 : groupPartsByMessage [lateTextPart, strayPart, ownPart] "m1" = [lateTextPart] := by
      decide
    have h3 : groupPartsByMessage [lateTextPart, strayPart, ownPart] "m3" =
        [strayPart, ownPart] := by decide
    simp only [generateWrites, writeMessages, List.append_nil, List.append_assoc]
    rw [show untimedMessage.ID = "m1" from rfl, show epochMessage.ID = "m3" from rfl, h1, h3]
  · intro L g
    have h : groupByType [strayPart, ownPart] = ⟨[strayPart, ownPart], [], [], []⟩ := by decide
    simp only [writeParts, h]
    simp [writeTextPart, strayPart, ownPart]
  · intro g
    have h1 : groupPartsByMessage
        [earlyToolPart, midTextPart, lateTextPart, earlyToolPart, midTextPart, lateTextPart]
        "m1" =
        [earlyToolPart, midTextPart, lateTextPart, earlyToolPart, midTextPart, lateTextPart] := by
      decide
    simp only [generateWrites, writeMessages, List.append_nil, List.append_assoc]
    rw [show untimedMessage.ID = "m1" from rfl, h1]
  · intro L g
    have h : groupByType
        [earlyToolPart, midTextPart, lateTextPart, earlyToolPart, midTextPart, lateTextPart] =
        ⟨[midTextPart, lateTextPart, midTextPart, lateTextPart],
          [earlyToolPart, earlyToolPart], [], []⟩ := by decide
    simp only [writeParts, h]
    simp [writeTextPart, midTextPart, lateTextPart]

/-- C1, amended: for every session that `ReadSession` returns from a store in
which no two messages share an ID and every part file lies in the directory of
the message its messageID names, `Generate` writes the header and then, message
by message, the parts read from the directory of the message; these stand in
non-decreasing creation-time order, so does each of the four buckets of
`writeParts` (text, file, tool, other), and the buckets are written in the
order text, file, tool, other, whatever the creation times. The sort of the
library, which orders a directory of more than 12 parts, enters by its
contract `SortsAsGo`. -/
theorem parts_of_one_bucket_rendered_in_creation_order (L : GoLib) (g : Generator)
    (fs : FileSystem) (r : Reader) (sessionID : String) (sess : Session)
    (hsort : L.SortsAsGo)
    (hread : ReadSession L fs r sessionID = .ok sess)
    (hids : (sess.Messages.map (fun m => m.ID)).Nodup)
    (hfiled : ∀ m ∈ sess.Messages, ∀ p ∈ partsOfMessage L fs r sessionID m,
      p.MessageID = m.ID) :
    generateWrites L g sess =
      writeSessionHeader L sess.Info ++
        sess.Messages.enum.flatMap
          (fun im => writeMessage L g im.2 (partsOfMessage L fs r sessionID im.2) (im.1 + 1)) ∧
    ∀ m ∈ sess.Messages,
      groupPartsByMessage sess.Parts m.ID = partsOfMessage L fs r sessionID m ∧
      (partsOfMessage L fs r sessionID m).Pairwise partNotAfter ∧
      ((partsOfMessage L fs r sessionID m).filter
        (fun p => decide (p.Type_ = "text"))).Pairwise partNotAfter ∧
      ((partsOfMessage L fs r sessionID m).filter
        (fun p => decide (p.Type_ = "file"))).Pairwise partNotAfter ∧
      ((partsOfMessage L fs r sessionID m).filter
        (fun p => decide (p.Type_ = "tool"))).Pairwise partNotAfter ∧
      ((partsOfMessage L fs r sessionID m).filter isOtherPart).Pairwise partNotAfter ∧
      writeParts L g (partsOfMessage L fs r sessionID m) =
        ((partsOfMessage L fs r sessionID m).filter
          (fun p => decide (p.Type_ = "text"))).flatMap (writeTextPart L) ++
        (if (partsOfMessage L fs r sessionID m).any (fun p => decide (p.Type_ = "file")) then
          ["### Attachments\n\n"] ++
            ((partsOfMessage L fs r sessionID m).filter
              (fun p => decide (p.Type_ = "file"))).flatMap (writeFilePart L) ++ ["\n"]
         else []) ++
        (if (partsOfMessage L fs r sessionID m).any (fun p => decide (p.Type_ = "tool")) then
          ["### Tool Executions\n\n"] ++
            ((partsOfMessage L fs r sessionID m).filter
              (fun p => decide (p.Type_ = "tool"))).flatMap (writeToolPart L g)
         else []) ++
        ((partsOfMessage L fs r sessionID m).filter isOtherPart).flatMap (writeOtherPart L) := by
  have hparts := ReadSession_parts L fs r sessionID sess hread
  have hgroup : ∀ m ∈ sess.Messages,
      groupPartsByMessage sess.Parts m.ID = partsOfMessage L fs r sessionID m := by
    intro m hm
    rw [groupPartsByMessage_eq_filter, hparts]
    exact filter_flatMap_of_filed (partsOfMessage L fs r sessionID) sess.Messages hids hfiled m hm
  constructor
  · unfold generateWrites
    rw [writeMessages_eq_flatMap_on L g (groupPartsByMessage sess.Parts)
      (partsOfMessage L fs r sessionID) sess.Messages 0 hgroup]
    rfl
  · intro m hm
    have hs := partsOfMessage_sorted L hsort fs r sessionID m
    exact ⟨hgroup m hm, hs, pairwise_filter_of_pairwise _ _ _ hs,
      pairwise_filter_of_pairwise _ _ _ hs, pairwise_filter_of_pairwise _ _ _ hs,
      pairwise_filter_of_pairwise _ _ _ hs, writeParts_eq_filters L g _⟩

/-- The library `storeLib` takes its sort from `sampleLib`. -/
theorem storeLib_sortsAsGo : storeLib.SortsAsGo := sampleLib_sortsAsGo

/-- C1, amended, at the store `filedFS`: the directory of the message m1 lists
the parts p1, p2, p9; they are read in the order p1 (tool, 1000 ms), p9 (text,
1500 ms), p2 (text, 2000 ms), the text bucket is p9, p2, and `Generate` writes
the two messages with the parts of their directories. -/
theorem parts_of_one_bucket_rendered_in_creation_order_witness :
    ReadSession storeLib filedFS ⟨"/store", ""⟩ "s1" =
      .ok ⟨updatedInfo, [untimedMessage, epochMessage],
        [earlyToolPart, midTextPart, lateTextPart, ownPart]⟩ ∧
    (List.map (fun m => m.ID) [untimedMessage, epochMessage]).Nodup ∧
    (∀ m ∈ [untimedMessage, epochMessage],
      ∀ p ∈ partsOfMessage storeLib filedFS ⟨"/store", ""⟩ "s1" m, p.MessageID = m.ID) ∧
    partsOfMessage storeLib filedFS ⟨"/store", ""⟩ "s1" untimedMessage =
      [earlyToolPart, midTextPart, lateTextPart] ∧
    List.filter (fun p => decide (p.Type_ = "text"))
      (partsOfMessage storeLib filedFS ⟨"/store", ""⟩ "s1" untimedMessage) =
      [midTextPart, lateTextPart] ∧
    generateWrites storeLib ⟨false, false, false⟩
        ⟨updatedInfo, [untimedMessage, epochMessage],
          [earlyToolPart, midTextPart, lateTextPart, ownPart]⟩ =
      writeSessionHeader storeLib updatedInfo ++
        List.flatMap [(0, untimedMessage), (1, epochMessage)]
          (fun im => writeMessage storeLib ⟨false, false, false⟩ im.2
            (partsOfMessage storeLib filedFS ⟨"/store", ""⟩ "s1" im.2) (im.1 + 1)) ∧
    groupPartsByMessage [earlyToolPart, midTextPart, lateTextPart, ownPart] untimedMessage.ID =
      partsOfMessage storeLib filedFS ⟨"/store", ""⟩ "s1" untimedMessage ∧
    (partsOfMessage storeLib filedFS ⟨"/store", ""⟩ "s1" untimedMessage).Pairwise
      partNotAfter ∧
    (List.filter (fun p => decide (p.Type_ = "text"))
      (partsOfMessage storeLib filedFS ⟨"/store", ""⟩ "s1" untimedMessage)).Pairwise
      partNotAfter :=
  have hfiled : ∀ m ∈ [untimedMessage, epochMessage],
      ∀ p ∈ partsOfMessage storeLib filedFS ⟨"/store", ""⟩ "s1" m, p.MessageID = m.ID := by
    decide
  have h := parts_of_one_bucket_rendered_in_creation_order storeLib ⟨false, false, false⟩
    filedFS ⟨"/store", ""⟩ "s1"
    ⟨updatedInfo, [untimedMessage, epochMessage],
      [earlyToolPart, midTextPart, lateTextPart, ownPart]⟩
    storeLib_sortsAsGo rfl (by decide) hfiled
  have hm := h.2 untimedMessage (by decide)
  ⟨rfl, by decide, hfiled, rfl, rfl, h.1, hm.1, hm.2.1, hm.2.2.1⟩

end OpencodeExport
